import Mathlib

/- Verification of the configuration and profile-management engine of
   decky-lsfg-vk:
     - py_modules/lsfg_vk/config_schema.py   (schema, validator, TOML codec, profile store)
     - py_modules/lsfg_vk/configuration.py   (ConfigurationService)
     - shared_config.py                      (canonical schema definition)
     - scripts/generate_python_boilerplate.py (generator of config_schema_generated.py:
       the script codec is the deterministic output of this generator applied to
       CONFIG_SCHEMA_DEF, and is embedded here from that source)

   Modelling conventions:
     - Python str is modelled by Lean String; the line-level operations
       (strip/split/startswith/lower) are defined on the underlying character
       lists so that they can be reasoned about by list induction.
     - Python dict is modelled by an insertion-ordered association list with
       the CPython semantics: assignment to an existing key updates it in
       place, assignment to a fresh key appends.
     - Python float is modelled by the canonical decimal number its repr
       denotes (structure Dec below): CPython guarantees float(repr(x)) == x
       and repr is injective, so on every value these codecs exchange the
       decimal encoding is faithful.  Exponent notation, inf/nan and
       underscore digit separators are outside the fragment these files
       produce or consume and are not modelled.
     - A Python function that can raise is modelled with Option: none is the
       raising outcome. -/

/-! ## Character-list utilities (models of the Python str methods used) -/

/-- Whitespace, as Python str.strip() sees it (ASCII fragment). -/
def isPyWS (c : Char) : Bool :=
  c = ' ' || c = '\t' || c = '\n' || c = '\r' || c = '\x0b' || c = '\x0c'

/-- Model of str.strip(): drop whitespace from both ends. -/
def trimChars (l : List Char) : List Char :=
  ((l.dropWhile isPyWS).reverse.dropWhile isPyWS).reverse

/-- Model of str.split(sep) for a one-character separator. -/
def splitChar (c : Char) : List Char → List (List Char)
  | [] => [[]]
  | x :: xs =>
    match splitChar c xs with
    | [] => [[]]
    | y :: ys => if x = c then [] :: y :: ys else (x :: y) :: ys

/-- Model of str.split(sep, 1): split at the first occurrence, none if absent. -/
def splitFirstChar (c : Char) : List Char → Option (List Char × List Char)
  | [] => none
  | x :: xs =>
    if x = c then some ([], xs)
    else (splitFirstChar c xs).map (fun p => (x :: p.1, p.2))

/-- Model of sep.join(parts) for a one-character separator. -/
def joinChar (c : Char) : List (List Char) → List Char
  | [] => []
  | [s] => s
  | s :: rest => s ++ c :: joinChar c rest

/-! ## String-level wrappers -/

/-- Model of content.split(chr(10)). -/
def pyLines (s : String) : List String := (splitChar '\n' s.data).map String.mk

/-- Model of joining lines with a newline character. -/
def pyJoinLines (ls : List String) : String := ⟨joinChar '\n' (ls.map String.data)⟩

/-- Model of s.strip(). -/
def pyStrip (s : String) : String := ⟨trimChars s.data⟩

/-- Model of s.startswith(p). -/
def pyStartsWith (s p : String) : Bool := p.data.isPrefixOf s.data

/-- Model of s.endswith(p). -/
def pyEndsWith (s p : String) : Bool := s.data.reverse.take p.data.length = p.data.reverse

/-- Model of s.lower() (ASCII fragment). -/
def pyLower (s : String) : String := ⟨s.data.map Char.toLower⟩

/-! ## Decimal numbers: the model of Python float values -/

/-- Canonical finite decimal `man / 10 ^ exp`, the model of a Python float:
    the decimal number denoted by the float's repr. -/
structure Dec where
  man : Int
  exp : Nat
deriving DecidableEq, Repr

/-- Strip trailing zero decimals to reach the canonical representation. -/
def decNorm : Int → Nat → Dec
  | m, 0 => ⟨m, 0⟩
  | m, e + 1 => if m % 10 = 0 then decNorm (m / 10) e else ⟨m, e + 1⟩

/-! ## Python runtime values -/

/-- A Python value of one of the four schema types. -/
inductive PyVal where
  | pbool : Bool → PyVal
  | pint : Int → PyVal
  | pfloat : Dec → PyVal
  | pstr : String → PyVal
deriving DecidableEq, Repr

/-! ## Insertion-ordered dictionaries (Python dict) -/

/-- Model of d.get(k) / d[k]. -/
def alistGet {α : Type} (l : List (String × α)) (k : String) : Option α :=
  (l.find? (fun p => p.1 == k)).map Prod.snd

/-- Model of `k in d`. -/
def alistContains {α : Type} (l : List (String × α)) (k : String) : Bool :=
  l.any (fun p => p.1 == k)

/-- Model of d[k] = v: update in place when the key exists, else append. -/
def alistInsert {α : Type} (l : List (String × α)) (k : String) (v : α) :
    List (String × α) :=
  if alistContains l k then l.map (fun p => if p.1 == k then (k, v) else p)
  else l ++ [(k, v)]

/-- Model of `del d[k]`. -/
def alistErase {α : Type} (l : List (String × α)) (k : String) : List (String × α) :=
  l.filter (fun p => !(p.1 == k))

/-- Model of list(d.keys()). -/
def alistKeys {α : Type} (l : List (String × α)) : List String := l.map Prod.fst

/-! ## Rendering and parsing of numbers (Python str()/int()/float()) -/

/-- The decimal digit characters. -/
def digitChar10 : Nat → Char
  | 0 => '0'
  | 1 => '1'
  | 2 => '2'
  | 3 => '3'
  | 4 => '4'
  | 5 => '5'
  | 6 => '6'
  | 7 => '7'
  | 8 => '8'
  | 9 => '9'
  | _ => '*'

/-- Digits of a positive natural, most significant first (fuel-structured so
    that the kernel can evaluate it). -/
def natDigitsAux : Nat → Nat → List Char
  | 0, _ => []
  | _ + 1, 0 => []
  | fuel + 1, n + 1 =>
    natDigitsAux fuel ((n + 1) / 10) ++ [digitChar10 ((n + 1) % 10)]

/-- Model of str() on a nonnegative integer. -/
def renderNat (n : Nat) : String := if n = 0 then "0" else ⟨natDigitsAux n n⟩

/-- Model of str() on a Python int. -/
def renderInt (i : Int) : String :=
  if i < 0 then ⟨'-' :: (renderNat i.natAbs).data⟩ else renderNat i.natAbs

/-- Numeric value of a digit character. -/
def digitVal (c : Char) : Nat := c.toNat - 48

/-- Parse an all-digit character run (the digit part of int()/float()). -/
def parseNatChars (cs : List Char) : Option Nat :=
  if !cs.isEmpty && cs.all Char.isDigit then
    some (cs.foldl (fun a c => 10 * a + digitVal c) 0)
  else none

/-- Split an optional leading sign; returns (isNegative, rest). -/
def parseSign : List Char → Bool × List Char
  | [] => (false, [])
  | c :: rest =>
    if c = '-' then (true, rest)
    else if c = '+' then (false, rest)
    else (false, c :: rest)

/-- Model of Python int(str): surrounding whitespace, optional sign, digits.
    (Underscore separators are not modelled; none occur in the texts the
    codecs produce or consume.) -/
def pyIntOfString (s : String) : Option Int :=
  let p := parseSign (trimChars s.data)
  (parseNatChars p.2).map (fun n => if p.1 then -(n : Int) else (n : Int))

/-- Model of Python float(str) on the decimal-literal fragment:
    optional sign, digits, optional decimal point and digits.
    (Exponents, inf and nan are outside the modelled fragment.) -/
def pyFloatOfString (s : String) : Option Dec :=
  let p := parseSign (trimChars s.data)
  match splitFirstChar '.' p.2 with
  | none =>
    (parseNatChars p.2).map (fun n => decNorm (if p.1 then -(n : Int) else (n : Int)) 0)
  | some (ip, fp) =>
    if (!ip.isEmpty || !fp.isEmpty) && ip.all Char.isDigit && fp.all Char.isDigit then
      let ipv := ip.foldl (fun a c => 10 * a + digitVal c) 0
      let fpv := fp.foldl (fun a c => 10 * a + digitVal c) 0
      let v : Int := (ipv : Int) * 10 ^ fp.length + (fpv : Int)
      some (decNorm (if p.1 then -v else v) fp.length)
    else none

/-- Left-pad a digit run with zeros to width k. -/
def padLeftZeros (k : Nat) (s : List Char) : List Char :=
  List.replicate (k - s.length) '0' ++ s

/-- Model of str() on a Python float: the canonical decimal with at least one
    fractional digit (str(1.0) is the text 1.0). -/
def renderDec (d : Dec) : String :=
  let k := max d.exp 1
  let a := d.man.natAbs * 10 ^ (k - d.exp)
  let ip := a / 10 ^ k
  let fp := a % 10 ^ k
  let sign : List Char := if d.man < 0 then ['-'] else []
  ⟨sign ++ (renderNat ip).data ++ '.' :: padLeftZeros k (renderNat fp).data⟩

/-! ## Python coercions on values -/

/-- Python truthiness. -/
def pyTruthy : PyVal → Bool
  | .pbool b => b
  | .pint n => n != 0
  | .pfloat d => d.man != 0
  | .pstr s => !s.data.isEmpty

/-- Python int() truncation of a float toward zero. -/
def truncToInt (d : Dec) : Int :=
  let q : Nat := d.man.natAbs / 10 ^ d.exp
  if d.man < 0 then -(q : Int) else (q : Int)

/-- Model of int(v); none is the raising outcome (ValueError). -/
def pyIntFn : PyVal → Option Int
  | .pbool b => some (if b then 1 else 0)
  | .pint n => some n
  | .pfloat d => some (truncToInt d)
  | .pstr s => pyIntOfString s

/-- Model of float(v); none is the raising outcome (ValueError). -/
def pyFloatFn : PyVal → Option Dec
  | .pbool b => some ⟨if b then 1 else 0, 0⟩
  | .pint n => some ⟨n, 0⟩
  | .pfloat d => some d
  | .pstr s => pyFloatOfString s

/-- Model of str(v). -/
def pyStrFn : PyVal → String
  | .pbool b => if b then "True" else "False"
  | .pint n => renderInt n
  | .pfloat d => renderDec d
  | .pstr s => s

/-! ## The configuration schema (shared_config.CONFIG_SCHEMA_DEF) -/

/-- Schema field types (shared_config.ConfigFieldType). -/
inductive ConfigFieldType where
  | boolean
  | integer
  | float
  | string
deriving DecidableEq, Repr

/-- Where a field is stored (the "location" tag of shared_config). -/
inductive FieldLocation where
  | toml
  | script
deriving DecidableEq, Repr

/-- One field definition (config_schema.ConfigField, plus the location tag
    carried by the shared schema entries). -/
structure ConfigField where
  name : String
  field_type : ConfigFieldType
  default : PyVal
  description : String
  location : FieldLocation
deriving DecidableEq, Repr

/-- shared_config.CONFIG_SCHEMA_DEF, in source order. -/
def CONFIG_SCHEMA_DEF : List ConfigField :=
  [⟨"dll", .string, .pstr "/games/Lossless Scaling/Lossless.dll",
    "specify where Lossless.dll is stored", .toml⟩,
   ⟨"multiplier", .integer, .pint 1,
    "change the fps multiplier", .toml⟩,
   ⟨"flow_scale", .float, .pfloat ⟨8, 1⟩,
    "change the flow scale", .toml⟩,
   ⟨"performance_mode", .boolean, .pbool true,
    "use a lighter model for FG (recommended for most games)", .toml⟩,
   ⟨"hdr_mode", .boolean, .pbool false,
    "enable HDR mode (only for games that support HDR)", .toml⟩,
   ⟨"experimental_present_mode", .string, .pstr "fifo",
    "override Vulkan present mode (may cause crashes)", .toml⟩,
   ⟨"dxvk_frame_rate", .integer, .pint 0,
    "base framerate cap for DirectX games before frame multiplier", .script⟩,
   ⟨"enable_wow64", .boolean, .pbool false,
    "enable PROTON_USE_WOW64=1 for 32-bit games (use with ProtonGE to fix crashing)", .script⟩,
   ⟨"disable_steamdeck_mode", .boolean, .pbool false,
    "disable Steam Deck mode (unlocks hidden settings in some games)", .script⟩,
   ⟨"mangohud_workaround", .boolean, .pbool false,
    "Enables a transparent mangohud overlay, sometimes fixes issues with 2X multiplier in game mode", .script⟩,
   ⟨"disable_vkbasalt", .boolean, .pbool false,
    "Disables vkBasalt layer which can conflict with LSFG (Reshade, some Decky plugins)", .script⟩,
   ⟨"force_enable_vkbasalt", .boolean, .pbool false,
    "Force vkBasalt to engage to fix framepacing issues in gamemode", .script⟩,
   ⟨"gamescope_frame_pacing", .boolean, .pbool false,
    "Enable gamescope frame pacing workaround for timing issues", .script⟩,
   ⟨"frame_pacing_target_ms", .integer, .pint 25,
    "Target frame time in milliseconds for frame pacing (25ms = 40fps)", .script⟩]

/-- config_schema.CONFIG_SCHEMA: the shared schema with the dll default
    overridden to the empty string. -/
def CONFIG_SCHEMA : List ConfigField :=
  CONFIG_SCHEMA_DEF.map (fun f =>
    if f.name == "dll" then { f with default := .pstr "" } else f)

/-- config_schema.SCRIPT_ONLY_FIELDS: the script-location entries of the
    shared schema. -/
def SCRIPT_ONLY_FIELDS : List ConfigField :=
  CONFIG_SCHEMA_DEF.filter (fun f => f.location == .script)

/-- Dict merge on field lists keyed by name, as Python double-star merge:
    existing keys are updated in place, fresh keys appended. -/
def schemaMerge (a b : List ConfigField) : List ConfigField :=
  (a.map (fun f =>
    match b.find? (fun g => g.name == f.name) with
    | some g => g
    | none => f)) ++
  b.filter (fun g => !(a.any (fun f => f.name == g.name)))

/-- config_schema.COMPLETE_CONFIG_SCHEMA. -/
def COMPLETE_CONFIG_SCHEMA : List ConfigField :=
  schemaMerge CONFIG_SCHEMA SCRIPT_ONLY_FIELDS

/-- Look a field up by name (`key in CONFIG_SCHEMA` / CONFIG_SCHEMA[key]). -/
def schemaFind (schema : List ConfigField) (k : String) : Option ConfigField :=
  schema.find? (fun f => f.name == k)

/-- config_schema.DEFAULT_PROFILE_NAME. -/
def DEFAULT_PROFILE_NAME : String := "decky-lsfg-vk"

/-- config_schema.GLOBAL_SECTION_FIELDS. -/
def GLOBAL_SECTION_FIELDS : List String := ["dll", "no_fp16"]

/-- shared_config.get_defaults(). -/
def sharedDefaults : List (String × PyVal) :=
  CONFIG_SCHEMA_DEF.map (fun f => (f.name, f.default))

/-- Dict merge on value maps (Python double-star merge). -/
def dictMerge (a b : List (String × PyVal)) : List (String × PyVal) :=
  b.foldl (fun acc p => alistInsert acc p.1 p.2) a

/-- ConfigurationManager.get_defaults(): the shared defaults with the
    script-only defaults merged on top (they are already present with the
    same values, so the merge is an update in place). -/
def get_defaults : List (String × PyVal) :=
  dictMerge sharedDefaults (SCRIPT_ONLY_FIELDS.map (fun f => (f.name, f.default)))

/-! ## The validator (ConfigurationManager.validate_config) -/

/-- One field coercion of validate_config, keyed by the declared type;
    none is the raising outcome. -/
def convertField (ft : ConfigFieldType) (v : PyVal) : Option PyVal :=
  match ft with
  | .boolean => some (.pbool (pyTruthy v))
  | .integer => (pyIntFn v).map .pint
  | .float => (pyFloatFn v).map .pfloat
  | .string => some (.pstr (pyStrFn v))

/-- ConfigurationManager.validate_config. For every COMPLETE_CONFIG_SCHEMA
    field, coerce config.get(name, default) to the declared type; a failing
    coercion raises (none). -/
def validate_config (config : List (String × PyVal)) :
    Option (List (String × PyVal)) :=
  COMPLETE_CONFIG_SCHEMA.foldl
    (fun acc f =>
      acc.bind (fun l =>
        let value := (alistGet config f.name).getD f.default
        (convertField f.field_type value).map (fun v => l ++ [(f.name, v)])))
    (some [])

/-! ## Profile data (config_schema.ProfileData) -/

/-- ProfileData: current profile name, profile map, global section map. -/
structure ProfileData where
  current_profile : String
  profiles : List (String × List (String × PyVal))
  global_config : List (String × PyVal)
deriving DecidableEq, Repr

/-! ## TOML generation (ConfigurationManager.generate_toml_content_multi_profile)

    Generation is Option-valued because the Python loop reads
    config[field_name] with bracket indexing: a profile missing a schema
    field raises KeyError.  none is that raising outcome. -/

/-- The comment line, optional value line and blank line the generator emits
    for one non-global field, branching on the runtime type of the value
    exactly as the isinstance chain does (bool first; empty strings produce
    no value line; numbers always produce one). -/
def toml_value_lines (field : ConfigField) (value : PyVal) : List String :=
  (⟨"# ".data ++ field.description.data⟩ : String) ::
  (match value with
   | .pbool b => [⟨field.name.data ++ " = ".data ++ (if b then "true" else "false").data⟩]
   | .pstr s =>
     if s.data.isEmpty then []
     else [⟨field.name.data ++ " = \"".data ++ s.data ++ ['"']⟩]
   | .pint n => [⟨field.name.data ++ " = ".data ++ (renderInt n).data⟩]
   | .pfloat d => [⟨field.name.data ++ " = ".data ++ (renderDec d).data⟩]) ++
  [""]

/-- Lines of one [[game]] section. -/
def game_section_lines (profile_name : String) (config : List (String × PyVal)) :
    Option (List String) :=
  (((CONFIG_SCHEMA.filter (fun f => !(GLOBAL_SECTION_FIELDS.contains f.name))).mapM
      (fun f => (alistGet config f.name).map (toml_value_lines f))).map
    (fun ls =>
      ["[[game]]",
       if profile_name == DEFAULT_PROFILE_NAME then
         "# Plugin-managed game entry (default profile)"
       else ⟨"# Profile: ".data ++ profile_name.data⟩,
       ⟨"exe = \"".data ++ profile_name.data ++ ['"']⟩, ""] ++ ls.flatten))

/-- Lines of the [global] section, including the version header context:
    current_profile always, dll only when truthy, no_fp16 always. -/
def global_section_lines (pd : ProfileData) : List String :=
  ["[global]", "# Currently selected profile",
   ⟨"current_profile = \"".data ++ pd.current_profile.data ++ ['"']⟩, ""] ++
  (let dll_path := (alistGet pd.global_config ("dll")).getD (.pstr "")
   if pyTruthy dll_path then
     ["# specify where Lossless.dll is stored",
      ⟨"dll = \"".data ++ (pyStrFn dll_path).data ++ ['"']⟩]
   else []) ++
  (let no_fp16 := (alistGet pd.global_config ("no_fp16")).getD (.pbool false)
   ["# force-disable fp16 (use on older nvidia cards)",
    ⟨"no_fp16 = ".data ++ (pyLower (pyStrFn no_fp16)).data⟩, ""])

/-- ConfigurationManager.generate_toml_content_multi_profile. -/
def generate_toml_content_multi_profile (pd : ProfileData) : Option String :=
  ((pd.profiles.mapM (fun p => game_section_lines p.1 p.2)).map
    (fun blocks =>
      pyJoinLines ((["version = 1", ""] ++ global_section_lines pd) ++ blocks.flatten)))

/-! ## TOML parsing (ConfigurationManager.parse_toml_content_multi_profile) -/

/-- Strip one matching pair of surrounding double or single quotes
    (value[1:-1] when both ends are the same quote character). -/
def stripQuotesChars (d : List Char) : List Char :=
  if d.head? == some '"' && d.getLast? == some '"' then (d.drop 1).dropLast
  else if d.head? == some (Char.ofNat 39) && d.getLast? == some (Char.ofNat 39) then
    (d.drop 1).dropLast
  else d

/-- The boolean word test of the parser: value.lower() in (true, 1, yes, on). -/
def truthWord (v : String) : Bool :=
  let l := pyLower v
  l == "true" || l == "1" || l == "yes" || l == "on"

/-- In-game-section conversion of a key=value right-hand side, by declared
    field type; none is a swallowed ValueError (field keeps its default). -/
def gameParseValue (ft : ConfigFieldType) (value : String) : Option PyVal :=
  match ft with
  | .boolean => some (.pbool (truthWord value))
  | .integer => (pyIntOfString value).map .pint
  | .float => (pyFloatOfString value).map .pfloat
  | .string => some (.pstr value)

/-- The re-validation applied to a buffered game value when a section is
    flushed.  A value already of the declared representation is kept
    (for INTEGER this includes bools: isinstance(True, int) holds in Python);
    otherwise it is converted, a failure keeping the default (none). -/
def validateGameValue (ft : ConfigFieldType) (v : PyVal) : Option PyVal :=
  match ft with
  | .boolean => some v
  | .integer =>
    match v with
    | .pint n => some (.pint n)
    | .pbool b => some (.pbool b)
    | _ => (pyIntFn v).map .pint
  | .float =>
    match v with
    | .pfloat d => some (.pfloat d)
    | _ => (pyFloatFn v).map .pfloat
  | .string => some (.pstr (pyStrFn v))

/-- Scanner state of the line-oriented TOML parser. -/
structure ScanState where
  profiles : List (String × List (String × PyVal))
  global_config : List (String × PyVal)
  current_profile : String
  in_global : Bool
  in_game : Bool
  cur_exe : Option String
  game_buf : List (String × PyVal)
deriving Repr

/-- Initial scanner state. -/
def initScanState : ScanState :=
  ⟨[], [], DEFAULT_PROFILE_NAME, false, false, none, []⟩

/-- Flush a pending [[game]] section: runs only when in_game holds and the
    collected exe is truthy (present and nonempty); builds the validated
    config on top of the defaults and stores it, clearing the buffer.  When
    the guard fails the buffer is deliberately NOT cleared, as in the source. -/
def flushGame (st : ScanState) : ScanState :=
  if st.in_game then
    match st.cur_exe with
    | some exe =>
      if exe.data.isEmpty then st
      else
        let validated := st.game_buf.foldl
          (fun acc p =>
            match schemaFind CONFIG_SCHEMA p.1 with
            | some f =>
              match validateGameValue f.field_type p.2 with
              | some v => alistInsert acc p.1 v
              | none => acc
            | none => acc)
          get_defaults
        { st with profiles := alistInsert st.profiles exe validated, game_buf := [] }
    | none => st
  else st

/-- Dispatch of one stripped key = value pair, by scanner state. -/
def kvDispatch (st : ScanState) (key value : String) : ScanState :=
  if st.in_global then
    if key == "current_profile" then { st with current_profile := value }
    else if key == "dll" then
      { st with global_config := alistInsert st.global_config ("dll") (.pstr value) }
    else if key == "no_fp16" then
      { st with global_config :=
          alistInsert st.global_config ("no_fp16") (.pbool (truthWord value)) }
    else st
  else if st.in_game then
    if key == "exe" then { st with cur_exe := some value }
    else
      match schemaFind CONFIG_SCHEMA key with
      | some f =>
        match gameParseValue f.field_type value with
        | some v' => { st with game_buf := alistInsert st.game_buf key v' }
        | none => st
      | none => st
  else st

/-- One line of the scanner. -/
def scanLine (st : ScanState) (rawLine : String) : ScanState :=
  let line := pyStrip rawLine
  if line.data.isEmpty || pyStartsWith line ("#") then st
  else if pyStartsWith line ("[") && pyEndsWith line ("]") then
    let st := flushGame st
    if line == "[global]" then { st with in_global := true, in_game := false }
    else if line == "[[game]]" then
      { st with in_global := false, in_game := true, cur_exe := none }
    else { st with in_global := false, in_game := false }
  else if line.data.contains '=' then
    match splitFirstChar '=' line.data with
    | none => st
    | some (k, v) =>
      kvDispatch st (pyStrip ⟨k⟩) ⟨stripQuotesChars (trimChars v)⟩
  else st

/-- The post-scan fix-up: guarantee a non-empty profile map and a
    current_profile that is one of its keys. -/
def parse_fixup (st : ScanState) : ProfileData :=
  let profiles :=
    if st.profiles.isEmpty then
      alistInsert st.profiles DEFAULT_PROFILE_NAME get_defaults
    else st.profiles
  if alistContains profiles st.current_profile then
    { current_profile := st.current_profile, profiles := profiles,
      global_config := st.global_config }
  else
    { current_profile := DEFAULT_PROFILE_NAME,
      profiles :=
        if alistContains profiles DEFAULT_PROFILE_NAME then profiles
        else alistInsert profiles DEFAULT_PROFILE_NAME get_defaults,
      global_config := st.global_config }

/-- ConfigurationManager.parse_toml_content_multi_profile.  The Lean model is
    total, so the blanket except-branch of the source (which returns the
    default profile structure) is unreachable here. -/
def parse_toml_content_multi_profile (content : String) : ProfileData :=
  parse_fixup (flushGame ((pyLines content).foldl scanLine initScanState))

/-! ## Script codec

    config_schema_generated.py is produced at build time by
    scripts/generate_python_boilerplate.py from CONFIG_SCHEMA_DEF; the
    definitions below embed that generator's output (its per-field branches
    instantiated at the script-location fields of the schema). -/

/-- generate_python_boilerplate.get_env_var_name. -/
def env_map : List (String × String) :=
  [("dxvk_frame_rate", "DXVK_FRAME_RATE"),
   ("enable_wow64", "PROTON_USE_WOW64"),
   ("disable_steamdeck_mode", "SteamDeck"),
   ("mangohud_workaround", "MANGOHUD"),
   ("disable_vkbasalt", "DISABLE_VKBASALT"),
   ("force_enable_vkbasalt", "ENABLE_VKBASALT"),
   ("enable_wsi", "ENABLE_GAMESCOPE_WSI")]

/-- Field name to environment-variable name (table, else uppercase). -/
def get_env_var_name (field_name : String) : String :=
  (alistGet env_map field_name).getD ⟨field_name.data.map Char.toUpper⟩

/-- An `export VAR=value` line built by an f-string. -/
def exportLine (env : String) (v : PyVal) : String :=
  ⟨"export ".data ++ env.data ++ '=' :: (pyStrFn v).data⟩

/-- Python `v > 0` for the dxvk_frame_rate guard.  On a str Python would
    raise TypeError; the generated code only ever meets ints here and the
    theorems below quantify over typed configurations, so the str case is
    modelled as false. -/
def pyGTzero : PyVal → Bool
  | .pbool b => b
  | .pint n => n > 0
  | .pfloat d => d.man > 0
  | .pstr _ => false

/-- Python `v != lit` for an integer literal (numeric comparison across the
    numeric types, always-true across str). -/
def pyNeInt (v : PyVal) (m : Int) : Bool :=
  match v with
  | .pbool b => (if b then (1 : Int) else 0) != m
  | .pint n => n != m
  | .pfloat d => decNorm d.man d.exp != decNorm m 0
  | .pstr _ => true

/-- The export lines one script-location field contributes
    (generate_python_boilerplate.generate_script_generation, embedded). -/
def script_gen_field_lines (config : List (String × PyVal)) (f : ConfigField) :
    List String :=
  let env := get_env_var_name f.name
  match f.field_type with
  | .boolean =>
    if f.name == "disable_steamdeck_mode" then
      if pyTruthy ((alistGet config f.name).getD (.pbool false)) then
        [⟨"export ".data ++ env.data ++ "=0".data⟩]
      else []
    else if f.name == "enable_wsi" then
      if !(pyTruthy ((alistGet config f.name).getD (.pbool false))) then
        [⟨"export ".data ++ env.data ++ "=0".data⟩]
      else []
    else
      if pyTruthy ((alistGet config f.name).getD (.pbool false)) then
        [⟨"export ".data ++ env.data ++ "=1".data⟩]
      else []
  | .integer | .float =>
    if f.name == "dxvk_frame_rate" then
      let v := (alistGet config f.name).getD f.default
      if pyGTzero v then [exportLine env v] else []
    else
      let v := (alistGet config f.name).getD f.default
      match f.default with
      | .pint m => if pyNeInt v m then [exportLine env v] else []
      | _ => if v != f.default then [exportLine env v] else []
  | .string =>
    let v := (alistGet config f.name).getD (.pstr "")
    if pyTruthy v then [exportLine env v] else []

/-- config_schema_generated.get_script_generation_logic()'s inner
    generate_script_lines: the concatenation of the per-field segments over
    the script-location fields, in schema order. -/
def generate_script_lines (config : List (String × PyVal)) : List String :=
  (CONFIG_SCHEMA_DEF.filter (fun f => f.location == .script)).flatMap
    (script_gen_field_lines config)

/-- The branch chain of the generated parse_script_values applied to one
    stripped key/value pair; each branch is an independent `if` on the key. -/
def scriptKvStep (sv : List (String × PyVal)) (key value : String) :
    List (String × PyVal) :=
  let sv := if key == "DXVK_FRAME_RATE" then
      match pyIntOfString value with
      | some n => alistInsert sv ("dxvk_frame_rate") (.pint n)
      | none => sv
    else sv
  let sv := if key == "PROTON_USE_WOW64" then
      alistInsert sv ("enable_wow64") (.pbool (value == "1")) else sv
  let sv := if key == "SteamDeck" then
      alistInsert sv ("disable_steamdeck_mode") (.pbool (value == "0")) else sv
  let sv := if key == "MANGOHUD" then
      alistInsert sv ("mangohud_workaround") (.pbool (value == "1")) else sv
  let sv := if key == "DISABLE_VKBASALT" then
      alistInsert sv ("disable_vkbasalt") (.pbool (value == "1")) else sv
  let sv := if key == "ENABLE_VKBASALT" then
      alistInsert sv ("force_enable_vkbasalt") (.pbool (value == "1")) else sv
  let sv := if key == "GAMESCOPE_FRAME_PACING" then
      alistInsert sv ("gamescope_frame_pacing") (.pbool (value == "1")) else sv
  let sv := if key == "FRAME_PACING_TARGET_MS" then
      match pyIntOfString value with
      | some n => alistInsert sv ("frame_pacing_target_ms") (.pint n)
      | none => sv
    else sv
  sv

/-- One line of the generated parse_script_values scanner. -/
def scriptParseStep (sv : List (String × PyVal)) (rawLine : String) :
    List (String × PyVal) :=
  let line := pyStrip rawLine
  if line.data.isEmpty || pyStartsWith line ("#") ||
      !(pyStartsWith line ("export ")) then sv
  else if line.data.contains '=' then
    match splitFirstChar '=' (line.data.drop 7) with
    | none => sv
    | some (k, v) => scriptKvStep sv (pyStrip ⟨k⟩) (pyStrip ⟨v⟩)
  else sv

/-- config_schema_generated.get_script_parsing_logic()'s inner
    parse_script_values. -/
def parse_script_values (lines : List String) : List (String × PyVal) :=
  lines.foldl scriptParseStep []

/-- ConfigurationManager.parse_script_content. -/
def parse_script_content (script_content : String) : List (String × PyVal) :=
  parse_script_values (pyLines script_content)

/-- ConfigurationManager.merge_config_with_script: overlay parsed script
    values onto the TOML config, but only at the script-only fields. -/
def merge_config_with_script (toml_config : List (String × PyVal))
    (script_values : List (String × PyVal)) : List (String × PyVal) :=
  SCRIPT_ONLY_FIELDS.foldl
    (fun merged f =>
      match alistGet script_values f.name with
      | some v => alistInsert merged f.name v
      | none => merged)
    toml_config

/-! ## Launch-script content (ConfigurationService) -/

/-- The fixed shebang and banner of the config-only script variant. -/
def script_header : List String :=
  ["#!/bin/bash",
   "# lsfg-vk launch script generated by decky-lossless-scaling-vk plugin",
   "# This script sets up the environment for lsfg-vk to work with the plugin configuration"]

/-- ConfigurationService._generate_script_content. -/
def generate_script_content (config : List (String × PyVal)) : String :=
  let lines := script_header ++ generate_script_lines config ++
    ["",
     "# Check if script was called with override syntax (e.g., ~/lsfg=profile_name)",
     "if [[ \"$0\" == *\"=\"* ]]; then",
     "    # Extract override value from script name",
     "    OVERRIDE_PROCESS=\"$\x7b0##*=\x7d\"",
     "    export LSFG_PROCESS=\"$OVERRIDE_PROCESS\"",
     "else",
     "    # Use default profile",
     "    export LSFG_PROCESS=decky-lsfg-vk",
     "fi",
     "",
     "exec \"$@\""]
  ⟨(pyJoinLines lines).data ++ ['\n']⟩

/-- ConfigurationService._generate_script_content_for_profile. -/
def generate_script_content_for_profile (pd : ProfileData) : String :=
  let config := (alistGet pd.profiles pd.current_profile).getD get_defaults
  let merged := pd.global_config.foldl (fun acc p => alistInsert acc p.1 p.2) config
  let lines :=
    ["#!/bin/bash",
     "# lsfg-vk launch script generated by decky-lossless-scaling-vk plugin",
     ⟨"# Current profile: ".data ++ pd.current_profile.data⟩,
     "# This script sets up the environment for lsfg-vk to work with the plugin configuration"] ++
    generate_script_lines merged ++
    ["",
     "# Check if script was called with override syntax (e.g., ~/lsfg=profile_name)",
     "if [[ \"$0\" == *\"=\"* ]]; then",
     "    # Extract override value from script name",
     "    OVERRIDE_PROCESS=\"$\x7b0##*=\x7d\"",
     "    export LSFG_PROCESS=\"$OVERRIDE_PROCESS\"",
     "else",
     "    # Use current profile as default",
     ⟨"    export LSFG_PROCESS=".data ++ pd.current_profile.data⟩,
     "fi",
     "",
     "exec \"$@\""]
  ⟨(pyJoinLines lines).data ++ ['\n']⟩

/-! ## Profile store operations (ConfigurationManager) -/

/-- The characters validate_profile_name rejects. -/
def invalidChars : List Char :=
  [' ', '\t', '\n', '\r', Char.ofNat 39, '"', '\\', '/', '$', '|', '&', ';',
   '(', ')', '<', '>', Char.ofNat 123, Char.ofNat 125, '[', ']',
   Char.ofNat 96, '*', '?']

/-- The reserved profile names. -/
def reservedNames : List String := ["global", "game", "current_profile"]

/-- ConfigurationManager.validate_profile_name. -/
def validate_profile_name (profile_name : String) : Bool :=
  if profile_name.data.isEmpty then false
  else if profile_name.data.any (fun c => invalidChars.contains c) then false
  else if reservedNames.contains (pyLower profile_name) then false
  else true

/-- ConfigurationManager.create_profile; none is the raising outcome.
    The source-profile guard uses Python truthiness: a None or empty source
    name falls back to the defaults. -/
def create_profile (pd : ProfileData) (profile_name : String)
    (source_profile : Option String) : Option ProfileData :=
  if !(validate_profile_name profile_name) then none
  else if alistContains pd.profiles profile_name then none
  else
    let new_config :=
      match source_profile with
      | some src =>
        if !src.data.isEmpty && alistContains pd.profiles src then
          (alistGet pd.profiles src).getD get_defaults
        else get_defaults
      | none => get_defaults
    some { pd with profiles := alistInsert pd.profiles profile_name new_config }

/-- ConfigurationManager.delete_profile; none is the raising outcome. -/
def delete_profile (pd : ProfileData) (profile_name : String) : Option ProfileData :=
  if profile_name == DEFAULT_PROFILE_NAME then none
  else if !(alistContains pd.profiles profile_name) then none
  else
    let profiles := alistErase pd.profiles profile_name
    if pd.current_profile == profile_name then
      some { current_profile := DEFAULT_PROFILE_NAME,
             profiles :=
               if alistContains profiles DEFAULT_PROFILE_NAME then profiles
               else alistInsert profiles DEFAULT_PROFILE_NAME get_defaults,
             global_config := pd.global_config }
    else some { pd with profiles := profiles }

/-- ConfigurationManager.rename_profile; none is the raising outcome. -/
def rename_profile (pd : ProfileData) (old_name new_name : String) :
    Option ProfileData :=
  if old_name == DEFAULT_PROFILE_NAME then none
  else if !(validate_profile_name new_name) then none
  else if !(alistContains pd.profiles old_name) then none
  else if alistContains pd.profiles new_name then none
  else
    some { current_profile :=
             if pd.current_profile == old_name then new_name else pd.current_profile,
           profiles := pd.profiles.map
             (fun p => if p.1 == old_name then (new_name, p.2) else p),
           global_config := pd.global_config }

/-- ConfigurationManager.set_current_profile; none is the raising outcome. -/
def set_current_profile (pd : ProfileData) (profile_name : String) :
    Option ProfileData :=
  if !(alistContains pd.profiles profile_name) then none
  else some { pd with current_profile := profile_name }

/-! ## ConfigurationService state (the two files it reads and writes) -/

/-- The stored files: config TOML and launch script (none = absent). -/
structure SvcState where
  config_file : Option String
  script_file : Option String
deriving DecidableEq, Repr

/-- ConfigurationManager.get_defaults_with_dll_detection, with the external
    DLL-detection collaborator abstracted by its result: `detected = some p`
    models a response with detected=True and a truthy path p; none models
    no detection (or a raising detector, which is swallowed). -/
def get_defaults_with_dll_detection (detected : Option String) :
    List (String × PyVal) :=
  let defaults :=
    match detected with
    | some p => alistInsert get_defaults ("dll") (.pstr p)
    | none => get_defaults
  if !(pyTruthy ((alistGet defaults ("dll")).getD (.pstr ""))) then
    alistInsert defaults ("dll")
      (.pstr "/home/deck/.local/share/Steam/steamapps/common/Lossless Scaling/Lossless.dll")
  else defaults

/-- ConfigurationService._get_profile_data. -/
def get_profile_data (detected : Option String) (st : SvcState) : ProfileData :=
  match st.config_file with
  | none =>
    let default_config := get_defaults_with_dll_detection detected
    { current_profile := DEFAULT_PROFILE_NAME,
      profiles := [(DEFAULT_PROFILE_NAME, default_config)],
      global_config :=
        [("dll", (alistGet default_config ("dll")).getD (.pstr "")),
         ("no_fp16", (alistGet default_config ("no_fp16")).getD (.pbool false))] }
  | some content => parse_toml_content_multi_profile content

/-- The profile data update_profile_config builds before saving: the named
    profile replaced by config, and the dll / no_fp16 values present in
    config copied into the global section. -/
def updatedProfileData (pd : ProfileData) (profile_name : String)
    (config : List (String × PyVal)) : ProfileData :=
  { current_profile := pd.current_profile,
    profiles := alistInsert pd.profiles profile_name config,
    global_config :=
      (["dll", "no_fp16"]).foldl
        (fun g fname =>
          match alistGet config fname with
          | some v => alistInsert g fname v
          | none => g)
        pd.global_config }

/-- ConfigurationService.update_profile_config.  The Bool is the success
    flag of the response; on error the state is returned unchanged.  Saving
    happens through generate_toml_content_multi_profile; a raising generation
    (none) is caught by the blanket except and yields an error response with
    nothing written. -/
def update_profile_config (detected : Option String) (st : SvcState)
    (profile_name : String) (config : List (String × PyVal)) : Bool × SvcState :=
  let pd := get_profile_data detected st
  if !(alistContains pd.profiles profile_name) then (false, st)
  else
    let pd' : ProfileData := updatedProfileData pd profile_name config
    match generate_toml_content_multi_profile pd' with
    | none => (false, st)
    | some toml =>
      let st' : SvcState := { st with config_file := some toml }
      let st' :=
        if profile_name == pd'.current_profile then
          { st' with script_file := some (generate_script_content_for_profile pd') }
        else st'
      (true, st')

/-! ## Typing and safety predicates used in theorem hypotheses -/

/-- A Dec is canonical (no trailing zero decimals): exactly the
    representations that Python float values have. -/
def isCanonDec (d : Dec) : Bool := d.exp == 0 || d.man % 10 != 0

/-- A value has a field's declared Python type (floats must be canonical,
    i.e. actual Python float values). -/
def typedVal : ConfigFieldType → PyVal → Bool
  | .boolean, .pbool _ => true
  | .integer, .pint _ => true
  | .float, .pfloat d => isCanonDec d
  | .string, .pstr _ => true
  | _, _ => false

/-- A fully populated, well-typed configuration: every shared-schema field
    is present with a value of its declared type. -/
def typedConfig (c : List (String × PyVal)) : Bool :=
  CONFIG_SCHEMA_DEF.all (fun f =>
    match alistGet c f.name with
    | some v => typedVal f.field_type v
    | none => false)

/-- String values that survive a TOML line round-trip: nonempty (an empty
    string is not emitted at all) and free of newlines (a newline would split
    the generated line). -/
def safeVal : PyVal → Bool
  | .pstr s => !s.data.isEmpty && !(s.data.contains '\n')
  | _ => true

/-- A typed configuration whose string fields are TOML-line safe. -/
def tomlSafeConfig (c : List (String × PyVal)) : Bool :=
  typedConfig c &&
  CONFIG_SCHEMA_DEF.all (fun f =>
    match alistGet c f.name with
    | some v => safeVal v
    | none => true)

/-- A global section whose dll entry (if any) is a newline-free string and
    whose no_fp16 entry (if any) is a bool. -/
def safeGlobal (g : List (String × PyVal)) : Bool :=
  (match alistGet g ("dll") with
   | some (.pstr s) => !(s.data.contains '\n')
   | some _ => false
   | none => true) &&
  (match alistGet g ("no_fp16") with
   | some (.pbool _) => true
   | some _ => false
   | none => true)

/-- Every CONFIG_SCHEMA field is present (bracket indexing cannot raise). -/
def populatedConfig (c : List (String × PyVal)) : Bool :=
  CONFIG_SCHEMA.all (fun f => (alistGet c f.name).isSome)

/-! ## Sequences of profile-store operations (for the default-profile invariant) -/

/-- One profile-store mutation. -/
inductive ProfileOp where
  | createOp (name : String) (src : Option String)
  | deleteOp (name : String)
  | renameOp (old_name new_name : String)
deriving Repr

/-- Apply one operation; none is the raising outcome. -/
def applyProfileOp (pd : ProfileData) : ProfileOp → Option ProfileData
  | .createOp n s => create_profile pd n s
  | .deleteOp n => delete_profile pd n
  | .renameOp o n => rename_profile pd o n

/-- Run a sequence of operations, keeping the previous state whenever an
    operation fails. -/
def runProfileOps (pd : ProfileData) (ops : List ProfileOp) : ProfileData :=
  ops.foldl (fun cur op => (applyProfileOp cur op).getD cur) pd

/-! ## Concrete scenario inputs -/

/-- A TOML text with a single [[game]] block (exe feral, multiplier 3,
    flow_scale 1.2) and no [global] section. -/
def scenarioB : String :=
  "[[game]]\nexe = \"feral\"\nmultiplier = 3\nflow_scale = 1.2"

/-- The script-location fields of the shared schema (the list the generated
    script codec iterates over). -/
def scriptSchemaFields : List ConfigField :=
  CONFIG_SCHEMA_DEF.filter (fun f => f.location == .script)

/-- Per-field result list of validate_config (specification helper used to
    state and prove its properties): the converted (name, value) pairs in
    schema order, none as soon as one conversion raises. -/
def validateList (raw : List (String × PyVal)) :
    List ConfigField → Option (List (String × PyVal))
  | [] => some []
  | f :: t =>
    (convertField f.field_type ((alistGet raw f.name).getD f.default)).bind
      (fun v => (validateList raw t).map (fun l => (f.name, v) :: l))

/-- The fixed tail of both generated launch scripts (profile-override
    dispatch and exec), as listed literally in _generate_script_content. -/
def script_trailer : List String :=
  ["",
   "# Check if script was called with override syntax (e.g., ~/lsfg=profile_name)",
   "if [[ \"$0\" == *\"=\"* ]]; then",
   "    # Extract override value from script name",
   "    OVERRIDE_PROCESS=\"$\x7b0##*=\x7d\"",
   "    export LSFG_PROCESS=\"$OVERRIDE_PROCESS\"",
   "else",
   "    # Use default profile",
   "    export LSFG_PROCESS=decky-lsfg-vk",
   "fi",
   "",
   "exec \"$@\""]

/-- The export-line block generate_script_lines emits on a configuration
    whose eight script-location fields hold the given typed values (one
    conditional singleton per schema field, in schema order). -/
def c4Segs (dx fp : Int) (w s m d fv g : Bool) : List String :=
  (if decide (0 < dx) = true then [exportLine ("DXVK_FRAME_RATE") (PyVal.pint dx)] else []) ++
  ((if w = true then [exportLine ("PROTON_USE_WOW64") (PyVal.pstr "1")] else []) ++
  ((if s = true then [exportLine ("SteamDeck") (PyVal.pstr "0")] else []) ++
  ((if m = true then [exportLine ("MANGOHUD") (PyVal.pstr "1")] else []) ++
  ((if d = true then [exportLine ("DISABLE_VKBASALT") (PyVal.pstr "1")] else []) ++
  ((if fv = true then [exportLine ("ENABLE_VKBASALT") (PyVal.pstr "1")] else []) ++
  ((if g = true then [exportLine ("GAMESCOPE_FRAME_PACING") (PyVal.pstr "1")] else []) ++
  (if (fp != 25) = true then [exportLine ("FRAME_PACING_TARGET_MS") (PyVal.pint fp)] else [])))))))

/-- The global_config the scanner rebuilds from a generated [global]
    section: dll (as the rendered string) only when it was truthy, then
    no_fp16 always. -/
def parsedGlobal (G : List (String × PyVal)) : List (String × PyVal) :=
  (if pyTruthy ((alistGet G ("dll")).getD (.pstr "")) then
    [(("dll" : String), PyVal.pstr (pyStrFn ((alistGet G ("dll")).getD (.pstr ""))))]
  else []) ++
  [(("no_fp16" : String), PyVal.pbool (pyTruthy ((alistGet G ("no_fp16")).getD (.pbool false))))]

/-- The non-global schema fields a [[game]] section serialises, in order. -/
def tomlGameFields : List ConfigField :=
  CONFIG_SCHEMA.filter (fun f => !(GLOBAL_SECTION_FIELDS.contains f.name))

/-- The lines of one generated [[game]] section for a fully populated
    configuration (the some-payload of game_section_lines). -/
def gameBlockLines (n : String) (C : List (String × PyVal)) : List String :=
  ["[[game]]",
   if n == DEFAULT_PROFILE_NAME then "# Plugin-managed game entry (default profile)"
   else ⟨"# Profile: ".data ++ n.data⟩,
   ⟨"exe = \"".data ++ n.data ++ ['"']⟩, ""] ++
  (tomlGameFields.map (fun f => toml_value_lines f ((alistGet C f.name).getD f.default))).flatten

/-- The profile configuration the scanner rebuilds from a generated game
    section: the defaults overwritten with the section's field values. -/
def parsedProfile (C : List (String × PyVal)) : List (String × PyVal) :=
  (tomlGameFields.map (fun f => (f.name, (alistGet C f.name).getD f.default))).foldl
    (fun acc p => alistInsert acc p.1 p.2) get_defaults

/-- A single-profile set whose experimental_present_mode holds the empty
    string (the defaults otherwise), used to test the serialization round
    trip on empty string fields. -/
def c8_input : ProfileData :=
  ⟨"feral",
   [("feral", alistInsert get_defaults ("experimental_present_mode") (PyVal.pstr ""))],
   []⟩

/-- The profile set obtained by parsing the TOML text generated from
    c8_input: the empty experimental_present_mode has become the schema
    default fifo, and the global section records only no_fp16. -/
def c8_reparsed : ProfileData :=
  ⟨"feral",
   [("feral",
     [(("dll" : String), PyVal.pstr "/games/Lossless Scaling/Lossless.dll"),
      (("multiplier" : String), PyVal.pint 1),
      (("flow_scale" : String), PyVal.pfloat ⟨8, 1⟩),
      (("performance_mode" : String), PyVal.pbool true),
      (("hdr_mode" : String), PyVal.pbool false),
      (("experimental_present_mode" : String), PyVal.pstr "fifo"),
      (("dxvk_frame_rate" : String), PyVal.pint 0),
      (("enable_wow64" : String), PyVal.pbool false),
      (("disable_steamdeck_mode" : String), PyVal.pbool false),
      (("mangohud_workaround" : String), PyVal.pbool false),
      (("disable_vkbasalt" : String), PyVal.pbool false),
      (("force_enable_vkbasalt" : String), PyVal.pbool false),
      (("gamescope_frame_pacing" : String), PyVal.pbool false),
      (("frame_pacing_target_ms" : String), PyVal.pint 25)])],
   [(("no_fp16" : String), PyVal.pbool false)]⟩

/-! # Lemma layer -/

/-! ## Association-list lemmas -/

theorem alistGet_nil {α : Type} (k : String) : alistGet ([] : List (String × α)) k = none := rfl

theorem alistGet_cons {α : Type} (p : String × α) (t : List (String × α)) (k : String) :
    alistGet (p :: t) k = if p.1 = k then some p.2 else alistGet t k := by
  by_cases h : p.1 = k
  · rw [alistGet, List.find?_cons_of_pos _ (by simpa using h), if_pos h]
    rfl
  · rw [alistGet, List.find?_cons_of_neg _ (by simpa using h), if_neg h]
    rfl

theorem alistContains_cons {α : Type} (p : String × α) (t : List (String × α)) (k : String) :
    alistContains (p :: t) k = (p.1 == k || alistContains t k) := by
  simp [alistContains]

theorem alistGet_isSome_iff {α : Type} (l : List (String × α)) (k : String) :
    (alistGet l k).isSome = true ↔ alistContains l k = true := by
  induction l with
  | nil => simp [alistGet, alistContains]
  | cons p t ih =>
    rw [alistGet_cons, alistContains_cons]
    by_cases h : p.1 = k <;> simp [h, ih]

theorem alistGet_eq_none_of_not_contains {α : Type} (l : List (String × α)) (k : String)
    (h : alistContains l k = false) : alistGet l k = none := by
  cases hg : alistGet l k with
  | none => rfl
  | some w =>
    have := (alistGet_isSome_iff l k).mp (by simp [hg])
    rw [this] at h
    cases h

theorem alistGet_map_update_ne {α : Type} (l : List (String × α)) (k k' : String)
    (v : α) (hk : k' ≠ k) :
    alistGet (l.map (fun p => if p.1 == k then (k, v) else p)) k' = alistGet l k' := by
  induction l with
  | nil => rfl
  | cons q r ihr =>
    simp only [List.map_cons]
    rw [alistGet_cons, alistGet_cons]
    by_cases hq : q.1 = k
    · have hb : (q.1 == k) = true := by simpa using hq
      rw [if_pos hb]
      have h1 : ¬ ((k, v).1 = k') := fun h => hk (by simpa using h.symm)
      have h2 : ¬ (q.1 = k') := by
        rw [hq]
        exact fun h => hk h.symm
      rw [if_neg h1, if_neg h2]
      exact ihr
    · have hb : (q.1 == k) = false := by simpa using hq
      rw [if_neg (by simp [hb] : ¬ ((q.1 == k) = true))]
      by_cases hqk : q.1 = k'
      · rw [if_pos hqk, if_pos hqk]
      · rw [if_neg hqk, if_neg hqk]
        exact ihr

theorem alistGet_map_update_self {α : Type} (l : List (String × α)) (k : String)
    (v : α) (hc : alistContains l k = true) :
    alistGet (l.map (fun p => if p.1 == k then (k, v) else p)) k = some v := by
  induction l with
  | nil => simp [alistContains] at hc
  | cons q r ihr =>
    rw [alistContains_cons] at hc
    simp only [List.map_cons]
    rw [alistGet_cons]
    by_cases hq : q.1 = k
    · have hb : (q.1 == k) = true := by simpa using hq
      rw [if_pos hb, if_pos (by rfl)]
    · have hb : (q.1 == k) = false := by simpa using hq
      rw [if_neg (by simp [hb] : ¬ ((q.1 == k) = true)), if_neg hq]
      have hc' : alistContains r k = true := by
        rcases Bool.or_eq_true_iff.mp hc with h | h
        · exact absurd (by simpa using h) hq
        · exact h
      exact ihr hc'

theorem alistGet_insert {α : Type} (l : List (String × α)) (k k' : String) (v : α) :
    alistGet (alistInsert l k v) k' = if k' = k then some v else alistGet l k' := by
  unfold alistInsert
  by_cases hc : alistContains l k
  · rw [if_pos hc]
    by_cases hk : k' = k
    · subst hk
      rw [alistGet_map_update_self l k' v hc, if_pos rfl]
    · rw [alistGet_map_update_ne l k k' v hk, if_neg hk]
  · rw [if_neg hc, alistGet, List.find?_append]
    by_cases hk : k' = k
    · subst hk
      have hnone : alistGet l k' = none := alistGet_eq_none_of_not_contains l k' (by simpa using hc)
      rw [alistGet] at hnone
      rw [Option.map_eq_none'.mp hnone]
      simp [List.find?]
    · have hfind2 : List.find? (fun p => p.1 == k') [(k, v)] = none := by
        have : (k == k') = false := by simpa using Ne.symm hk
        simp [List.find?, this]
      rw [hfind2]
      simp [if_neg hk, alistGet]

theorem alistContains_insert {α : Type} (l : List (String × α)) (k k' : String) (v : α) :
    alistContains (alistInsert l k v) k' = (alistContains l k' || k' == k) := by
  rcases hb : alistContains l k' || k' == k with _ | _
  · rcases Bool.or_eq_false_iff.mp hb with ⟨h1, h2⟩
    have hnone : alistGet (alistInsert l k v) k' = none := by
      rw [alistGet_insert, if_neg (by simpa using h2)]
      exact alistGet_eq_none_of_not_contains l k' h1
    cases hh : alistContains (alistInsert l k v) k' with
    | false => rfl
    | true =>
      have := (alistGet_isSome_iff _ k').mpr hh
      rw [hnone] at this
      cases this
  · rcases Bool.or_eq_true_iff.mp hb with h | h
    · have := (alistGet_isSome_iff l k').mpr h
      rcases Option.isSome_iff_exists.mp this with ⟨w, hw⟩
      apply (alistGet_isSome_iff _ k').mp
      rw [alistGet_insert]
      by_cases hk : k' = k <;> simp [hk, hw]
    · apply (alistGet_isSome_iff _ k').mp
      rw [alistGet_insert, if_pos (by simpa using h)]
      rfl

theorem alistInsert_ne_nil {α : Type} (l : List (String × α)) (k : String) (v : α) :
    alistInsert l k v ≠ [] := by
  intro h
  have h2 := alistContains_insert l k k v
  rw [h] at h2
  simp [alistContains] at h2

/-! ## Claim C10: merge_config_with_script touches only script fields -/

theorem mergeFold_get (fs : List ConfigField) (toml sv : List (String × PyVal))
    (name : String) :
    alistGet (fs.foldl
      (fun merged f =>
        match alistGet sv f.name with
        | some v => alistInsert merged f.name v
        | none => merged) toml) name =
      if (fs.map ConfigField.name).contains name ∧ (alistGet sv name).isSome then
        alistGet sv name
      else alistGet toml name := by
  induction fs generalizing toml with
  | nil => simp
  | cons f t ih =>
    rw [List.foldl_cons, ih]
    by_cases hf : f.name = name
    · subst hf
      by_cases hs : (alistGet sv f.name).isSome
      · rcases Option.isSome_iff_exists.mp hs with ⟨w, hw⟩
        simp only [hw, alistGet_insert, if_pos rfl, List.map_cons, List.contains_cons]
        by_cases ht : (t.map ConfigField.name).contains f.name <;> simp [ht, hw]
      · have hnone : alistGet sv f.name = none := by
          cases h : alistGet sv f.name with
          | none => rfl
          | some w => rw [h] at hs; simp at hs
        simp [hnone]
    · have hstep : alistGet
          (match alistGet sv f.name with
           | some v => alistInsert toml f.name v
           | none => toml) name = alistGet toml name := by
        cases h : alistGet sv f.name with
        | none => rfl
        | some w => rw [alistGet_insert, if_neg (fun hh => hf hh.symm)]
      rw [hstep]
      simp only [List.map_cons, List.contains_cons]
      have : (name == f.name) = false := by simpa using hf ∘ Eq.symm
      simp [this]

/-- C10: merge_config_with_script returns the TOML value on every field that
    is not a script-location field; only script-location fields can differ,
    and such a field differs only by taking the value script_values holds for
    it.  The characterization below implies this: for a name outside
    SCRIPT_ONLY_FIELDS (even one naming a TOML or global field that
    script_values mentions, such as multiplier or dll) the lookup is
    unchanged, and for a script field it is script_values' entry when
    present, the TOML entry otherwise. -/
theorem C10_merge_only_script_fields (toml_config script_values : List (String × PyVal))
    (name : String) :
    alistGet (merge_config_with_script toml_config script_values) name =
      if (SCRIPT_ONLY_FIELDS.map ConfigField.name).contains name ∧
          (alistGet script_values name).isSome then
        alistGet script_values name
      else alistGet toml_config name := by
  unfold merge_config_with_script
  exact mergeFold_get SCRIPT_ONLY_FIELDS toml_config script_values name

/-! ## Claim C3: the default profile survives every operation sequence -/

theorem alistContains_erase {α : Type} (l : List (String × α)) (k k' : String) :
    alistContains (alistErase l k) k' = (alistContains l k' && !(k' == k)) := by
  induction l with
  | nil => simp [alistErase, alistContains]
  | cons p t ih =>
    simp only [alistErase, List.filter_cons] at ih ⊢
    by_cases hp : p.1 = k
    · have hb : (p.1 == k) = true := by simpa using hp
      rw [hb]
      simp only [Bool.not_true]
      rw [if_neg (by simp : ¬ (false = true))]
      rw [ih, alistContains_cons]
      by_cases hk : k' = k
      · simp [hk]
      · have hpk : (p.1 == k') = false := by
          simp only [beq_eq_false_iff_ne, ne_eq, hp]
          exact fun h => hk h.symm
        simp [hpk]
    · have hb : (p.1 == k) = false := by simpa using hp
      rw [hb]
      simp only [Bool.not_false]
      rw [if_pos trivial]
      rw [alistContains_cons, alistContains_cons, ih]
      by_cases hpk : p.1 = k'
      · have hk : ¬ (k' = k) := fun h => hp (hpk.symm ▸ h)
        have : (k' == k) = false := by simpa using hk
        simp [hpk, this]
      · have : (p.1 == k') = false := by simpa using hpk
        simp [this]

theorem alistContains_map_rename {α : Type} (l : List (String × α))
    (old_name new_name k : String) (hk : k ≠ old_name)
    (hc : alistContains l k = true) :
    alistContains (l.map (fun p => if p.1 == old_name then (new_name, p.2) else p)) k = true := by
  induction l with
  | nil => simp [alistContains] at hc
  | cons p t ih =>
    rw [alistContains_cons] at hc
    simp only [List.map_cons]
    rw [alistContains_cons]
    by_cases hp : p.1 = old_name
    · have hb : (p.1 == old_name) = true := by simpa using hp
      rw [if_pos (by simp [hb])]
      have hc' : alistContains t k = true := by
        rcases Bool.or_eq_true_iff.mp hc with h | h
        · exact absurd (by simpa using h) (fun hh : p.1 = k => hk (hh ▸ hp : k = old_name))
        · exact h
      rw [ih hc']
      simp
    · have hb : (p.1 == old_name) = false := by simpa using hp
      rw [if_neg (by simp [hb])]
      rcases Bool.or_eq_true_iff.mp hc with h | h
      · rw [h]; simp
      · rw [ih h]; simp

theorem create_profile_preserves_default (pd pd' : ProfileData) (n : String)
    (s : Option String) (h : create_profile pd n s = some pd')
    (hd : alistContains pd.profiles DEFAULT_PROFILE_NAME = true) :
    alistContains pd'.profiles DEFAULT_PROFILE_NAME = true := by
  unfold create_profile at h
  split at h
  · cases h
  · split at h
    · cases h
    · rcases Option.some.injEq _ _ ▸ h with rfl
      rw [alistContains_insert, hd]
      simp

theorem delete_profile_preserves_default (pd pd' : ProfileData) (n : String)
    (h : delete_profile pd n = some pd')
    (hd : alistContains pd.profiles DEFAULT_PROFILE_NAME = true) :
    alistContains pd'.profiles DEFAULT_PROFILE_NAME = true := by
  unfold delete_profile at h
  split at h
  · cases h
  · rename_i hne
    have hnd : ¬ (DEFAULT_PROFILE_NAME = n) := by
      intro hh
      exact hne (by simpa using hh.symm)
    split at h
    · cases h
    · have herase : alistContains (alistErase pd.profiles n) DEFAULT_PROFILE_NAME = true := by
        rw [alistContains_erase, hd]
        simpa using hnd
      split at h
      · injection h with h
        subst h
        dsimp only
        by_cases hc2 : alistContains (alistErase pd.profiles n) DEFAULT_PROFILE_NAME = true
        · rw [if_pos hc2]
          exact hc2
        · rw [if_neg hc2]
          rw [alistContains_insert]
          simp
      · injection h with h
        subst h
        exact herase

theorem rename_profile_preserves_default (pd pd' : ProfileData) (o n : String)
    (h : rename_profile pd o n = some pd')
    (hd : alistContains pd.profiles DEFAULT_PROFILE_NAME = true) :
    alistContains pd'.profiles DEFAULT_PROFILE_NAME = true := by
  unfold rename_profile at h
  split at h
  · cases h
  · rename_i hne
    have hnd : DEFAULT_PROFILE_NAME ≠ o := by
      intro hh
      exact hne (by simpa using hh.symm)
    split at h
    · cases h
    · split at h
      · cases h
      · split at h
        · cases h
        · rcases Option.some.injEq _ _ ▸ h with rfl
          exact alistContains_map_rename pd.profiles o n DEFAULT_PROFILE_NAME hnd hd

/-- C3: starting from any ProfileData whose profile map contains the
    reserved default name, any finite sequence of create/delete/rename
    operations (keeping the previous data when an operation raises) leaves
    the default name in the map; and delete_profile on the default name
    always raises. -/
theorem C3_default_profile_invariant (pd : ProfileData) (ops : List ProfileOp)
    (hd : alistContains pd.profiles DEFAULT_PROFILE_NAME = true) :
    alistContains (runProfileOps pd ops).profiles DEFAULT_PROFILE_NAME = true ∧
    ∀ q : ProfileData, delete_profile q DEFAULT_PROFILE_NAME = none := by
  constructor
  · induction ops generalizing pd with
    | nil => exact hd
    | cons op t ih =>
      unfold runProfileOps
      rw [List.foldl_cons]
      cases happ : applyProfileOp pd op with
      | none =>
        exact ih pd hd
      | some pd' =>
        apply ih pd'
        cases op with
        | createOp n s => exact create_profile_preserves_default pd pd' n s happ hd
        | deleteOp n => exact delete_profile_preserves_default pd pd' n happ hd
        | renameOp o n => exact rename_profile_preserves_default pd pd' o n happ hd
  · intro q
    unfold delete_profile
    simp

/-- C3 witness: a concrete starting state and operation sequence. -/
theorem C3_default_profile_invariant_witness :
    alistContains
      (runProfileOps
        ⟨DEFAULT_PROFILE_NAME, [(DEFAULT_PROFILE_NAME, get_defaults)], []⟩
        [.createOp ("feral") none, .renameOp ("feral") ("steam"),
         .deleteOp ("steam"), .deleteOp (DEFAULT_PROFILE_NAME)]).profiles
      DEFAULT_PROFILE_NAME = true ∧
    ∀ q : ProfileData, delete_profile q DEFAULT_PROFILE_NAME = none :=
  C3_default_profile_invariant
    ⟨DEFAULT_PROFILE_NAME, [(DEFAULT_PROFILE_NAME, get_defaults)], []⟩
    [.createOp ("feral") none, .renameOp ("feral") ("steam"),
     .deleteOp ("steam"), .deleteOp (DEFAULT_PROFILE_NAME)]
    (by decide)

/-! ## Claim C2: validate_config -/

theorem validate_foldl_eq (fs : List ConfigField) (raw : List (String × PyVal))
    (l0 : List (String × PyVal)) :
    fs.foldl
      (fun acc f =>
        acc.bind (fun l =>
          let value := (alistGet raw f.name).getD f.default
          (convertField f.field_type value).map (fun v => l ++ [(f.name, v)])))
      (some l0) =
    (validateList raw fs).map (fun l => l0 ++ l) := by
  induction fs generalizing l0 with
  | nil => simp [validateList]
  | cons f t ih =>
    rw [List.foldl_cons, validateList]
    cases hc : convertField f.field_type ((alistGet raw f.name).getD f.default) with
    | none =>
      simp only [hc, Option.map_none', Option.bind_none, Option.none_bind]
      clear ih hc
      induction t with
      | nil => simp
      | cons g r ihr => simpa using ihr
    | some v =>
      simp only [hc, Option.some_bind, Option.map_some']
      rw [ih (l0 ++ [(f.name, v)])]
      cases validateList raw t <;> simp

theorem validate_config_eq_validateList (raw : List (String × PyVal)) :
    validate_config raw = validateList raw COMPLETE_CONFIG_SCHEMA := by
  unfold validate_config
  rw [validate_foldl_eq]
  cases validateList raw COMPLETE_CONFIG_SCHEMA <;> simp

theorem validateList_isSome (raw : List (String × PyVal)) (fs : List ConfigField)
    (h : ∀ f ∈ fs, (convertField f.field_type ((alistGet raw f.name).getD f.default)).isSome) :
    (validateList raw fs).isSome := by
  induction fs with
  | nil => simp [validateList]
  | cons f t ih =>
    rw [validateList]
    have hf := h f (by simp)
    rcases Option.isSome_iff_exists.mp hf with ⟨v, hv⟩
    have ht := ih (fun g hg => h g (by simp [hg]))
    rcases Option.isSome_iff_exists.mp ht with ⟨l, hl⟩
    simp [hv, hl]

theorem validateList_keys (raw : List (String × PyVal)) (fs : List ConfigField)
    (l : List (String × PyVal)) (h : validateList raw fs = some l) :
    alistKeys l = fs.map ConfigField.name := by
  induction fs generalizing l with
  | nil =>
    rw [validateList] at h
    injection h with h
    subst h
    rfl
  | cons f t ih =>
    rw [validateList] at h
    cases hc : convertField f.field_type ((alistGet raw f.name).getD f.default) with
    | none => rw [hc] at h; cases h
    | some v =>
      rw [hc] at h
      cases hr : validateList raw t with
      | none => rw [hr] at h; cases h
      | some r =>
        rw [hr] at h
        injection h with h
        subst h
        simp only [alistKeys, List.map_cons, List.map_cons]
        rw [show List.map Prod.fst r = alistKeys r from rfl, ih r hr]

theorem validateList_get (raw : List (String × PyVal)) (fs : List ConfigField)
    (l : List (String × PyVal)) (h : validateList raw fs = some l)
    (hnod : (fs.map ConfigField.name).Nodup) :
    ∀ f ∈ fs, alistGet l f.name =
      convertField f.field_type ((alistGet raw f.name).getD f.default) := by
  induction fs generalizing l with
  | nil => intro f hf; cases hf
  | cons g t ih =>
    rw [validateList] at h
    cases hc : convertField g.field_type ((alistGet raw g.name).getD g.default) with
    | none => rw [hc] at h; cases h
    | some v =>
      rw [hc] at h
      cases hr : validateList raw t with
      | none => rw [hr] at h; cases h
      | some r =>
        rw [hr] at h
        injection h with h
        subst h
        intro f hf
        rcases List.mem_cons.mp hf with rfl | hft
        · rw [alistGet_cons, if_pos rfl, hc]
        · have hgne : g.name ≠ f.name := by
            intro hh
            have : f.name ∈ t.map ConfigField.name := List.mem_map_of_mem _ hft
            rw [List.map_cons] at hnod
            exact (List.nodup_cons.mp hnod).1 (hh ▸ this)
          rw [alistGet_cons, if_neg hgne]
          exact ih r hr (List.nodup_cons.mp (List.map_cons _ g t ▸ hnod)).2 f hft

/-- C2 counterexample: validate_config raises (none) on a mapping whose
    multiplier value is the string abc, refuting the never-raises claim. -/
theorem C2_counterexample :
    validate_config [("multiplier", PyVal.pstr "abc")] = none := by decide

/-- C2 (amended): when every provided value is convertible to its field's
    declared type, validate_config returns (without raising) a configuration
    whose key list is exactly the schema field list (so unknown input keys
    are dropped), in which each field holds the coercion of its input value,
    and each absent field holds the field's default.  When a value is not
    convertible (int() or float() raising ValueError), validate_config
    propagates the exception instead of substituting the default. -/
theorem C2_validate_amended (raw : List (String × PyVal))
    (h : ∀ f ∈ COMPLETE_CONFIG_SCHEMA,
      (convertField f.field_type ((alistGet raw f.name).getD f.default)).isSome) :
    ∃ l, validate_config raw = some l ∧
      alistKeys l = COMPLETE_CONFIG_SCHEMA.map ConfigField.name ∧
      (∀ f ∈ COMPLETE_CONFIG_SCHEMA,
        alistGet l f.name =
          convertField f.field_type ((alistGet raw f.name).getD f.default)) ∧
      (∀ f ∈ COMPLETE_CONFIG_SCHEMA,
        alistGet raw f.name = none → alistGet l f.name = some f.default) := by
  rw [validate_config_eq_validateList]
  rcases Option.isSome_iff_exists.mp (validateList_isSome raw COMPLETE_CONFIG_SCHEMA h) with ⟨l, hl⟩
  refine ⟨l, hl, validateList_keys raw _ l hl, validateList_get raw _ l hl (by decide), ?_⟩
  intro f hf habs
  rw [validateList_get raw _ l hl (by decide) f hf, habs]
  have : ∀ g ∈ COMPLETE_CONFIG_SCHEMA, convertField g.field_type g.default = some g.default := by
    decide
  simpa using this f hf

/-- C2 witness: a mapping with one convertible value and one unknown key. -/
theorem C2_validate_amended_witness :
    ∃ l, validate_config [("multiplier", PyVal.pint 7), ("zzz", PyVal.pstr "x")] = some l ∧
      alistKeys l = COMPLETE_CONFIG_SCHEMA.map ConfigField.name ∧
      (∀ f ∈ COMPLETE_CONFIG_SCHEMA,
        alistGet l f.name =
          convertField f.field_type
            ((alistGet [("multiplier", PyVal.pint 7), ("zzz", PyVal.pstr "x")] f.name).getD
              f.default)) ∧
      (∀ f ∈ COMPLETE_CONFIG_SCHEMA,
        alistGet [("multiplier", PyVal.pint 7), ("zzz", PyVal.pstr "x")] f.name = none →
          alistGet l f.name = some f.default) :=
  C2_validate_amended [("multiplier", PyVal.pint 7), ("zzz", PyVal.pstr "x")] (by decide)

/-! ## Claim C9: the TOML parser's structural postcondition -/

theorem parse_fixup_post (st : ScanState) :
    (parse_fixup st).profiles ≠ [] ∧
    alistContains (parse_fixup st).profiles (parse_fixup st).current_profile = true := by
  unfold parse_fixup
  by_cases he : st.profiles.isEmpty
  · rw [if_pos he]
    have hemp : st.profiles = [] := List.isEmpty_iff.mp he
    by_cases hc : alistContains (alistInsert st.profiles DEFAULT_PROFILE_NAME get_defaults)
        st.current_profile = true
    · rw [if_pos hc]
      exact ⟨alistInsert_ne_nil _ _ _, hc⟩
    · rw [if_neg hc]
      have hd : alistContains (alistInsert st.profiles DEFAULT_PROFILE_NAME get_defaults)
          DEFAULT_PROFILE_NAME = true := by
        rw [alistContains_insert]
        simp
      rw [if_pos hd]
      exact ⟨alistInsert_ne_nil _ _ _, hd⟩
  · rw [if_neg he]
    by_cases hc : alistContains st.profiles st.current_profile = true
    · rw [if_pos hc]
      exact ⟨fun h => he (List.isEmpty_iff.mpr h), hc⟩
    · rw [if_neg hc]
      by_cases hd : alistContains st.profiles DEFAULT_PROFILE_NAME = true
      · rw [if_pos hd]
        exact ⟨fun h => he (List.isEmpty_iff.mpr h), hd⟩
      · rw [if_neg hd]
        refine ⟨alistInsert_ne_nil _ _ _, ?_⟩
        rw [alistContains_insert]
        simp

/-- C9: for every input string, parse_toml_content_multi_profile returns
    (totally, the model never reaches the blanket except) a ProfileData whose
    profile map is non-empty and whose current_profile is one of its keys. -/
theorem C9_parse_total_postcondition (content : String) :
    (parse_toml_content_multi_profile content).profiles ≠ [] ∧
    alistContains (parse_toml_content_multi_profile content).profiles
      (parse_toml_content_multi_profile content).current_profile = true := by
  unfold parse_toml_content_multi_profile
  exact parse_fixup_post _

/-! ## Claim C6: scenario B parse -/

/-- C6 counterexample: the parse of scenarioB does not have feral as its only
    profile key; the reserved default profile is added as well, because
    current_profile (absent from the text) must be a key of the map. -/
theorem C6_counterexample :
    alistKeys (parse_toml_content_multi_profile scenarioB).profiles ≠ ["feral"] ∧
    alistContains (parse_toml_content_multi_profile scenarioB).profiles
      DEFAULT_PROFILE_NAME = true := by decide

/-- C6 (amended): parsing scenarioB yields profiles feral (multiplier 3,
    flow_scale 1.2, every other field at its schema default) AND the default
    profile decky-lsfg-vk at full defaults, with current_profile the default
    name and an empty global section. -/
theorem C6_amended :
    parse_toml_content_multi_profile scenarioB =
      { current_profile := DEFAULT_PROFILE_NAME,
        profiles :=
          [("feral",
            alistInsert (alistInsert get_defaults ("multiplier") (.pint 3))
              ("flow_scale") (.pfloat ⟨12, 1⟩)),
           (DEFAULT_PROFILE_NAME, get_defaults)],
        global_config := [] } := by decide

/-! ## Character classification and trim lemmas -/

theorem isPyWS_eq_false_of_isDigit (c : Char) (h : c.isDigit = true) : isPyWS c = false := by
  unfold isPyWS
  have h1 : ¬ (c = ' ') := fun hh => by subst hh; simp [Char.isDigit] at h
  have h2 : ¬ (c = '\t') := fun hh => by subst hh; simp [Char.isDigit] at h
  have h3 : ¬ (c = '\n') := fun hh => by subst hh; simp [Char.isDigit] at h
  have h4 : ¬ (c = '\r') := fun hh => by subst hh; simp [Char.isDigit] at h
  have h5 : ¬ (c = '\x0b') := fun hh => by subst hh; simp [Char.isDigit] at h
  have h6 : ¬ (c = '\x0c') := fun hh => by subst hh; simp [Char.isDigit] at h
  simp [h1, h2, h3, h4, h5, h6]

theorem dropWhile_eq_self_of_head (l : List Char)
    (h : ∀ c, l.head? = some c → isPyWS c = false) : l.dropWhile isPyWS = l := by
  cases l with
  | nil => rfl
  | cons c t =>
    rw [List.dropWhile_cons, h c rfl]
    simp

theorem trimChars_eq_self (l : List Char)
    (hh : ∀ c, l.head? = some c → isPyWS c = false)
    (hl : ∀ c, l.getLast? = some c → isPyWS c = false) : trimChars l = l := by
  unfold trimChars
  rw [dropWhile_eq_self_of_head l hh]
  rw [dropWhile_eq_self_of_head l.reverse (fun c hc => hl c (by rwa [List.head?_reverse] at hc))]
  exact List.reverse_reverse l

theorem trimChars_cons_ws (c : Char) (l : List Char) (hc : isPyWS c = true) :
    trimChars (c :: l) = trimChars l := by
  unfold trimChars
  rw [List.dropWhile_cons, hc]
  simp

/-! ## Digit rendering facts -/

theorem digitChar10_isDigit (d : Nat) (h : d < 10) : (digitChar10 d).isDigit = true := by
  interval_cases d <;> decide

theorem digitVal_digitChar10 (d : Nat) (h : d < 10) : digitVal (digitChar10 d) = d := by
  interval_cases d <;> decide

theorem natDigitsAux_all_digits (fuel n : Nat) :
    (natDigitsAux fuel n).all Char.isDigit = true := by
  induction fuel generalizing n with
  | zero => rfl
  | succ fuel ih =>
    cases n with
    | zero => rfl
    | succ m =>
      rw [natDigitsAux, List.all_append]
      rw [ih]
      simp [digitChar10_isDigit _ (Nat.mod_lt _ (by omega))]

theorem natDigitsAux_foldl (fuel n a : Nat) (h : n ≤ fuel) :
    (natDigitsAux fuel n).foldl (fun a c => 10 * a + digitVal c) a =
      a * 10 ^ (natDigitsAux fuel n).length + n := by
  induction fuel generalizing n a with
  | zero =>
    have : n = 0 := Nat.le_zero.mp h
    subst this
    simp [natDigitsAux]
  | succ fuel ih =>
    cases n with
    | zero => simp [natDigitsAux]
    | succ m =>
      rw [natDigitsAux, List.foldl_append, List.length_append]
      have hq : (m + 1) / 10 ≤ fuel := by
        have := Nat.div_lt_self (Nat.succ_pos m) (by omega : 1 < 10)
        omega
      rw [ih _ a hq]
      simp only [List.foldl_cons, List.foldl_nil, List.length_cons, List.length_nil]
      rw [digitVal_digitChar10 _ (Nat.mod_lt _ (by omega))]
      have : (m + 1) % 10 + 10 * ((m + 1) / 10) = m + 1 := Nat.mod_add_div _ _
      ring_nf
      omega

theorem natDigitsAux_lt (fuel n : Nat) (h : n ≤ fuel) :
    n < 10 ^ (natDigitsAux fuel n).length := by
  induction fuel generalizing n with
  | zero =>
    have : n = 0 := Nat.le_zero.mp h
    subst this
    simp [natDigitsAux]
  | succ fuel ih =>
    cases n with
    | zero => simp [natDigitsAux]
    | succ m =>
      rw [natDigitsAux, List.length_append]
      have hq : (m + 1) / 10 ≤ fuel := by
        have := Nat.div_lt_self (Nat.succ_pos m) (by omega : 1 < 10)
        omega
      have h1 := ih _ hq
      have h2 : (m + 1) % 10 + 10 * ((m + 1) / 10) = m + 1 := Nat.mod_add_div _ _
      have h3 : (m + 1) % 10 < 10 := Nat.mod_lt _ (by omega)
      simp only [List.length_cons, List.length_nil]
      rw [pow_succ]
      have h4 : ((m + 1) / 10 + 1) * 10 ≤ 10 ^ (natDigitsAux fuel ((m + 1) / 10)).length * 10 :=
        Nat.mul_le_mul_right _ h1
      omega

theorem natDigitsAux_length_le (fuel n k : Nat) (hf : n ≤ fuel) (h : n < 10 ^ k) :
    (natDigitsAux fuel n).length ≤ k := by
  induction fuel generalizing n k with
  | zero =>
    have : n = 0 := Nat.le_zero.mp hf
    subst this
    simp [natDigitsAux]
  | succ fuel ih =>
    cases n with
    | zero => simp [natDigitsAux]
    | succ m =>
      rw [natDigitsAux, List.length_append]
      cases k with
      | zero => simp at h
      | succ k0 =>
        have hq : (m + 1) / 10 ≤ fuel := by
          have := Nat.div_lt_self (Nat.succ_pos m) (by omega : 1 < 10)
          omega
        have hqk : (m + 1) / 10 < 10 ^ k0 := by
          rw [Nat.div_lt_iff_lt_mul (by omega : 0 < 10)]
          have hp : (10 : Nat) ^ (k0 + 1) = 10 ^ k0 * 10 := pow_succ 10 k0
          omega
        have := ih _ k0 hq hqk
        simp only [List.length_cons, List.length_nil]
        omega

theorem natDigitsAux_ne_nil (fuel n : Nat) (h0 : 0 < n) (h : n ≤ fuel) :
    natDigitsAux fuel n ≠ [] := by
  cases fuel with
  | zero => omega
  | succ f =>
    cases n with
    | zero => omega
    | succ m =>
      rw [natDigitsAux]
      simp

/-! ## Render/parse round trips for numbers -/

theorem renderNat_data (n : Nat) :
    (renderNat n).data = if n = 0 then ['0'] else natDigitsAux n n := by
  unfold renderNat
  by_cases h : n = 0 <;> simp [h]

theorem renderNat_all_digits (n : Nat) : (renderNat n).data.all Char.isDigit = true := by
  rw [renderNat_data]
  by_cases h : n = 0
  · simp [h]
  · rw [if_neg h]
    exact natDigitsAux_all_digits n n

theorem renderNat_ne_nil (n : Nat) : (renderNat n).data ≠ [] := by
  rw [renderNat_data]
  by_cases h : n = 0
  · simp [h]
  · rw [if_neg h]
    exact natDigitsAux_ne_nil n n (Nat.pos_of_ne_zero h) le_rfl

theorem parseNatChars_renderNat (n : Nat) : parseNatChars (renderNat n).data = some n := by
  unfold parseNatChars
  rw [if_pos (by
    rw [Bool.and_eq_true]
    constructor
    · simpa [List.isEmpty_iff] using renderNat_ne_nil n
    · exact renderNat_all_digits n)]
  rw [renderNat_data]
  by_cases h : n = 0
  · simp [h, digitVal]
  · rw [if_neg h]
    rw [natDigitsAux_foldl n n 0 le_rfl]
    simp

theorem trimChars_all_nonws (l : List Char) (h : ∀ c ∈ l, isPyWS c = false) :
    trimChars l = l :=
  trimChars_eq_self l (fun c hc => h c (List.mem_of_mem_head? hc))
    (fun c hc => h c (List.mem_of_mem_getLast? hc))

theorem trimChars_all_digits (l : List Char) (h : l.all Char.isDigit = true) :
    trimChars l = l := by
  apply trimChars_all_nonws
  intro c hc
  rw [List.all_eq_true] at h
  exact isPyWS_eq_false_of_isDigit c (h c hc)

theorem parseSign_of_digits (l : List Char) (h : l.all Char.isDigit = true) :
    parseSign l = (false, l) := by
  cases l with
  | nil => rfl
  | cons c t =>
    rw [List.all_cons, Bool.and_eq_true] at h
    have h1 : ¬ (c = '-') := fun hh => by subst hh; simp [Char.isDigit] at h
    have h2 : ¬ (c = '+') := fun hh => by subst hh; simp [Char.isDigit] at h
    simp [parseSign, h1, h2]

theorem pyIntOfString_renderInt (i : Int) : pyIntOfString (renderInt i) = some i := by
  unfold pyIntOfString renderInt
  by_cases h : i < 0
  · rw [if_pos h]
    have hd : (String.mk ('-' :: (renderNat i.natAbs).data)).data
        = '-' :: (renderNat i.natAbs).data := rfl
    rw [hd]
    have htrim : trimChars ('-' :: (renderNat i.natAbs).data)
        = '-' :: (renderNat i.natAbs).data := by
      apply trimChars_all_nonws
      intro c hc
      rcases List.mem_cons.mp hc with rfl | hc
      · decide
      · exact isPyWS_eq_false_of_isDigit c
          (List.all_eq_true.mp (renderNat_all_digits i.natAbs) c hc)
    rw [htrim]
    have hsign : parseSign ('-' :: (renderNat i.natAbs).data)
        = (true, (renderNat i.natAbs).data) := by simp [parseSign]
    have habs : ((i.natAbs : Int)) = -i := by omega
    simp [hsign, parseNatChars_renderNat, habs]
  · rw [if_neg h]
    rw [trimChars_all_digits _ (renderNat_all_digits i.natAbs)]
    have habs : ((i.natAbs : Int)) = i := by omega
    simp [parseSign_of_digits _ (renderNat_all_digits i.natAbs),
      parseNatChars_renderNat, habs]

theorem decNorm_canon (m : Int) (e : Nat) (h : isCanonDec ⟨m, e⟩ = true) :
    decNorm m e = ⟨m, e⟩ := by
  cases e with
  | zero => rfl
  | succ e0 =>
    unfold decNorm
    unfold isCanonDec at h
    rcases Bool.or_eq_true_iff.mp h with h1 | h2
    · simp at h1
    · rw [if_neg (by simpa using h2)]

theorem decNorm_mul_pow (m : Int) (e j : Nat) :
    decNorm (m * 10 ^ j) (e + j) = decNorm m e := by
  induction j with
  | zero => simp
  | succ j ih =>
    have hm : m * 10 ^ (j + 1) = (m * 10 ^ j) * 10 := by ring
    have hadd : e + (j + 1) = (e + j) + 1 := by omega
    rw [hadd, hm, decNorm]
    rw [if_pos (Int.mul_emod_left _ _)]
    rw [Int.mul_ediv_cancel _ (by norm_num)]
    exact ih

theorem foldl_replicate_zero (m a : Nat) :
    (List.replicate m '0').foldl (fun a c => 10 * a + digitVal c) a = a * 10 ^ m := by
  induction m generalizing a with
  | zero => simp
  | succ m ih =>
    rw [List.replicate_succ, List.foldl_cons, ih]
    have : digitVal '0' = 0 := rfl
    rw [this]
    ring

theorem foldl_padLeftZeros (k : Nat) (l : List Char) :
    (padLeftZeros k l).foldl (fun a c => 10 * a + digitVal c) 0 =
      l.foldl (fun a c => 10 * a + digitVal c) 0 := by
  unfold padLeftZeros
  rw [List.foldl_append, foldl_replicate_zero]
  simp

theorem padLeftZeros_all_digits (k : Nat) (l : List Char)
    (h : l.all Char.isDigit = true) : (padLeftZeros k l).all Char.isDigit = true := by
  unfold padLeftZeros
  rw [List.all_append, h]
  simp only [Bool.and_true, List.all_eq_true]
  intro c hc
  rw [List.eq_of_mem_replicate hc]
  decide

theorem padLeftZeros_length (k : Nat) (l : List Char) (h : l.length ≤ k) :
    (padLeftZeros k l).length = k := by
  unfold padLeftZeros
  rw [List.length_append, List.length_replicate]
  omega

theorem splitFirstChar_not_contains (c : Char) (l : List Char)
    (h : ∀ x ∈ l, x ≠ c) : splitFirstChar c l = none := by
  induction l with
  | nil => rfl
  | cons x t ih =>
    rw [splitFirstChar, if_neg (h x (by simp))]
    rw [ih (fun y hy => h y (by simp [hy]))]
    rfl

theorem splitFirstChar_append (c : Char) (a b : List Char)
    (h : ∀ x ∈ a, x ≠ c) : splitFirstChar c (a ++ c :: b) = some (a, b) := by
  induction a with
  | nil => simp [splitFirstChar]
  | cons x t ih =>
    rw [List.cons_append, splitFirstChar, if_neg (h x (by simp))]
    rw [ih (fun y hy => h y (by simp [hy]))]
    rfl

theorem digits_ne_dot (l : List Char) (h : l.all Char.isDigit = true) :
    ∀ x ∈ l, x ≠ '.' := by
  intro x hx hdot
  subst hdot
  have := List.all_eq_true.mp h _ hx
  simp [Char.isDigit] at this

theorem pyFloatOfString_renderDec (d : Dec) (h : isCanonDec d = true) :
    pyFloatOfString (renderDec d) = some d := by
  obtain ⟨m, e⟩ := d
  unfold pyFloatOfString renderDec
  set k := max e 1 with hk
  set a := m.natAbs * 10 ^ (k - e) with ha
  set ipd := (renderNat (a / 10 ^ k)).data with hipd
  set fpd := padLeftZeros k (renderNat (a % 10 ^ k)).data with hfpd
  have hip_digits : ipd.all Char.isDigit = true := renderNat_all_digits _
  have hfp_digits0 : (renderNat (a % 10 ^ k)).data.all Char.isDigit = true :=
    renderNat_all_digits _
  have hfp_digits : fpd.all Char.isDigit = true :=
    padLeftZeros_all_digits _ _ hfp_digits0
  have hfp_len : fpd.length = k := by
    apply padLeftZeros_length
    rw [renderNat_data]
    by_cases hz : a % 10 ^ k = 0
    · simp [hz]
      omega
    · rw [if_neg hz]
      exact natDigitsAux_length_le _ _ _ le_rfl (Nat.mod_lt _ (by positivity))
  have hbody_digits : ∀ x ∈ ipd ++ '.' :: fpd, isPyWS x = false := by
    intro x hx
    rcases List.mem_append.mp hx with hx | hx
    · exact isPyWS_eq_false_of_isDigit x (List.all_eq_true.mp hip_digits x hx)
    · rcases List.mem_cons.mp hx with rfl | hx
      · decide
      · exact isPyWS_eq_false_of_isDigit x (List.all_eq_true.mp hfp_digits x hx)
  by_cases hneg : m < 0
  · rw [if_pos hneg]
    have hdata : (String.mk (['-'] ++ ipd ++ '.' :: fpd)).data
        = '-' :: (ipd ++ '.' :: fpd) := rfl
    rw [hdata]
    have htrim : trimChars ('-' :: (ipd ++ '.' :: fpd)) = '-' :: (ipd ++ '.' :: fpd) := by
      apply trimChars_all_nonws
      intro c hc
      rcases List.mem_cons.mp hc with rfl | hc
      · decide
      · exact hbody_digits c hc
    rw [htrim]
    have hsign : parseSign ('-' :: (ipd ++ '.' :: fpd)) = (true, ipd ++ '.' :: fpd) := by
      simp [parseSign]
    simp only [hsign]
    rw [splitFirstChar_append '.' ipd fpd (digits_ne_dot _ hip_digits)]
    dsimp only
    rw [if_pos (by
      rw [hip_digits, hfp_digits]
      have hne : ipd ≠ [] := by
        rw [hipd]
        exact renderNat_ne_nil _
      simp [List.isEmpty_iff, hne])]
    have hipv : ipd.foldl (fun a c => 10 * a + digitVal c) 0 = a / 10 ^ k := by
      have := parseNatChars_renderNat (a / 10 ^ k)
      unfold parseNatChars at this
      rw [if_pos (by
        rw [Bool.and_eq_true]
        exact ⟨by simpa [List.isEmpty_iff] using renderNat_ne_nil _, renderNat_all_digits _⟩)] at this
      injection this
    have hfpv : fpd.foldl (fun a c => 10 * a + digitVal c) 0 = a % 10 ^ k := by
      rw [hfpd, foldl_padLeftZeros]
      have := parseNatChars_renderNat (a % 10 ^ k)
      unfold parseNatChars at this
      rw [if_pos (by
        rw [Bool.and_eq_true]
        exact ⟨by simpa [List.isEmpty_iff] using renderNat_ne_nil _, renderNat_all_digits _⟩)] at this
      injection this
    rw [hipv, hfpv, hfp_len]
    have hval : ((a / 10 ^ k : Nat) : Int) * 10 ^ k + ((a % 10 ^ k : Nat) : Int) = (a : Int) := by
      have h0 : 10 ^ k * (a / 10 ^ k) + a % 10 ^ k = a := Nat.div_add_mod a (10 ^ k)
      have h1 : ((10 ^ k * (a / 10 ^ k) + a % 10 ^ k : Nat) : Int) = (a : Int) := by
        exact_mod_cast congrArg (fun x : Nat => (x : Int)) h0
      push_cast at h1 ⊢
      linarith [h1]
    have hae : (a : Int) = -m * 10 ^ (k - e) := by
      rw [ha]
      push_cast
      rw [abs_of_neg hneg]
    simp only [if_true, Option.some.injEq]
    rw [hval, hae]
    have hdneg : -(-m * 10 ^ ((k : Nat) - e)) = m * 10 ^ (k - e) := by ring
    rw [hdneg]
    have hke : k = e + (k - e) := by omega
    have hstrip : decNorm (m * 10 ^ (k - e)) k = decNorm m e := by
      have h2 : decNorm (m * 10 ^ (k - e)) (e + (k - e)) = decNorm m e :=
        decNorm_mul_pow m e (k - e)
      rwa [show e + (k - e) = k by omega] at h2
    rw [hstrip]
    exact decNorm_canon m e h
  · rw [if_neg hneg]
    have hdata : (String.mk ([] ++ ipd ++ '.' :: fpd)).data
        = ipd ++ '.' :: fpd := rfl
    rw [hdata]
    have htrim : trimChars (ipd ++ '.' :: fpd) = ipd ++ '.' :: fpd :=
      trimChars_all_nonws _ hbody_digits
    rw [htrim]
    have hsign : parseSign (ipd ++ '.' :: fpd) = (false, ipd ++ '.' :: fpd) := by
      cases hip : ipd with
      | nil =>
        exfalso
        exact renderNat_ne_nil _ (hipd ▸ hip)
      | cons c t =>
        have hcd : c.isDigit = true := by
          have := hip ▸ hip_digits
          rw [List.all_cons, Bool.and_eq_true] at this
          exact this.1
        have h1 : ¬ (c = '-') := fun hh => by subst hh; simp [Char.isDigit] at hcd
        have h2 : ¬ (c = '+') := fun hh => by subst hh; simp [Char.isDigit] at hcd
        simp [parseSign, h1, h2]
    simp only [hsign]
    rw [splitFirstChar_append '.' ipd fpd (digits_ne_dot _ hip_digits)]
    dsimp only
    rw [if_pos (by
      rw [hip_digits, hfp_digits]
      have hne : ipd ≠ [] := by
        rw [hipd]
        exact renderNat_ne_nil _
      simp [List.isEmpty_iff, hne])]
    have hipv : ipd.foldl (fun a c => 10 * a + digitVal c) 0 = a / 10 ^ k := by
      have := parseNatChars_renderNat (a / 10 ^ k)
      unfold parseNatChars at this
      rw [if_pos (by
        rw [Bool.and_eq_true]
        exact ⟨by simpa [List.isEmpty_iff] using renderNat_ne_nil _, renderNat_all_digits _⟩)] at this
      injection this
    have hfpv : fpd.foldl (fun a c => 10 * a + digitVal c) 0 = a % 10 ^ k := by
      rw [hfpd, foldl_padLeftZeros]
      have := parseNatChars_renderNat (a % 10 ^ k)
      unfold parseNatChars at this
      rw [if_pos (by
        rw [Bool.and_eq_true]
        exact ⟨by simpa [List.isEmpty_iff] using renderNat_ne_nil _, renderNat_all_digits _⟩)] at this
      injection this
    rw [hipv, hfpv, hfp_len]
    have hval : ((a / 10 ^ k : Nat) : Int) * 10 ^ k + ((a % 10 ^ k : Nat) : Int) = (a : Int) := by
      have h0 : 10 ^ k * (a / 10 ^ k) + a % 10 ^ k = a := Nat.div_add_mod a (10 ^ k)
      have h1 : ((10 ^ k * (a / 10 ^ k) + a % 10 ^ k : Nat) : Int) = (a : Int) := by
        exact_mod_cast congrArg (fun x : Nat => (x : Int)) h0
      push_cast at h1 ⊢
      linarith [h1]
    have hae : (a : Int) = m * 10 ^ (k - e) := by
      rw [ha]
      push_cast
      rw [abs_of_nonneg (le_of_not_lt hneg)]
    simp only [Bool.false_eq_true, if_false, Option.some.injEq]
    rw [hval, hae]
    have hke : k = e + (k - e) := by omega
    have hstrip : decNorm (m * 10 ^ (k - e)) k = decNorm m e := by
      have h2 : decNorm (m * 10 ^ (k - e)) (e + (k - e)) = decNorm m e :=
        decNorm_mul_pow m e (k - e)
      rwa [show e + (k - e) = k by omega] at h2
    rw [hstrip]
    exact decNorm_canon m e h

/-! ## Claim C7: the boolean export lines of the generated script -/

theorem generate_script_lines_eq_flatMap (c : List (String × PyVal)) :
    generate_script_lines c = scriptSchemaFields.flatMap (script_gen_field_lines c) := rfl

theorem typed_get_by_name (c : List (String × PyVal)) (ht : typedConfig c = true)
    (name : String) (ft : ConfigFieldType)
    (h : CONFIG_SCHEMA_DEF.any (fun f => f.name == name && f.field_type == ft) = true) :
    ∃ v, alistGet c name = some v ∧ typedVal ft v = true := by
  rcases List.any_eq_true.mp h with ⟨f, hf, hp⟩
  rw [Bool.and_eq_true, beq_iff_eq, beq_iff_eq] at hp
  obtain ⟨hname, hft⟩ := hp
  unfold typedConfig at ht
  have hfield := List.all_eq_true.mp ht f hf
  rw [hname] at hfield
  cases hg : alistGet c name with
  | none => rw [hg] at hfield; cases hfield
  | some v =>
    rw [hg] at hfield
    exact ⟨v, rfl, hft ▸ hfield⟩

theorem typed_get_bool (c : List (String × PyVal)) (ht : typedConfig c = true)
    (name : String)
    (h : CONFIG_SCHEMA_DEF.any (fun f => f.name == name && f.field_type == .boolean) = true) :
    ∃ b, alistGet c name = some (PyVal.pbool b) := by
  obtain ⟨v, hv, htv⟩ := typed_get_by_name c ht name .boolean h
  cases v with
  | pbool b => exact ⟨b, hv⟩
  | pint n => simp [typedVal] at htv
  | pfloat d => simp [typedVal] at htv
  | pstr s => simp [typedVal] at htv

theorem typed_get_int (c : List (String × PyVal)) (ht : typedConfig c = true)
    (name : String)
    (h : CONFIG_SCHEMA_DEF.any (fun f => f.name == name && f.field_type == .integer) = true) :
    ∃ n, alistGet c name = some (PyVal.pint n) := by
  obtain ⟨v, hv, htv⟩ := typed_get_by_name c ht name .integer h
  cases v with
  | pint n => exact ⟨n, hv⟩
  | pbool b => simp [typedVal] at htv
  | pfloat d => simp [typedVal] at htv
  | pstr s => simp [typedVal] at htv

theorem typed_get_float (c : List (String × PyVal)) (ht : typedConfig c = true)
    (name : String)
    (h : CONFIG_SCHEMA_DEF.any (fun f => f.name == name && f.field_type == .float) = true) :
    ∃ d, isCanonDec d = true ∧ alistGet c name = some (PyVal.pfloat d) := by
  obtain ⟨v, hv, htv⟩ := typed_get_by_name c ht name .float h
  cases v with
  | pfloat d => exact ⟨d, htv, hv⟩
  | pbool b => simp [typedVal] at htv
  | pint n => simp [typedVal] at htv
  | pstr s => simp [typedVal] at htv

theorem typed_get_str (c : List (String × PyVal)) (ht : typedConfig c = true)
    (name : String)
    (h : CONFIG_SCHEMA_DEF.any (fun f => f.name == name && f.field_type == .string) = true) :
    ∃ s, alistGet c name = some (PyVal.pstr s) := by
  obtain ⟨v, hv, htv⟩ := typed_get_by_name c ht name .string h
  cases v with
  | pstr s => exact ⟨s, hv⟩
  | pbool b => simp [typedVal] at htv
  | pint n => simp [typedVal] at htv
  | pfloat d => simp [typedVal] at htv

theorem script_gen_field_lines_shape (c : List (String × PyVal)) (f : ConfigField) :
    ∀ l ∈ script_gen_field_lines c f,
      ∃ v : PyVal, l = exportLine (get_env_var_name f.name) v := by
  intro l hl
  unfold script_gen_field_lines at hl
  obtain ⟨fname, fft, fdef, fdesc, floc⟩ := f
  cases fft <;> cases fdef <;> dsimp only at hl <;>
    split_ifs at hl <;>
    first
      | exact absurd hl (List.not_mem_nil _)
      | (rcases List.mem_singleton.mp hl with rfl
         first
           | exact ⟨PyVal.pstr "0", rfl⟩
           | exact ⟨PyVal.pstr "1", rfl⟩
           | exact ⟨_, rfl⟩)

theorem exportLine_inj_env (env1 env2 : String) (v1 v2 : PyVal)
    (h1 : ∀ x ∈ env1.data, x ≠ '=') (h2 : ∀ x ∈ env2.data, x ≠ '=')
    (hne : env1 ≠ env2) : exportLine env1 v1 ≠ exportLine env2 v2 := by
  intro heq
  have hdata := congrArg String.data heq
  have hcut : env1.data ++ '=' :: (pyStrFn v1).data = env2.data ++ '=' :: (pyStrFn v2).data := by
    have : "export ".data ++ (env1.data ++ '=' :: (pyStrFn v1).data) =
        "export ".data ++ (env2.data ++ '=' :: (pyStrFn v2).data) := by
      simpa [exportLine] using hdata
    exact List.append_cancel_left this
  have e1 := splitFirstChar_append '=' env1.data (pyStrFn v1).data h1
  have e2 := splitFirstChar_append '=' env2.data (pyStrFn v2).data h2
  rw [hcut] at e1
  rw [e2] at e1
  injection e1 with e1
  have hfst : env2.data = env1.data := congrArg Prod.fst e1
  exact hne (String.ext hfst.symm)

theorem env_no_eq : ∀ g ∈ scriptSchemaFields, ∀ x ∈ (get_env_var_name g.name).data, x ≠ '=' := by
  decide

theorem mem_generate_iff_segment (c : List (String × PyVal)) (g : ConfigField)
    (hg : g ∈ scriptSchemaFields) (v : PyVal)
    (huniq : ∀ g' ∈ scriptSchemaFields,
      get_env_var_name g'.name = get_env_var_name g.name → g' = g) :
    (exportLine (get_env_var_name g.name) v ∈ generate_script_lines c ↔
      exportLine (get_env_var_name g.name) v ∈ script_gen_field_lines c g) := by
  rw [generate_script_lines_eq_flatMap]
  constructor
  · intro h
    rcases List.mem_flatMap.mp h with ⟨g', hg', hl⟩
    by_cases hsame : get_env_var_name g'.name = get_env_var_name g.name
    · rwa [huniq g' hg' hsame] at hl
    · obtain ⟨w, hw⟩ := script_gen_field_lines_shape c g' _ hl
      exact absurd hw.symm
        (exportLine_inj_env _ _ _ _ (env_no_eq g' hg') (env_no_eq g hg) hsame)
  · intro h
    exact List.mem_flatMap.mpr ⟨g, hg, h⟩

theorem mem_plain_bool_segment_iff (c : List (String × PyVal)) (g : ConfigField)
    (hbool : g.field_type = .boolean)
    (h1 : (g.name == "disable_steamdeck_mode") = false)
    (h2 : (g.name == "enable_wsi") = false)
    (b : Bool) (hb : alistGet c g.name = some (PyVal.pbool b)) :
    (exportLine (get_env_var_name g.name) (.pstr "1") ∈ script_gen_field_lines c g ↔
      b = true) := by
  unfold script_gen_field_lines
  rw [hbool]
  dsimp only
  rw [if_neg (by simp [h1]), if_neg (by simp [h2]), hb]
  dsimp only [Option.getD]
  cases b
  · rw [if_neg (by simp [pyTruthy])]
    simp
  · rw [if_pos (by simp [pyTruthy])]
    exact iff_of_true (List.mem_singleton.mpr rfl) rfl

theorem mem_steamdeck_segment_iff (c : List (String × PyVal)) (g : ConfigField)
    (hbool : g.field_type = .boolean)
    (h1 : (g.name == "disable_steamdeck_mode") = true)
    (b : Bool) (hb : alistGet c g.name = some (PyVal.pbool b)) :
    (exportLine (get_env_var_name g.name) (.pstr "0") ∈ script_gen_field_lines c g ↔
      b = true) := by
  unfold script_gen_field_lines
  rw [hbool]
  dsimp only
  rw [if_pos (by simp [h1]), hb]
  dsimp only [Option.getD]
  cases b
  · rw [if_neg (by simp [pyTruthy])]
    simp
  · rw [if_pos (by simp [pyTruthy])]
    exact iff_of_true (List.mem_singleton.mpr rfl) rfl

theorem plain_bool_line_iff (c : List (String × PyVal)) (ht : typedConfig c = true)
    (g : ConfigField) (hg : g ∈ scriptSchemaFields) (hbool : g.field_type = .boolean)
    (h1 : (g.name == "disable_steamdeck_mode") = false)
    (h2 : (g.name == "enable_wsi") = false)
    (hn : CONFIG_SCHEMA_DEF.any (fun f => f.name == g.name && f.field_type == .boolean) = true)
    (huniq : ∀ g' ∈ scriptSchemaFields,
      get_env_var_name g'.name = get_env_var_name g.name → g' = g) :
    (exportLine (get_env_var_name g.name) (.pstr "1") ∈ generate_script_lines c ↔
      alistGet c g.name = some (PyVal.pbool true)) := by
  obtain ⟨b, hb⟩ := typed_get_bool c ht g.name hn
  rw [mem_generate_iff_segment c g hg _ huniq,
    mem_plain_bool_segment_iff c g hbool h1 h2 b hb, hb]
  cases b <;> simp

/-- C7 counterexample: a configuration carrying enable_wsi = False produces
    no export ENABLE_GAMESCOPE_WSI=0 line — enable_wsi is not a field of the
    shared schema, so the generator's enable_wsi special case is dead code. -/
theorem C7_counterexample :
    ¬ (("export ENABLE_GAMESCOPE_WSI=0" : String) ∈
        generate_script_lines (alistInsert get_defaults ("enable_wsi") (PyVal.pbool false))) := by
  decide

/-- C7 (amended): in the generated launch-script export lines of a typed
    configuration, disable_steamdeck_mode = true produces export SteamDeck=0
    (and it appears only then); every other boolean script-location field
    produces its export VAR=1 line exactly when it is true; and no
    ENABLE_GAMESCOPE_WSI line is ever produced, because enable_wsi is not a
    schema field. -/
theorem C7_script_bool_lines_amended (c : List (String × PyVal))
    (ht : typedConfig c = true) :
    (("export SteamDeck=0" : String) ∈ generate_script_lines c ↔
      alistGet c ("disable_steamdeck_mode") = some (PyVal.pbool true)) ∧
    (∀ l ∈ generate_script_lines c, l ≠ ("export ENABLE_GAMESCOPE_WSI=0" : String)) ∧
    (∀ f ∈ SCRIPT_ONLY_FIELDS, f.field_type = .boolean →
      f.name ≠ "disable_steamdeck_mode" →
      ((⟨"export ".data ++ (get_env_var_name f.name).data ++ "=1".data⟩ : String) ∈
          generate_script_lines c ↔
        alistGet c f.name = some (PyVal.pbool true))) := by
  refine ⟨?_, ?_, ?_⟩
  · obtain ⟨b, hb⟩ := typed_get_bool c ht ("disable_steamdeck_mode") (by decide)
    have hsd : ("export SteamDeck=0" : String) =
        exportLine (get_env_var_name ("disable_steamdeck_mode")) (.pstr "0") := rfl
    rw [hsd]
    have hgmem : (⟨"disable_steamdeck_mode", .boolean, .pbool false,
        "disable Steam Deck mode (unlocks hidden settings in some games)", .script⟩ : ConfigField) ∈
        scriptSchemaFields := by decide
    rw [mem_generate_iff_segment c _ hgmem _ (by decide),
      mem_steamdeck_segment_iff c _ rfl (by decide) b hb, hb]
    cases b <;> simp
  · intro l hl
    rw [generate_script_lines_eq_flatMap] at hl
    rcases List.mem_flatMap.mp hl with ⟨g, hg, hlg⟩
    obtain ⟨w, hw⟩ := script_gen_field_lines_shape c g l hlg
    rw [hw]
    have hwsi : ("export ENABLE_GAMESCOPE_WSI=0" : String) =
        exportLine ("ENABLE_GAMESCOPE_WSI") (.pstr "0") := rfl
    rw [hwsi]
    have hwne : ∀ g' ∈ scriptSchemaFields,
        get_env_var_name g'.name ≠ ("ENABLE_GAMESCOPE_WSI" : String) := by decide
    exact exportLine_inj_env _ _ _ _ (env_no_eq g hg) (by decide) (hwne g hg)
  · intro f hf hbool hnsd
    fin_cases hf
    · exact absurd hbool (by decide)
    · apply plain_bool_line_iff c ht <;> decide
    · exact absurd rfl hnsd
    · apply plain_bool_line_iff c ht <;> decide
    · apply plain_bool_line_iff c ht <;> decide
    · apply plain_bool_line_iff c ht <;> decide
    · apply plain_bool_line_iff c ht <;> decide
    · exact absurd hbool (by decide)

/-- C7 witness: a concrete typed configuration exercising the amended claim. -/
theorem C7_script_bool_lines_amended_witness :
    (("export SteamDeck=0" : String) ∈
        generate_script_lines (alistInsert get_defaults ("disable_steamdeck_mode") (PyVal.pbool true)) ↔
      alistGet (alistInsert get_defaults ("disable_steamdeck_mode") (PyVal.pbool true))
        ("disable_steamdeck_mode") = some (PyVal.pbool true)) ∧
    (∀ l ∈ generate_script_lines (alistInsert get_defaults ("disable_steamdeck_mode") (PyVal.pbool true)),
      l ≠ ("export ENABLE_GAMESCOPE_WSI=0" : String)) ∧
    (∀ f ∈ SCRIPT_ONLY_FIELDS, f.field_type = .boolean →
      f.name ≠ "disable_steamdeck_mode" →
      ((⟨"export ".data ++ (get_env_var_name f.name).data ++ "=1".data⟩ : String) ∈
          generate_script_lines (alistInsert get_defaults ("disable_steamdeck_mode") (PyVal.pbool true)) ↔
        alistGet (alistInsert get_defaults ("disable_steamdeck_mode") (PyVal.pbool true)) f.name =
          some (PyVal.pbool true))) :=
  C7_script_bool_lines_amended
    (alistInsert get_defaults ("disable_steamdeck_mode") (PyVal.pbool true)) (by decide)

/-! ## Claim C4: script-codec round trip -/

theorem isPrefixOf_self_append (a b : List Char) : a.isPrefixOf (a ++ b) = true := by
  induction a with
  | nil => cases b <;> rfl
  | cons x t ih => simp [List.isPrefixOf, ih]

theorem renderInt_char_facts (i : Int) :
    ∀ x ∈ (renderInt i).data, isPyWS x = false ∧ x ≠ '=' ∧ x ≠ '\n' := by
  intro x hx
  have hdig : x = '-' ∨ x.isDigit = true := by
    unfold renderInt at hx
    by_cases h : i < 0
    · rw [if_pos h] at hx
      rcases List.mem_cons.mp hx with rfl | hx
      · exact Or.inl rfl
      · exact Or.inr (List.all_eq_true.mp (renderNat_all_digits _) x hx)
    · rw [if_neg h] at hx
      exact Or.inr (List.all_eq_true.mp (renderNat_all_digits _) x hx)
  rcases hdig with rfl | hdig
  · refine ⟨by decide, by decide, by decide⟩
  · refine ⟨isPyWS_eq_false_of_isDigit x hdig, ?_, ?_⟩
    · intro hh; subst hh; simp [Char.isDigit] at hdig
    · intro hh; subst hh; simp [Char.isDigit] at hdig

theorem scriptParseStep_exportLine (sv : List (String × PyVal)) (env : String) (v : PyVal)
    (henv : ∀ x ∈ env.data, isPyWS x = false ∧ x ≠ '=')
    (hv : (pyStrFn v).data ≠ [])
    (hvh : ∀ x, (pyStrFn v).data.head? = some x → isPyWS x = false)
    (hvl : ∀ x, (pyStrFn v).data.getLast? = some x → isPyWS x = false) :
    scriptParseStep sv (exportLine env v) = scriptKvStep sv env (pyStrFn v) := by
  have hdata : (exportLine env v).data =
      "export ".data ++ (env.data ++ '=' :: (pyStrFn v).data) := by
    simp [exportLine]
  have htrim : trimChars (exportLine env v).data = (exportLine env v).data := by
    apply trimChars_eq_self
    · intro c hc
      rw [hdata] at hc
      injection hc with hc
      subst hc
      decide
    · intro c hc
      rw [hdata] at hc
      rw [List.getLast?_append_of_ne_nil _ (by simp)] at hc
      rw [show '=' :: (pyStrFn v).data = ['='] ++ (pyStrFn v).data from rfl] at hc
      rw [List.getLast?_append_of_ne_nil _ (by simp)] at hc
      rw [List.getLast?_append_of_ne_nil _ hv] at hc
      exact hvl c hc
  unfold scriptParseStep
  dsimp only
  rw [show pyStrip (exportLine env v) = exportLine env v from String.ext htrim]
  have hne : (exportLine env v).data.isEmpty = false := by
    rw [hdata]
    rfl
  have hhash : pyStartsWith (exportLine env v) ("#") = false := by
    unfold pyStartsWith
    rw [hdata]
    rfl
  have hexp : pyStartsWith (exportLine env v) ("export ") = true := by
    unfold pyStartsWith
    rw [hdata]
    exact isPrefixOf_self_append _ _
  rw [hne, hhash, hexp]
  rw [if_neg (by decide)]
  have hcont : (exportLine env v).data.contains '=' = true := by
    rw [hdata]
    exact List.elem_eq_true_of_mem
      (List.mem_append.mpr (Or.inr (List.mem_append.mpr (Or.inr (List.mem_cons_self _ _)))))
  rw [hcont]
  rw [if_pos (by decide)]
  have hdrop : (exportLine env v).data.drop 7 = env.data ++ '=' :: (pyStrFn v).data := by
    rw [hdata]
    have h7 : 7 = ("export ".data).length := rfl
    rw [h7, List.drop_left]
  rw [hdrop, splitFirstChar_append '=' _ _ (fun x hx => (henv x hx).2)]
  dsimp only
  rw [show pyStrip ⟨env.data⟩ = env from String.ext (trimChars_all_nonws _ (fun c hc => (henv c hc).1))]
  rw [show pyStrip ⟨(pyStrFn v).data⟩ = pyStrFn v from String.ext (trimChars_eq_self _ hvh hvl)]

theorem splitChar_ne_nil (c : Char) (l : List Char) : splitChar c l ≠ [] := by
  induction l with
  | nil => simp [splitChar]
  | cons x xs ih =>
    rw [splitChar]
    cases h : splitChar c xs with
    | nil => exact absurd h ih
    | cons y ys =>
      by_cases hx : x = c <;> simp [hx]

theorem splitChar_no_sep (c : Char) (l : List Char) (h : ∀ x ∈ l, x ≠ c) :
    splitChar c l = [l] := by
  induction l with
  | nil => rfl
  | cons x xs ih =>
    rw [splitChar, ih (fun y hy => h y (by simp [hy]))]
    dsimp only
    rw [if_neg (h x (by simp))]

theorem splitChar_concat_sep (c : Char) (p rest : List Char) (hp : ∀ x ∈ p, x ≠ c) :
    splitChar c (p ++ c :: rest) = p :: splitChar c rest := by
  induction p with
  | nil =>
    rw [List.nil_append, splitChar]
    cases h : splitChar c rest with
    | nil => exact absurd h (splitChar_ne_nil c rest)
    | cons y ys => simp
  | cons x xs ih =>
    rw [List.cons_append, splitChar, ih (fun y hy => hp y (by simp [hy]))]
    dsimp only
    rw [if_neg (hp x (by simp))]

theorem splitChar_joinChar (c : Char) (parts : List (List Char)) (hne : parts ≠ [])
    (h : ∀ p ∈ parts, ∀ x ∈ p, x ≠ c) :
    splitChar c (joinChar c parts) = parts := by
  induction parts with
  | nil => exact absurd rfl hne
  | cons p t ih =>
    cases t with
    | nil => exact splitChar_no_sep c p (h p (by simp))
    | cons q ts =>
      show splitChar c (p ++ c :: joinChar c (q :: ts)) = p :: q :: ts
      rw [splitChar_concat_sep c p _ (h p (by simp))]
      have hih := ih (fun hcontra => List.noConfusion hcontra)
        (fun r hr x hx => h r (List.mem_cons_of_mem p hr) x hx)
      rw [hih]

theorem joinChar_append_nil (c : Char) (xs : List (List Char)) (h : xs ≠ []) :
    joinChar c (xs ++ [[]]) = joinChar c xs ++ [c] := by
  induction xs with
  | nil => exact absurd rfl h
  | cons x t ih =>
    cases t with
    | nil => rfl
    | cons y ys =>
      show x ++ c :: joinChar c ((y :: ys) ++ [[]]) = joinChar c (x :: y :: ys) ++ [c]
      rw [ih (List.cons_ne_nil _ _)]
      show x ++ c :: (joinChar c (y :: ys) ++ [c]) = (x ++ c :: joinChar c (y :: ys)) ++ [c]
      simp

theorem pyLines_join_newline (ls : List String) (hne : ls ≠ [])
    (h : ∀ s ∈ ls, ∀ x ∈ s.data, x ≠ '\n') :
    pyLines ⟨(pyJoinLines ls).data ++ ['\n']⟩ = ls ++ [""] := by
  unfold pyLines pyJoinLines
  have hd : (String.mk ((String.mk (joinChar '\n' (ls.map String.data))).data ++ ['\n'])).data =
      joinChar '\n' (ls.map String.data) ++ ['\n'] := rfl
  rw [hd]
  have hmapne : ls.map String.data ≠ [] := by simpa using hne
  rw [← joinChar_append_nil '\n' (ls.map String.data) hmapne]
  rw [splitChar_joinChar '\n' _ (by simp)
    (by
      intro p hp x hx
      rcases List.mem_append.mp hp with hp | hp
      · rcases List.mem_map.mp hp with ⟨s, hs, rfl⟩
        exact h s hs x hx
      · rw [List.mem_singleton.mp hp] at hx
        cases hx)]
  rw [List.map_append, List.map_map]
  have hid : (String.mk ∘ String.data) = id := by
    funext s
    rfl
  rw [hid, List.map_id]
  rfl

theorem foldl_if_singleton (sv : List (String × PyVal)) (c : Bool) (l : String) :
    List.foldl scriptParseStep sv (if c = true then [l] else []) =
      if c = true then scriptParseStep sv l else sv := by
  cases c <;> simp

theorem alistContains_append {α : Type} (a b : List (String × α)) (k : String) :
    alistContains (a ++ b) k = (alistContains a k || alistContains b k) := by
  simp [alistContains, List.any_append]

theorem fold_cond_insert_chain (specs : List (Bool × String × PyVal))
    (E : List (String × PyVal))
    (hnodup : (specs.map (fun p => p.2.1)).Nodup)
    (hfresh : ∀ p ∈ specs, alistContains E p.2.1 = false) :
    specs.foldl (fun sv p => if p.1 = true then alistInsert sv p.2.1 p.2.2 else sv) E =
      E ++ specs.foldr
        (fun p acc => (if p.1 = true then [(p.2.1, p.2.2)] else []) ++ acc) [] := by
  induction specs generalizing E with
  | nil => simp
  | cons p t ih =>
    rw [List.foldl_cons, List.foldr_cons]
    have hnodup' : (t.map (fun p => p.2.1)).Nodup := by
      rw [List.map_cons] at hnodup
      exact (List.nodup_cons.mp hnodup).2
    by_cases hp : p.1 = true
    · rw [if_pos hp, if_pos hp]
      have hfE : alistContains E p.2.1 = false := hfresh p (by simp)
      have hins : alistInsert E p.2.1 p.2.2 = E ++ [(p.2.1, p.2.2)] := by
        unfold alistInsert
        rw [hfE]
        simp
      have hfresh' : ∀ q ∈ t, alistContains (E ++ [(p.2.1, p.2.2)]) q.2.1 = false := by
        intro q hq
        rw [alistContains_append, hfresh q (by simp [hq])]
        have hqk : ¬ (p.2.1 = q.2.1) := by
          rw [List.map_cons] at hnodup
          intro hh
          exact (List.nodup_cons.mp hnodup).1 (hh ▸ List.mem_map_of_mem _ hq)
        simp [alistContains, hqk]
      rw [hins, ih (E ++ [(p.2.1, p.2.2)]) hnodup' hfresh']
      rw [List.append_assoc]
    · rw [if_neg hp, if_neg hp]
      rw [ih E hnodup' (fun q hq => hfresh q (by simp [hq]))]
      simp

theorem renderInt_ne_nil (i : Int) : (renderInt i).data ≠ [] := by
  unfold renderInt
  by_cases h : i < 0
  · rw [if_pos h]
    simp
  · rw [if_neg h]
    exact renderNat_ne_nil _

theorem mem_ite_singleton {α : Type} (c : Bool) (x l : α)
    (h : l ∈ (if c = true then [x] else [])) : l = x := by
  cases c
  · cases h
  · simpa using h

/-! ## C4: script generate/parse round trip -/

theorem script_header_noop (sv : List (String × PyVal)) :
    script_header.foldl scriptParseStep sv = sv := rfl

theorem script_trailer_noop (sv : List (String × PyVal)) :
    script_trailer.foldl scriptParseStep sv = sv := rfl

theorem foldl_empty_line (sv : List (String × PyVal)) :
    List.foldl scriptParseStep sv [""] = sv := rfl

theorem seg_dxvk (c : List (String × PyVal)) (dx : Int)
    (hdx : alistGet c ("dxvk_frame_rate") = some (PyVal.pint dx)) :
    script_gen_field_lines c ⟨"dxvk_frame_rate", .integer, .pint 0,
      "base framerate cap for DirectX games before frame multiplier", .script⟩ =
      (if decide (0 < dx) = true then [exportLine ("DXVK_FRAME_RATE") (PyVal.pint dx)] else []) := by
  unfold script_gen_field_lines
  dsimp only
  rw [if_pos (show (("dxvk_frame_rate" : String) == "dxvk_frame_rate") = true from by decide)]
  rw [hdx]
  rfl

theorem seg_wow (c : List (String × PyVal)) (w : Bool)
    (hw : alistGet c ("enable_wow64") = some (PyVal.pbool w)) :
    script_gen_field_lines c ⟨"enable_wow64", .boolean, .pbool false,
      "enable PROTON_USE_WOW64=1 for 32-bit games (use with ProtonGE to fix crashing)", .script⟩ =
      (if w = true then [exportLine ("PROTON_USE_WOW64") (PyVal.pstr "1")] else []) := by
  unfold script_gen_field_lines
  dsimp only
  rw [if_neg (show ¬ ((("enable_wow64" : String) == "disable_steamdeck_mode") = true) from by decide)]
  rw [if_neg (show ¬ ((("enable_wow64" : String) == "enable_wsi") = true) from by decide)]
  rw [hw]
  rfl

theorem seg_sd (c : List (String × PyVal)) (s : Bool)
    (hs : alistGet c ("disable_steamdeck_mode") = some (PyVal.pbool s)) :
    script_gen_field_lines c ⟨"disable_steamdeck_mode", .boolean, .pbool false,
      "disable Steam Deck mode (unlocks hidden settings in some games)", .script⟩ =
      (if s = true then [exportLine ("SteamDeck") (PyVal.pstr "0")] else []) := by
  unfold script_gen_field_lines
  dsimp only
  rw [if_pos (show (("disable_steamdeck_mode" : String) == "disable_steamdeck_mode") = true from by decide)]
  rw [hs]
  rfl

theorem seg_mh (c : List (String × PyVal)) (m : Bool)
    (hm : alistGet c ("mangohud_workaround") = some (PyVal.pbool m)) :
    script_gen_field_lines c ⟨"mangohud_workaround", .boolean, .pbool false,
      "Enables a transparent mangohud overlay, sometimes fixes issues with 2X multiplier in game mode", .script⟩ =
      (if m = true then [exportLine ("MANGOHUD") (PyVal.pstr "1")] else []) := by
  unfold script_gen_field_lines
  dsimp only
  rw [if_neg (show ¬ ((("mangohud_workaround" : String) == "disable_steamdeck_mode") = true) from by decide)]
  rw [if_neg (show ¬ ((("mangohud_workaround" : String) == "enable_wsi") = true) from by decide)]
  rw [hm]
  rfl

theorem seg_dv (c : List (String × PyVal)) (d : Bool)
    (hd : alistGet c ("disable_vkbasalt") = some (PyVal.pbool d)) :
    script_gen_field_lines c ⟨"disable_vkbasalt", .boolean, .pbool false,
      "Disables vkBasalt layer which can conflict with LSFG (Reshade, some Decky plugins)", .script⟩ =
      (if d = true then [exportLine ("DISABLE_VKBASALT") (PyVal.pstr "1")] else []) := by
  unfold script_gen_field_lines
  dsimp only
  rw [if_neg (show ¬ ((("disable_vkbasalt" : String) == "disable_steamdeck_mode") = true) from by decide)]
  rw [if_neg (show ¬ ((("disable_vkbasalt" : String) == "enable_wsi") = true) from by decide)]
  rw [hd]
  rfl

theorem seg_fv (c : List (String × PyVal)) (fv : Bool)
    (hf : alistGet c ("force_enable_vkbasalt") = some (PyVal.pbool fv)) :
    script_gen_field_lines c ⟨"force_enable_vkbasalt", .boolean, .pbool false,
      "Force vkBasalt to engage to fix framepacing issues in gamemode", .script⟩ =
      (if fv = true then [exportLine ("ENABLE_VKBASALT") (PyVal.pstr "1")] else []) := by
  unfold script_gen_field_lines
  dsimp only
  rw [if_neg (show ¬ ((("force_enable_vkbasalt" : String) == "disable_steamdeck_mode") = true) from by decide)]
  rw [if_neg (show ¬ ((("force_enable_vkbasalt" : String) == "enable_wsi") = true) from by decide)]
  rw [hf]
  rfl

theorem seg_gf (c : List (String × PyVal)) (g : Bool)
    (hg : alistGet c ("gamescope_frame_pacing") = some (PyVal.pbool g)) :
    script_gen_field_lines c ⟨"gamescope_frame_pacing", .boolean, .pbool false,
      "Enable gamescope frame pacing workaround for timing issues", .script⟩ =
      (if g = true then [exportLine ("GAMESCOPE_FRAME_PACING") (PyVal.pstr "1")] else []) := by
  unfold script_gen_field_lines
  dsimp only
  rw [if_neg (show ¬ ((("gamescope_frame_pacing" : String) == "disable_steamdeck_mode") = true) from by decide)]
  rw [if_neg (show ¬ ((("gamescope_frame_pacing" : String) == "enable_wsi") = true) from by decide)]
  rw [hg]
  rfl

theorem seg_fp (c : List (String × PyVal)) (fp : Int)
    (hp : alistGet c ("frame_pacing_target_ms") = some (PyVal.pint fp)) :
    script_gen_field_lines c ⟨"frame_pacing_target_ms", .integer, .pint 25,
      "Target frame time in milliseconds for frame pacing (25ms = 40fps)", .script⟩ =
      (if (fp != 25) = true then [exportLine ("FRAME_PACING_TARGET_MS") (PyVal.pint fp)] else []) := by
  unfold script_gen_field_lines
  dsimp only
  rw [if_neg (show ¬ ((("frame_pacing_target_ms" : String) == "dxvk_frame_rate") = true) from by decide)]
  rw [hp]
  rfl

theorem generate_script_lines_typed (c : List (String × PyVal)) (dx fp : Int)
    (w s m d fv g : Bool)
    (hdx : alistGet c ("dxvk_frame_rate") = some (PyVal.pint dx))
    (hw : alistGet c ("enable_wow64") = some (PyVal.pbool w))
    (hs : alistGet c ("disable_steamdeck_mode") = some (PyVal.pbool s))
    (hm : alistGet c ("mangohud_workaround") = some (PyVal.pbool m))
    (hd : alistGet c ("disable_vkbasalt") = some (PyVal.pbool d))
    (hf : alistGet c ("force_enable_vkbasalt") = some (PyVal.pbool fv))
    (hg : alistGet c ("gamescope_frame_pacing") = some (PyVal.pbool g))
    (hp : alistGet c ("frame_pacing_target_ms") = some (PyVal.pint fp)) :
    generate_script_lines c = c4Segs dx fp w s m d fv g := by
  unfold generate_script_lines c4Segs
  rw [show CONFIG_SCHEMA_DEF.filter (fun f => f.location == FieldLocation.script) =
    [⟨"dxvk_frame_rate", .integer, .pint 0, "base framerate cap for DirectX games before frame multiplier", .script⟩,
     ⟨"enable_wow64", .boolean, .pbool false, "enable PROTON_USE_WOW64=1 for 32-bit games (use with ProtonGE to fix crashing)", .script⟩,
     ⟨"disable_steamdeck_mode", .boolean, .pbool false, "disable Steam Deck mode (unlocks hidden settings in some games)", .script⟩,
     ⟨"mangohud_workaround", .boolean, .pbool false, "Enables a transparent mangohud overlay, sometimes fixes issues with 2X multiplier in game mode", .script⟩,
     ⟨"disable_vkbasalt", .boolean, .pbool false, "Disables vkBasalt layer which can conflict with LSFG (Reshade, some Decky plugins)", .script⟩,
     ⟨"force_enable_vkbasalt", .boolean, .pbool false, "Force vkBasalt to engage to fix framepacing issues in gamemode", .script⟩,
     ⟨"gamescope_frame_pacing", .boolean, .pbool false, "Enable gamescope frame pacing workaround for timing issues", .script⟩,
     ⟨"frame_pacing_target_ms", .integer, .pint 25, "Target frame time in milliseconds for frame pacing (25ms = 40fps)", .script⟩] from rfl]
  simp only [List.flatMap_cons, List.flatMap_nil, List.append_nil]
  rw [seg_dxvk c dx hdx, seg_wow c w hw, seg_sd c s hs, seg_mh c m hm,
    seg_dv c d hd, seg_fv c fv hf, seg_gf c g hg, seg_fp c fp hp]

theorem step_dxvk (sv : List (String × PyVal)) (dx : Int) :
    scriptParseStep sv (exportLine ("DXVK_FRAME_RATE") (PyVal.pint dx)) =
      alistInsert sv ("dxvk_frame_rate") (PyVal.pint dx) := by
  rw [scriptParseStep_exportLine sv ("DXVK_FRAME_RATE") (PyVal.pint dx) (by decide)
      (renderInt_ne_nil dx)
      (fun x hx => (renderInt_char_facts dx x (List.mem_of_mem_head?
        (show x ∈ (renderInt dx).data.head? from hx))).1)
      (fun x hx => (renderInt_char_facts dx x (List.mem_of_getLast?_eq_some
        (show (renderInt dx).data.getLast? = some x from hx))).1)]
  rw [show pyStrFn (PyVal.pint dx) = renderInt dx from rfl]
  unfold scriptKvStep
  dsimp only
  rw [if_pos (show (("DXVK_FRAME_RATE" : String) == "DXVK_FRAME_RATE") = true from by decide)]
  rw [pyIntOfString_renderInt]
  rfl

theorem step_fp (sv : List (String × PyVal)) (fp : Int) :
    scriptParseStep sv (exportLine ("FRAME_PACING_TARGET_MS") (PyVal.pint fp)) =
      alistInsert sv ("frame_pacing_target_ms") (PyVal.pint fp) := by
  rw [scriptParseStep_exportLine sv ("FRAME_PACING_TARGET_MS") (PyVal.pint fp) (by decide)
      (renderInt_ne_nil fp)
      (fun x hx => (renderInt_char_facts fp x (List.mem_of_mem_head?
        (show x ∈ (renderInt fp).data.head? from hx))).1)
      (fun x hx => (renderInt_char_facts fp x (List.mem_of_getLast?_eq_some
        (show (renderInt fp).data.getLast? = some x from hx))).1)]
  rw [show pyStrFn (PyVal.pint fp) = renderInt fp from rfl]
  unfold scriptKvStep
  dsimp only
  rw [if_pos (show (("FRAME_PACING_TARGET_MS" : String) == "FRAME_PACING_TARGET_MS") = true from by decide)]
  rw [pyIntOfString_renderInt]
  rfl

theorem step_wow (sv : List (String × PyVal)) :
    scriptParseStep sv (exportLine ("PROTON_USE_WOW64") (PyVal.pstr "1")) =
      alistInsert sv ("enable_wow64") (PyVal.pbool true) := rfl

theorem step_sd (sv : List (String × PyVal)) :
    scriptParseStep sv (exportLine ("SteamDeck") (PyVal.pstr "0")) =
      alistInsert sv ("disable_steamdeck_mode") (PyVal.pbool true) := rfl

theorem step_mh (sv : List (String × PyVal)) :
    scriptParseStep sv (exportLine ("MANGOHUD") (PyVal.pstr "1")) =
      alistInsert sv ("mangohud_workaround") (PyVal.pbool true) := rfl

theorem step_dv (sv : List (String × PyVal)) :
    scriptParseStep sv (exportLine ("DISABLE_VKBASALT") (PyVal.pstr "1")) =
      alistInsert sv ("disable_vkbasalt") (PyVal.pbool true) := rfl

theorem step_fv (sv : List (String × PyVal)) :
    scriptParseStep sv (exportLine ("ENABLE_VKBASALT") (PyVal.pstr "1")) =
      alistInsert sv ("force_enable_vkbasalt") (PyVal.pbool true) := rfl

theorem step_gf (sv : List (String × PyVal)) :
    scriptParseStep sv (exportLine ("GAMESCOPE_FRAME_PACING") (PyVal.pstr "1")) =
      alistInsert sv ("gamescope_frame_pacing") (PyVal.pbool true) := rfl

theorem c4_fold_segs (dx fp : Int) (w s m d fv g : Bool) :
    (c4Segs dx fp w s m d fv g).foldl scriptParseStep [] =
      (if 0 < dx then [(("dxvk_frame_rate" : String), PyVal.pint dx)] else []) ++
      ((if w = true then [(("enable_wow64" : String), PyVal.pbool true)] else []) ++
      ((if s = true then [(("disable_steamdeck_mode" : String), PyVal.pbool true)] else []) ++
      ((if m = true then [(("mangohud_workaround" : String), PyVal.pbool true)] else []) ++
      ((if d = true then [(("disable_vkbasalt" : String), PyVal.pbool true)] else []) ++
      ((if fv = true then [(("force_enable_vkbasalt" : String), PyVal.pbool true)] else []) ++
      ((if g = true then [(("gamescope_frame_pacing" : String), PyVal.pbool true)] else []) ++
      (if fp ≠ 25 then [(("frame_pacing_target_ms" : String), PyVal.pint fp)] else []))))))) := by
  unfold c4Segs
  simp only [List.foldl_append]
  simp only [foldl_if_singleton]
  simp only [step_dxvk, step_wow, step_sd, step_mh, step_dv, step_fv, step_gf, step_fp]
  exact (fold_cond_insert_chain
    [(decide (0 < dx), ("dxvk_frame_rate" : String), PyVal.pint dx),
     (w, ("enable_wow64" : String), PyVal.pbool true),
     (s, ("disable_steamdeck_mode" : String), PyVal.pbool true),
     (m, ("mangohud_workaround" : String), PyVal.pbool true),
     (d, ("disable_vkbasalt" : String), PyVal.pbool true),
     (fv, ("force_enable_vkbasalt" : String), PyVal.pbool true),
     (g, ("gamescope_frame_pacing" : String), PyVal.pbool true),
     ((fp != 25), ("frame_pacing_target_ms" : String), PyVal.pint fp)]
    [] (by simp only [List.map_cons, List.map_nil]; decide) (fun p hp => rfl)).trans (by
      simp only [List.foldr_cons, List.foldr_nil, List.nil_append, List.append_nil,
        decide_eq_true_eq, bne_iff_ne])

theorem exportLine_int_no_newline (env : String) (henv : ∀ x ∈ env.data, x ≠ '\n')
    (i : Int) : ∀ x ∈ (exportLine env (PyVal.pint i)).data, x ≠ '\n' := by
  intro x hx
  have hd : (exportLine env (PyVal.pint i)).data =
      "export ".data ++ (env.data ++ '=' :: (renderInt i).data) := by simp [exportLine, pyStrFn]
  rw [hd] at hx
  rcases List.mem_append.mp hx with hx | hx
  · have hall : ∀ y ∈ "export ".data, y ≠ '\n' := by decide
    exact hall x hx
  · rcases List.mem_append.mp hx with hx | hx
    · exact henv x hx
    · rcases List.mem_cons.mp hx with rfl | hx
      · decide
      · exact (renderInt_char_facts i x hx).2.2

theorem c4_segs_no_newline (dx fp : Int) (w s m d fv g : Bool) :
    ∀ t ∈ c4Segs dx fp w s m d fv g, ∀ x ∈ t.data, x ≠ '\n' := by
  intro t ht
  unfold c4Segs at ht
  rcases List.mem_append.mp ht with ht | ht
  · have he := mem_ite_singleton _ _ _ ht
    subst he
    exact exportLine_int_no_newline ("DXVK_FRAME_RATE") (by decide) dx
  rcases List.mem_append.mp ht with ht | ht
  · have he := mem_ite_singleton _ _ _ ht
    subst he
    decide
  rcases List.mem_append.mp ht with ht | ht
  · have he := mem_ite_singleton _ _ _ ht
    subst he
    decide
  rcases List.mem_append.mp ht with ht | ht
  · have he := mem_ite_singleton _ _ _ ht
    subst he
    decide
  rcases List.mem_append.mp ht with ht | ht
  · have he := mem_ite_singleton _ _ _ ht
    subst he
    decide
  rcases List.mem_append.mp ht with ht | ht
  · have he := mem_ite_singleton _ _ _ ht
    subst he
    decide
  rcases List.mem_append.mp ht with ht | ht
  · have he := mem_ite_singleton _ _ _ ht
    subst he
    decide
  · have he := mem_ite_singleton _ _ _ ht
    subst he
    exact exportLine_int_no_newline ("FRAME_PACING_TARGET_MS") (by decide) fp

/-- C4 (amended): for a configuration whose eight script-location fields are
    present with their schema types, parsing the generated launch script
    returns, in schema order, exactly the fields the generator exported:
    dxvk_frame_rate iff it is positive (not merely nonzero, contrary to the
    claim), each plain boolean field mapped to true iff it was true,
    disable_steamdeck_mode mapped to true iff it was true, and
    frame_pacing_target_ms iff it differs from its default 25, with the two
    integer fields mapping back to their exact values. -/
theorem C4_script_roundtrip_amended (c : List (String × PyVal)) (dx fp : Int)
    (w s m d fv g : Bool)
    (hdx : alistGet c ("dxvk_frame_rate") = some (PyVal.pint dx))
    (hw : alistGet c ("enable_wow64") = some (PyVal.pbool w))
    (hs : alistGet c ("disable_steamdeck_mode") = some (PyVal.pbool s))
    (hm : alistGet c ("mangohud_workaround") = some (PyVal.pbool m))
    (hd : alistGet c ("disable_vkbasalt") = some (PyVal.pbool d))
    (hf : alistGet c ("force_enable_vkbasalt") = some (PyVal.pbool fv))
    (hg : alistGet c ("gamescope_frame_pacing") = some (PyVal.pbool g))
    (hp : alistGet c ("frame_pacing_target_ms") = some (PyVal.pint fp)) :
    parse_script_content (generate_script_content c) =
      (if 0 < dx then [(("dxvk_frame_rate" : String), PyVal.pint dx)] else []) ++
      ((if w = true then [(("enable_wow64" : String), PyVal.pbool true)] else []) ++
      ((if s = true then [(("disable_steamdeck_mode" : String), PyVal.pbool true)] else []) ++
      ((if m = true then [(("mangohud_workaround" : String), PyVal.pbool true)] else []) ++
      ((if d = true then [(("disable_vkbasalt" : String), PyVal.pbool true)] else []) ++
      ((if fv = true then [(("force_enable_vkbasalt" : String), PyVal.pbool true)] else []) ++
      ((if g = true then [(("gamescope_frame_pacing" : String), PyVal.pbool true)] else []) ++
      (if fp ≠ 25 then [(("frame_pacing_target_ms" : String), PyVal.pint fp)] else []))))))) := by
  have hgen := generate_script_lines_typed c dx fp w s m d fv g hdx hw hs hm hd hf hg hp
  have hcontent : generate_script_content c =
      ⟨(pyJoinLines (script_header ++ generate_script_lines c ++ script_trailer)).data ++ ['\n']⟩ := rfl
  rw [hgen] at hcontent
  rw [hcontent]
  unfold parse_script_content parse_script_values
  rw [pyLines_join_newline (script_header ++ c4Segs dx fp w s m d fv g ++ script_trailer)
    (by simp [script_header])
    (by
      intro t ht
      rcases List.mem_append.mp ht with ht | ht
      · rcases List.mem_append.mp ht with ht | ht
        · have hall : ∀ u ∈ script_header, ∀ x ∈ u.data, x ≠ '\n' := by decide
          exact hall t ht
        · exact c4_segs_no_newline dx fp w s m d fv g t ht
      · have hall : ∀ u ∈ script_trailer, ∀ x ∈ u.data, x ≠ '\n' := by decide
        exact hall t ht)]
  rw [List.foldl_append, List.foldl_append, List.foldl_append]
  rw [script_header_noop, script_trailer_noop, foldl_empty_line]
  exact c4_fold_segs dx fp w s m d fv g

/-- Witness for C4: a concrete typed configuration with a positive
    dxvk_frame_rate, two true booleans and a non-default frame-pacing
    target round-trips through the generated script to exactly those
    four fields. -/
theorem C4_script_roundtrip_amended_witness :
    parse_script_content (generate_script_content
      [(("dxvk_frame_rate" : String), PyVal.pint 5), ("enable_wow64", PyVal.pbool true),
       ("disable_steamdeck_mode", PyVal.pbool false), ("mangohud_workaround", PyVal.pbool false),
       ("disable_vkbasalt", PyVal.pbool true), ("force_enable_vkbasalt", PyVal.pbool false),
       ("gamescope_frame_pacing", PyVal.pbool false), ("frame_pacing_target_ms", PyVal.pint 30)]) =
      [(("dxvk_frame_rate" : String), PyVal.pint 5), ("enable_wow64", PyVal.pbool true),
       ("disable_vkbasalt", PyVal.pbool true), ("frame_pacing_target_ms", PyVal.pint 30)] := by
  rw [C4_script_roundtrip_amended
      [(("dxvk_frame_rate" : String), PyVal.pint 5), ("enable_wow64", PyVal.pbool true),
       ("disable_steamdeck_mode", PyVal.pbool false), ("mangohud_workaround", PyVal.pbool false),
       ("disable_vkbasalt", PyVal.pbool true), ("force_enable_vkbasalt", PyVal.pbool false),
       ("gamescope_frame_pacing", PyVal.pbool false), ("frame_pacing_target_ms", PyVal.pint 30)]
      5 30 true false false true false false rfl rfl rfl rfl rfl rfl rfl rfl]
  decide

set_option maxRecDepth 40000 in
/-- Counterexample to C4 as stated: a fully populated configuration whose
    dxvk_frame_rate is -1 (which differs from the schema default 0) parses
    back from its generated script with no dxvk_frame_rate key at all,
    because the generator only exports DXVK_FRAME_RATE when the value is
    strictly positive. -/
theorem C4_counterexample :
    alistGet (alistInsert get_defaults ("dxvk_frame_rate") (PyVal.pint (-1)))
        ("dxvk_frame_rate") = some (PyVal.pint (-1)) ∧
    ((-1 : Int) = 0) = False ∧
    alistGet (parse_script_content (generate_script_content
        (alistInsert get_defaults ("dxvk_frame_rate") (PyVal.pint (-1)))))
        ("dxvk_frame_rate") = none := by
  refine ⟨by decide, by simp, by decide⟩

/-! ## C5: update_profile_config -/

theorem option_isSome_map {α β : Type} (f : α → β) (o : Option α) :
    (o.map f).isSome = o.isSome := by cases o <;> rfl

theorem mapM_option_isSome {α β : Type} (f : α → Option β) (l : List α)
    (h : ∀ a ∈ l, (f a).isSome = true) : (l.mapM f).isSome = true := by
  induction l with
  | nil => rfl
  | cons x t ih =>
    rw [List.mapM_cons]
    rcases Option.isSome_iff_exists.mp (h x (by simp)) with ⟨b, hb⟩
    rcases Option.isSome_iff_exists.mp (ih (fun a ha => h a (by simp [ha]))) with ⟨bs, hbs⟩
    rw [hb, hbs]
    rfl

theorem game_section_lines_isSome (n : String) (c : List (String × PyVal))
    (h : populatedConfig c = true) : (game_section_lines n c).isSome = true := by
  unfold game_section_lines
  rw [option_isSome_map]
  apply mapM_option_isSome
  intro f hf
  rw [option_isSome_map]
  exact List.all_eq_true.mp h f (List.mem_of_mem_filter hf)

theorem generate_toml_isSome (pd : ProfileData)
    (hpop : ∀ p ∈ pd.profiles, populatedConfig p.2 = true) :
    ∃ t, generate_toml_content_multi_profile pd = some t := by
  unfold generate_toml_content_multi_profile
  have hm : (pd.profiles.mapM (fun p => game_section_lines p.1 p.2)).isSome = true :=
    mapM_option_isSome _ _ (fun p hp => game_section_lines_isSome p.1 p.2 (hpop p hp))
  rcases Option.isSome_iff_exists.mp hm with ⟨blocks, hb⟩
  rw [hb]
  exact ⟨_, rfl⟩

theorem alistInsert_mem {α : Type} (l : List (String × α)) (k : String) (v : α)
    (p : String × α) (hp : p ∈ alistInsert l k v) : p ∈ l ∨ p = (k, v) := by
  unfold alistInsert at hp
  split at hp
  · rcases List.mem_map.mp hp with ⟨q, hq, hqe⟩
    by_cases hqk : (q.1 == k) = true
    · rw [if_pos hqk] at hqe
      exact Or.inr hqe.symm
    · rw [if_neg hqk] at hqe
      exact Or.inl (hqe ▸ hq)
  · rcases List.mem_append.mp hp with h | h
    · exact Or.inl h
    · exact Or.inr (List.mem_singleton.mp h)

/-- C5 (amended): when every stored profile and the submitted configuration
    are fully populated, update_profile_config returns an error and leaves
    the state untouched exactly when the named profile is absent; when it is
    present, it saves the profile set with profiles[name] = cfg and the dll /
    no_fp16 values of cfg copied into the global section, and rewrites the
    launch script if and only if name is the current profile. -/
theorem C5_update_amended (detected : Option String) (st : SvcState)
    (name : String) (cfg : List (String × PyVal))
    (hpop : ∀ p ∈ (get_profile_data detected st).profiles, populatedConfig p.2 = true)
    (hcfg : populatedConfig cfg = true) :
    (alistContains (get_profile_data detected st).profiles name = false →
      update_profile_config detected st name cfg = (false, st)) ∧
    (alistContains (get_profile_data detected st).profiles name = true →
      ∃ t : String,
        generate_toml_content_multi_profile
            (updatedProfileData (get_profile_data detected st) name cfg) = some t ∧
        update_profile_config detected st name cfg =
          (true,
           ⟨some t,
            if name == (get_profile_data detected st).current_profile then
              some (generate_script_content_for_profile
                (updatedProfileData (get_profile_data detected st) name cfg))
            else st.script_file⟩)) := by
  constructor
  · intro hno
    unfold update_profile_config
    dsimp only
    rw [hno]
    rfl
  · intro hmem
    have hpop' : ∀ p ∈ (updatedProfileData (get_profile_data detected st) name cfg).profiles,
        populatedConfig p.2 = true := by
      intro p hp
      unfold updatedProfileData at hp
      dsimp only at hp
      rcases alistInsert_mem _ _ _ p hp with h | h
      · exact hpop p h
      · rw [h]
        exact hcfg
    rcases generate_toml_isSome _ hpop' with ⟨t, hgen⟩
    refine ⟨t, hgen, ?_⟩
    unfold update_profile_config
    dsimp only
    rw [hmem]
    rw [if_neg (by decide)]
    rw [hgen]
    dsimp only
    have hcur : (updatedProfileData (get_profile_data detected st) name cfg).current_profile =
        (get_profile_data detected st).current_profile := rfl
    rw [hcur]
    by_cases hn : (name == (get_profile_data detected st).current_profile) = true
    · rw [if_pos hn, if_pos hn]
    · rw [if_neg hn, if_neg hn]

set_option maxRecDepth 40000 in
/-- Witness for C5: on a fresh state the default profile exists, and updating
    it with the (fully populated) schema defaults succeeds. -/
theorem C5_update_amended_witness :
    populatedConfig get_defaults = true ∧
    ((alistContains (get_profile_data none ⟨none, none⟩).profiles ("decky-lsfg-vk") = false →
       update_profile_config none ⟨none, none⟩ ("decky-lsfg-vk") get_defaults =
         (false, ⟨none, none⟩)) ∧
     (alistContains (get_profile_data none ⟨none, none⟩).profiles ("decky-lsfg-vk") = true →
       ∃ t : String,
         generate_toml_content_multi_profile
             (updatedProfileData (get_profile_data none ⟨none, none⟩)
               ("decky-lsfg-vk") get_defaults) = some t ∧
         update_profile_config none ⟨none, none⟩ ("decky-lsfg-vk") get_defaults =
           (true,
            ⟨some t,
             if ("decky-lsfg-vk" : String) == (get_profile_data none ⟨none, none⟩).current_profile then
               some (generate_script_content_for_profile
                 (updatedProfileData (get_profile_data none ⟨none, none⟩)
                   ("decky-lsfg-vk") get_defaults))
             else SvcState.script_file ⟨none, none⟩⟩))) :=
  ⟨by decide,
   C5_update_amended none ⟨none, none⟩ ("decky-lsfg-vk") get_defaults (by decide) (by decide)⟩

set_option maxRecDepth 40000 in
/-- Counterexample to C5 as stated: on a fresh state the default profile
    decky-lsfg-vk is present, yet updating it with an empty configuration
    returns an error and writes nothing, because saving indexes every schema
    field of the new profile and raises KeyError; the claim promises an
    unconditional save whenever the name is present. -/
theorem C5_counterexample :
    alistContains (get_profile_data none ⟨none, none⟩).profiles ("decky-lsfg-vk") = true ∧
    update_profile_config none ⟨none, none⟩ ("decky-lsfg-vk") [] = (false, ⟨none, none⟩) :=
  ⟨by decide, by decide⟩

/-! ## C1/C8: TOML generate/parse round trip -/

theorem trimChars_pad_left (l : List Char)
    (hh : ∀ c, l.head? = some c → isPyWS c = false)
    (hl : ∀ c, l.getLast? = some c → isPyWS c = false) :
    trimChars (' ' :: l) = l := by
  unfold trimChars
  rw [List.dropWhile_cons, if_pos (by decide)]
  rw [dropWhile_eq_self_of_head l hh]
  rw [dropWhile_eq_self_of_head l.reverse
    (fun c hc => hl c (by rwa [List.head?_reverse] at hc))]
  exact List.reverse_reverse l

theorem trimChars_pad_right (l : List Char)
    (hh : ∀ c, l.head? = some c → isPyWS c = false)
    (hl : ∀ c, l.getLast? = some c → isPyWS c = false) :
    trimChars (l ++ [' ']) = l := by
  cases l with
  | nil => rfl
  | cons x xs =>
    unfold trimChars
    rw [dropWhile_eq_self_of_head ((x :: xs) ++ [' '])
      (fun c hc => by
        rw [List.head?_append_of_ne_nil _ (by simp)] at hc
        exact hh c hc)]
    rw [List.reverse_append]
    rw [show ([' '] : List Char).reverse = [' '] from rfl]
    rw [show ([' '] : List Char) ++ (x :: xs).reverse = ' ' :: (x :: xs).reverse from rfl]
    rw [List.dropWhile_cons, if_pos (by decide)]
    rw [dropWhile_eq_self_of_head (x :: xs).reverse
      (fun c hc => hl c (by rwa [List.head?_reverse] at hc))]
    exact List.reverse_reverse _

theorem stripQuotes_quoted (s : List Char) :
    stripQuotesChars ('"' :: (s ++ ['"'])) = s := by
  unfold stripQuotesChars
  have hlast : ('"' :: (s ++ ['"'])).getLast? = some '"' := by
    rw [show ('"' :: (s ++ ['"'])) = ('"' :: s) ++ ['"'] from rfl]
    exact List.getLast?_concat _
  rw [if_pos (by rw [hlast]; rfl)]
  rw [show ('"' :: (s ++ ['"'])).drop 1 = s ++ ['"'] from rfl]
  exact List.dropLast_concat

theorem stripQuotes_no_quote (d : List Char)
    (h : ∀ x, d.head? = some x → x ≠ '"' ∧ x ≠ Char.ofNat 39) :
    stripQuotesChars d = d := by
  unfold stripQuotesChars
  cases d with
  | nil => rfl
  | cons x xs =>
    have hx := h x rfl
    rw [if_neg (by
      intro hc
      rcases Bool.and_eq_true_iff.mp hc with ⟨h1, _⟩
      exact hx.1 (by simpa using h1))]
    rw [if_neg (by
      intro hc
      rcases Bool.and_eq_true_iff.mp hc with ⟨h1, _⟩
      exact hx.2 (by simpa using h1))]

theorem trimRight_hash_cons (rest : List Char) :
    ∃ r2, trimChars ('#' :: rest) = '#' :: r2 := by
  unfold trimChars
  rw [List.dropWhile_cons, if_neg (by decide)]
  rw [show ('#' :: rest).reverse = rest.reverse ++ ['#'] from by simp]
  rw [List.dropWhile_append]
  by_cases he : (rest.reverse.dropWhile isPyWS).isEmpty = true
  · rw [if_pos he]
    exact ⟨[], rfl⟩
  · rw [if_neg he]
    rw [List.reverse_append]
    exact ⟨_, rfl⟩

theorem scanLine_comment (st : ScanState) (rest : List Char) :
    scanLine st ⟨'#' :: rest⟩ = st := by
  unfold scanLine
  dsimp only
  rcases trimRight_hash_cons rest with ⟨r2, hr⟩
  rw [show pyStrip ⟨'#' :: rest⟩ = ⟨'#' :: r2⟩ from congrArg String.mk hr]
  rw [if_pos (by
    apply Bool.or_eq_true_iff.mpr
    right
    simp [pyStartsWith, List.isPrefixOf])]

theorem scanLine_blank (st : ScanState) : scanLine st ("") = st := rfl

theorem scanLine_global_header (st : ScanState) :
    scanLine st ("[global]") = { flushGame st with in_global := true, in_game := false } := by
  unfold scanLine
  dsimp only
  rw [show pyStrip ("[global]") = ("[global]" : String) from rfl]
  rw [if_neg (by decide), if_pos (by decide), if_pos (by decide)]

theorem scanLine_game_header (st : ScanState) :
    scanLine st ("[[game]]") =
      { flushGame st with in_global := false, in_game := true, cur_exe := none } := by
  unfold scanLine
  dsimp only
  rw [show pyStrip ("[[game]]") = ("[[game]]" : String) from rfl]
  rw [if_neg (by decide), if_pos (by decide), if_neg (by decide), if_pos (by decide)]

theorem scanLine_kv (st : ScanState) (key : String) (val : List Char)
    (hkey : ∀ x ∈ key.data, isPyWS x = false ∧ x ≠ '=')
    (hk0 : key.data ≠ [])
    (hkh : ∀ h, key.data.head? = some h → h ≠ '#' ∧ h ≠ '[')
    (hv0 : val ≠ [])
    (hvh : ∀ h, val.head? = some h → isPyWS h = false)
    (hvl : ∀ h, val.getLast? = some h → isPyWS h = false) :
    scanLine st ⟨key.data ++ ' ' :: '=' :: ' ' :: val⟩ =
      kvDispatch st key ⟨stripQuotesChars val⟩ := by
  obtain ⟨k0, kt, hke⟩ : ∃ k0 kt, key.data = k0 :: kt := by
    cases hkd : key.data with
    | nil => exact absurd hkd hk0
    | cons a b => exact ⟨a, b, rfl⟩
  have hh0 := hkh k0 (by rw [hke]; rfl)
  have htrim : trimChars (key.data ++ ' ' :: '=' :: ' ' :: val) =
      key.data ++ ' ' :: '=' :: ' ' :: val := by
    apply trimChars_eq_self
    · intro c hc
      rw [List.head?_append_of_ne_nil _ hk0] at hc
      exact (hkey c (List.mem_of_mem_head? hc)).1
    · intro c hc
      rw [show key.data ++ ' ' :: '=' :: ' ' :: val =
          (key.data ++ [' ', '=', ' ']) ++ val from by simp] at hc
      rw [List.getLast?_append_of_ne_nil _ hv0] at hc
      exact hvl c hc
  unfold scanLine
  dsimp only
  rw [show pyStrip ⟨key.data ++ ' ' :: '=' :: ' ' :: val⟩ =
      ⟨key.data ++ ' ' :: '=' :: ' ' :: val⟩ from String.ext htrim]
  have hne : (String.mk (key.data ++ ' ' :: '=' :: ' ' :: val)).data.isEmpty = false := by
    rw [show (String.mk (key.data ++ ' ' :: '=' :: ' ' :: val)).data =
        key.data ++ ' ' :: '=' :: ' ' :: val from rfl, hke]
    rfl
  have hhash : pyStartsWith ⟨key.data ++ ' ' :: '=' :: ' ' :: val⟩ ("#") = false := by
    unfold pyStartsWith
    rw [show (String.mk (key.data ++ ' ' :: '=' :: ' ' :: val)).data =
        key.data ++ ' ' :: '=' :: ' ' :: val from rfl, hke]
    rw [show ("#" : String).data = ['#'] from rfl]
    rw [show List.isPrefixOf ['#'] ((k0 :: kt) ++ ' ' :: '=' :: ' ' :: val) =
        ('#' == k0 && List.isPrefixOf [] (kt ++ ' ' :: '=' :: ' ' :: val)) from rfl]
    rw [beq_eq_false_iff_ne.mpr (Ne.symm hh0.1)]
    rfl
  have hbr : pyStartsWith ⟨key.data ++ ' ' :: '=' :: ' ' :: val⟩ ("[") = false := by
    unfold pyStartsWith
    rw [show (String.mk (key.data ++ ' ' :: '=' :: ' ' :: val)).data =
        key.data ++ ' ' :: '=' :: ' ' :: val from rfl, hke]
    rw [show ("[" : String).data = ['['] from rfl]
    rw [show List.isPrefixOf ['['] ((k0 :: kt) ++ ' ' :: '=' :: ' ' :: val) =
        ('[' == k0 && List.isPrefixOf [] (kt ++ ' ' :: '=' :: ' ' :: val)) from rfl]
    rw [beq_eq_false_iff_ne.mpr (Ne.symm hh0.2)]
    rfl
  rw [hne, hhash]
  rw [if_neg (by decide)]
  rw [hbr]
  rw [if_neg (by simp)]
  have hcont : (String.mk (key.data ++ ' ' :: '=' :: ' ' :: val)).data.contains '=' = true := by
    exact List.elem_eq_true_of_mem
      (List.mem_append.mpr (Or.inr (by simp)))
  rw [hcont]
  rw [if_pos (by decide)]
  rw [show (String.mk (key.data ++ ' ' :: '=' :: ' ' :: val)).data =
      (key.data ++ [' ']) ++ '=' :: (' ' :: val) from by simp]
  rw [splitFirstChar_append '=' _ _ (fun x hx => by
    rcases List.mem_append.mp hx with hx | hx
    · exact (hkey x hx).2
    · rw [List.mem_singleton.mp hx]
      decide)]
  dsimp only
  rw [show pyStrip ⟨key.data ++ [' ']⟩ = key from String.ext (trimChars_pad_right key.data
    (fun c hc => (hkey c (List.mem_of_mem_head? hc)).1)
    (fun c hc => (hkey c (List.mem_of_mem_getLast? hc)).1))]
  rw [trimChars_pad_left val hvh hvl]

theorem scanLine_comment_lit (st : ScanState) (s : String)
    (hs : s.data.head? = some '#') : scanLine st s = st := by
  cases hd : s.data with
  | nil => rw [hd] at hs; cases hs
  | cons x rest =>
    rw [hd] at hs
    injection hs with hs
    rw [show s = ⟨x :: rest⟩ from String.ext hd, hs]
    exact scanLine_comment st rest

theorem scanLine_current_profile (st : ScanState) (cur : String)
    (hg : st.in_global = true) :
    scanLine st ⟨"current_profile = \"".data ++ cur.data ++ ['"']⟩ =
      { st with current_profile := cur } := by
  rw [show (⟨"current_profile = \"".data ++ cur.data ++ ['"']⟩ : String) =
      ⟨("current_profile" : String).data ++ ' ' :: '=' :: ' ' :: ('"' :: (cur.data ++ ['"']))⟩ from
      congrArg String.mk (by simp)]
  rw [scanLine_kv st ("current_profile") ('"' :: (cur.data ++ ['"']))
      (by decide) (by decide) (by decide) (by simp)
      (by intro h hh; injection hh with hh; rw [← hh]; decide)
      (by
        intro h hh
        rw [show ('"' :: (cur.data ++ ['"'])) = ('"' :: cur.data) ++ ['"'] from rfl,
          List.getLast?_concat] at hh
        injection hh with hh
        rw [← hh]
        decide)]
  rw [stripQuotes_quoted]
  unfold kvDispatch
  rw [hg]
  rw [if_pos (by decide)]
  rw [if_pos (by decide)]

theorem scanLine_dll (st : ScanState) (s : String) (hg : st.in_global = true) :
    scanLine st ⟨"dll = \"".data ++ s.data ++ ['"']⟩ =
      { st with global_config := alistInsert st.global_config ("dll") (.pstr s) } := by
  rw [show (⟨"dll = \"".data ++ s.data ++ ['"']⟩ : String) =
      ⟨("dll" : String).data ++ ' ' :: '=' :: ' ' :: ('"' :: (s.data ++ ['"']))⟩ from
      congrArg String.mk (by simp)]
  rw [scanLine_kv st ("dll") ('"' :: (s.data ++ ['"']))
      (by decide) (by decide) (by decide) (by simp)
      (by intro h hh; injection hh with hh; rw [← hh]; decide)
      (by
        intro h hh
        rw [show ('"' :: (s.data ++ ['"'])) = ('"' :: s.data) ++ ['"'] from rfl,
          List.getLast?_concat] at hh
        injection hh with hh
        rw [← hh]
        decide)]
  rw [stripQuotes_quoted]
  unfold kvDispatch
  rw [hg]
  rw [if_pos (by decide)]
  rw [if_neg (by decide)]
  rw [if_pos (by decide)]

theorem scanLine_no_fp16 (st : ScanState) (b : Bool) (hg : st.in_global = true) :
    scanLine st ⟨"no_fp16 = ".data ++ (pyLower (pyStrFn (PyVal.pbool b))).data⟩ =
      { st with global_config := alistInsert st.global_config ("no_fp16") (.pbool b) } := by
  cases b
  · rw [show (⟨"no_fp16 = ".data ++ (pyLower (pyStrFn (PyVal.pbool false))).data⟩ : String) =
        ⟨("no_fp16" : String).data ++ ' ' :: '=' :: ' ' :: ("false" : String).data⟩ from
        congrArg String.mk (by decide)]
    rw [scanLine_kv st ("no_fp16") (("false" : String).data)
        (by decide) (by decide) (by decide) (by decide) (by decide) (by decide)]
    rw [show stripQuotesChars (("false" : String).data) = ("false" : String).data from by decide]
    unfold kvDispatch
    rw [hg]
    rw [if_pos (by decide)]
    rw [if_neg (by decide)]
    rw [if_neg (by decide)]
    rw [if_pos (by decide)]
    rfl
  · rw [show (⟨"no_fp16 = ".data ++ (pyLower (pyStrFn (PyVal.pbool true))).data⟩ : String) =
        ⟨("no_fp16" : String).data ++ ' ' :: '=' :: ' ' :: ("true" : String).data⟩ from
        congrArg String.mk (by decide)]
    rw [scanLine_kv st ("no_fp16") (("true" : String).data)
        (by decide) (by decide) (by decide) (by decide) (by decide) (by decide)]
    rw [show stripQuotesChars (("true" : String).data) = ("true" : String).data from by decide]
    unfold kvDispatch
    rw [hg]
    rw [if_pos (by decide)]
    rw [if_neg (by decide)]
    rw [if_neg (by decide)]
    rw [if_pos (by decide)]
    rfl

theorem safeGlobal_dll (G : List (String × PyVal)) (h : safeGlobal G = true) :
    ∃ s : String, (alistGet G ("dll")).getD (.pstr "") = PyVal.pstr s := by
  have h1 := (Bool.and_eq_true_iff.mp h).1
  unfold safeGlobal at h1
  cases hd : alistGet G ("dll") with
  | none => exact ⟨"", rfl⟩
  | some v =>
    cases v with
    | pstr s => exact ⟨s, rfl⟩
    | pbool b =>
      rw [hd] at h1
      simp at h1
    | pint n =>
      rw [hd] at h1
      simp at h1
    | pfloat d =>
      rw [hd] at h1
      simp at h1

theorem safeGlobal_nofp (G : List (String × PyVal)) (h : safeGlobal G = true) :
    ∃ b : Bool, (alistGet G ("no_fp16")).getD (.pbool false) = PyVal.pbool b := by
  have h2 := (Bool.and_eq_true_iff.mp h).2
  cases hd : alistGet G ("no_fp16") with
  | none => exact ⟨false, rfl⟩
  | some v =>
    cases v with
    | pbool b => exact ⟨b, rfl⟩
    | pstr s =>
      rw [hd] at h2
      simp at h2
    | pint n =>
      rw [hd] at h2
      simp at h2
    | pfloat d =>
      rw [hd] at h2
      simp at h2

theorem scan_global_opening (pd : ProfileData) (hG : safeGlobal pd.global_config = true) :
    List.foldl scanLine initScanState (["version = 1", ""] ++ global_section_lines pd) =
      ⟨[], parsedGlobal pd.global_config, pd.current_profile, true, false, none, []⟩ := by
  obtain ⟨s, hs⟩ := safeGlobal_dll pd.global_config hG
  obtain ⟨b, hb⟩ := safeGlobal_nofp pd.global_config hG
  have hA : List.foldl scanLine initScanState
      ["[global]", "# Currently selected profile",
       ⟨"current_profile = \"".data ++ pd.current_profile.data ++ ['"']⟩, ""] =
      ⟨[], [], pd.current_profile, true, false, none, []⟩ := by
    rw [List.foldl_cons, scanLine_global_header,
      show flushGame initScanState = initScanState from rfl]
    rw [List.foldl_cons, scanLine_comment_lit _ ("# Currently selected profile") (by decide)]
    rw [List.foldl_cons, scanLine_current_profile _ _ rfl]
    rw [List.foldl_cons, scanLine_blank, List.foldl_nil]
    rfl
  have hD : List.foldl scanLine (⟨[], [], pd.current_profile, true, false, none, []⟩ : ScanState)
      ["# specify where Lossless.dll is stored", ⟨"dll = \"".data ++ s.data ++ ['"']⟩] =
      ⟨[], [(("dll" : String), PyVal.pstr s)], pd.current_profile, true, false, none, []⟩ := by
    rw [List.foldl_cons, scanLine_comment_lit _ ("# specify where Lossless.dll is stored") (by decide)]
    rw [List.foldl_cons, scanLine_dll _ _ rfl, List.foldl_nil]
    rfl
  have hN : ∀ G0 : List (String × PyVal),
      List.foldl scanLine (⟨[], G0, pd.current_profile, true, false, none, []⟩ : ScanState)
        ["# force-disable fp16 (use on older nvidia cards)",
         ⟨"no_fp16 = ".data ++ (pyLower (pyStrFn (PyVal.pbool b))).data⟩, ""] =
      ⟨[], alistInsert G0 ("no_fp16") (PyVal.pbool b), pd.current_profile, true, false, none, []⟩ := by
    intro G0
    rw [List.foldl_cons,
      scanLine_comment_lit _ ("# force-disable fp16 (use on older nvidia cards)") (by decide)]
    rw [List.foldl_cons, scanLine_no_fp16 _ _ rfl]
    rw [List.foldl_cons, scanLine_blank, List.foldl_nil]
  unfold global_section_lines parsedGlobal
  dsimp only
  rw [hs, hb]
  by_cases hdll : pyTruthy (PyVal.pstr s) = true
  · rw [if_pos hdll, if_pos hdll]
    rw [show pyStrFn (PyVal.pstr s) = s from rfl]
    simp only [List.foldl_append]
    rw [show List.foldl scanLine initScanState ["version = 1", ""] = initScanState from rfl]
    rw [hA, hD, hN]
    rfl
  · rw [if_neg hdll, if_neg hdll]
    simp only [List.foldl_append]
    rw [show List.foldl scanLine initScanState ["version = 1", ""] = initScanState from rfl]
    rw [hA, List.foldl_nil, hN]
    rfl

theorem renderInt_char_class (i : Int) :
    ∀ x ∈ (renderInt i).data, x = '-' ∨ x.isDigit = true := by
  intro x hx
  unfold renderInt at hx
  by_cases h : i < 0
  · rw [if_pos h] at hx
    rcases List.mem_cons.mp hx with rfl | hx
    · exact Or.inl rfl
    · exact Or.inr (List.all_eq_true.mp (renderNat_all_digits _) x hx)
  · rw [if_neg h] at hx
    exact Or.inr (List.all_eq_true.mp (renderNat_all_digits _) x hx)

theorem renderDec_char_class (d : Dec) :
    ∀ x ∈ (renderDec d).data, x = '-' ∨ x = '.' ∨ x.isDigit = true := by
  intro x hx
  unfold renderDec at hx
  dsimp only at hx
  rcases List.mem_append.mp hx with hx | hx
  · rcases List.mem_append.mp hx with hx | hx
    · by_cases h : d.man < 0
      · rw [if_pos h] at hx
        rcases List.mem_singleton.mp hx with rfl
        exact Or.inl rfl
      · rw [if_neg h] at hx
        cases hx
    · exact Or.inr (Or.inr (List.all_eq_true.mp (renderNat_all_digits _) x hx))
  · rcases List.mem_cons.mp hx with rfl | hx
    · exact Or.inr (Or.inl rfl)
    · unfold padLeftZeros at hx
      rcases List.mem_append.mp hx with hx | hx
      · rcases List.eq_of_mem_replicate hx with rfl
        exact Or.inr (Or.inr (by decide))
      · exact Or.inr (Or.inr (List.all_eq_true.mp (renderNat_all_digits _) x hx))

theorem numeric_char_good (x : Char) (h : x = '-' ∨ x = '.' ∨ x.isDigit = true) :
    isPyWS x = false ∧ x ≠ '=' ∧ x ≠ '\n' ∧ x ≠ '"' ∧ x ≠ Char.ofNat 39 ∧
      x ≠ '#' ∧ x ≠ '[' := by
  rcases h with rfl | rfl | h
  · exact ⟨by decide, by decide, by decide, by decide, by decide, by decide, by decide⟩
  · exact ⟨by decide, by decide, by decide, by decide, by decide, by decide, by decide⟩
  · refine ⟨isPyWS_eq_false_of_isDigit x h, ?_, ?_, ?_, ?_, ?_, ?_⟩ <;>
      (intro hh; subst hh; simp [Char.isDigit] at h)

theorem mapM_option_eq {α β : Type} (f : α → Option β) (g : α → β) (l : List α)
    (h : ∀ a ∈ l, f a = some (g a)) : l.mapM f = some (l.map g) := by
  induction l with
  | nil => rfl
  | cons x t ih =>
    rw [List.mapM_cons, h x (by simp), ih (fun a ha => h a (by simp [ha]))]
    rfl

theorem foldl_insert_entries (entries : List (String × PyVal)) (E : List (String × PyVal))
    (hnd : (entries.map Prod.fst).Nodup)
    (hfresh : ∀ p ∈ entries, alistContains E p.1 = false) :
    entries.foldl (fun acc p => alistInsert acc p.1 p.2) E = E ++ entries := by
  induction entries generalizing E with
  | nil => simp
  | cons p t ih =>
    rw [List.foldl_cons]
    have hnd' : (t.map Prod.fst).Nodup := by
      rw [List.map_cons] at hnd
      exact (List.nodup_cons.mp hnd).2
    have hfE : alistContains E p.1 = false := hfresh p (by simp)
    have hins : alistInsert E p.1 p.2 = E ++ [(p.1, p.2)] := by
      unfold alistInsert
      rw [hfE]
      simp
    have hfresh' : ∀ q ∈ t, alistContains (E ++ [(p.1, p.2)]) q.1 = false := by
      intro q hq
      rw [alistContains_append, hfresh q (by simp [hq])]
      have hqk : ¬ (p.1 = q.1) := by
        rw [List.map_cons] at hnd
        intro hh
        exact (List.nodup_cons.mp hnd).1 (hh ▸ List.mem_map_of_mem _ hq)
      simp [alistContains, hqk]
    rw [hins, ih (E ++ [(p.1, p.2)]) hnd' hfresh']
    simp

theorem foldl_insert_lookup (entries : List (String × PyVal)) (base : List (String × PyVal))
    (k : String) (hnd : (entries.map Prod.fst).Nodup) :
    alistGet (entries.foldl (fun acc p => alistInsert acc p.1 p.2) base) k =
      match alistGet entries k with
      | some v => some v
      | none => alistGet base k := by
  induction entries generalizing base with
  | nil => rfl
  | cons p t ih =>
    rw [List.foldl_cons]
    have hnd2 : (List.map Prod.fst (p :: t)).Nodup := hnd
    have hnd' : (t.map Prod.fst).Nodup := (List.nodup_cons.mp (by rwa [List.map_cons] at hnd2)).2
    rw [ih (alistInsert base p.1 p.2) hnd']
    by_cases hk : k = p.1
    · have hnotin := (List.nodup_cons.mp (by rwa [List.map_cons] at hnd2)).1
      have htnone : alistGet t k = none := by
        apply alistGet_eq_none_of_not_contains
        rw [show alistContains t k = t.any (fun q => q.1 == k) from rfl, List.any_eq_false]
        intro q hq hb
        exact hnotin (((beq_iff_eq.mp hb).trans hk) ▸ List.mem_map_of_mem Prod.fst hq)
      rw [htnone, show alistGet (p :: t) k = some p.2 from by
        rw [alistGet_cons, if_pos hk.symm], alistGet_insert]
      dsimp only
      rw [if_pos hk]
    · rw [show alistGet (p :: t) k = alistGet t k from by
        rw [alistGet_cons, if_neg (fun hh => hk hh.symm)]]
      rw [alistGet_insert]
      cases hg : alistGet t k with
      | some v => dsimp only
      | none =>
        dsimp only
        rw [if_neg hk]

theorem schema_key_facts : ∀ f ∈ CONFIG_SCHEMA,
    (∀ x ∈ f.name.data, isPyWS x = false ∧ x ≠ '=') ∧ f.name.data ≠ [] ∧
    (∀ h, f.name.data.head? = some h → h ≠ '#' ∧ h ≠ '[') ∧ (f.name == "exe") = false ∧
    schemaFind CONFIG_SCHEMA f.name = some f := by decide

theorem kvDispatch_game (st : ScanState) (key value : String)
    (hgl : st.in_global = false) (hgm : st.in_game = true)
    (hexe : (key == "exe") = false) :
    kvDispatch st key value =
      match schemaFind CONFIG_SCHEMA key with
      | some f =>
        match gameParseValue f.field_type value with
        | some v' => { st with game_buf := alistInsert st.game_buf key v' }
        | none => st
      | none => st := by
  unfold kvDispatch
  rw [hgl]
  rw [if_neg (by simp)]
  rw [hgm]
  rw [if_pos rfl]
  rw [hexe]
  rw [if_neg (by simp)]

theorem scanLine_field_bool (st : ScanState) (f : ConfigField) (b : Bool)
    (hgl : st.in_global = false) (hgm : st.in_game = true)
    (hmem : f ∈ CONFIG_SCHEMA) (hft : f.field_type = .boolean) :
    scanLine st ⟨f.name.data ++ " = ".data ++ (if b then "true" else "false").data⟩ =
      { st with game_buf := alistInsert st.game_buf f.name (.pbool b) } := by
  obtain ⟨hk1, hk2, hk3, hk4, hk5⟩ := schema_key_facts f hmem
  cases b
  · rw [show (⟨f.name.data ++ " = ".data ++ (if false then "true" else "false").data⟩ : String) =
        ⟨f.name.data ++ ' ' :: '=' :: ' ' :: ("false" : String).data⟩ from
        congrArg String.mk (by simp)]
    rw [scanLine_kv st f.name (("false" : String).data) hk1 hk2 hk3
        (by decide) (by decide) (by decide)]
    rw [show stripQuotesChars (("false" : String).data) = ("false" : String).data from by decide]
    rw [kvDispatch_game st f.name _ hgl hgm hk4]
    rw [hk5]
    dsimp only
    rw [hft]
    rfl
  · rw [show (⟨f.name.data ++ " = ".data ++ (if true then "true" else "false").data⟩ : String) =
        ⟨f.name.data ++ ' ' :: '=' :: ' ' :: ("true" : String).data⟩ from
        congrArg String.mk (by simp)]
    rw [scanLine_kv st f.name (("true" : String).data) hk1 hk2 hk3
        (by decide) (by decide) (by decide)]
    rw [show stripQuotesChars (("true" : String).data) = ("true" : String).data from by decide]
    rw [kvDispatch_game st f.name _ hgl hgm hk4]
    rw [hk5]
    dsimp only
    rw [hft]
    rfl

theorem scanLine_field_int (st : ScanState) (f : ConfigField) (n : Int)
    (hgl : st.in_global = false) (hgm : st.in_game = true)
    (hmem : f ∈ CONFIG_SCHEMA) (hft : f.field_type = .integer) :
    scanLine st ⟨f.name.data ++ " = ".data ++ (renderInt n).data⟩ =
      { st with game_buf := alistInsert st.game_buf f.name (.pint n) } := by
  obtain ⟨hk1, hk2, hk3, hk4, hk5⟩ := schema_key_facts f hmem
  rw [show (⟨f.name.data ++ " = ".data ++ (renderInt n).data⟩ : String) =
      ⟨f.name.data ++ ' ' :: '=' :: ' ' :: (renderInt n).data⟩ from
      congrArg String.mk (by simp)]
  rw [scanLine_kv st f.name ((renderInt n).data) hk1 hk2 hk3
      (renderInt_ne_nil n)
      (fun h hh => (numeric_char_good h ((renderInt_char_class n h (List.mem_of_mem_head? hh)).elim Or.inl (fun hd => Or.inr (Or.inr hd)))).1)
      (fun h hh => (numeric_char_good h ((renderInt_char_class n h (List.mem_of_mem_getLast? hh)).elim Or.inl (fun hd => Or.inr (Or.inr hd)))).1)]
  rw [stripQuotes_no_quote _ (fun x hx =>
    ⟨(numeric_char_good x ((renderInt_char_class n x (List.mem_of_mem_head? hx)).elim Or.inl (fun hd => Or.inr (Or.inr hd)))).2.2.2.1,
     (numeric_char_good x ((renderInt_char_class n x (List.mem_of_mem_head? hx)).elim Or.inl (fun hd => Or.inr (Or.inr hd)))).2.2.2.2.1⟩)]
  rw [kvDispatch_game st f.name _ hgl hgm hk4]
  rw [hk5]
  dsimp only
  rw [hft]
  dsimp only [gameParseValue]
  rw [show (⟨(renderInt n).data⟩ : String) = renderInt n from rfl]
  rw [pyIntOfString_renderInt]
  rfl

theorem scanLine_field_float (st : ScanState) (f : ConfigField) (d : Dec)
    (hgl : st.in_global = false) (hgm : st.in_game = true)
    (hmem : f ∈ CONFIG_SCHEMA) (hft : f.field_type = .float)
    (hcanon : isCanonDec d = true) :
    scanLine st ⟨f.name.data ++ " = ".data ++ (renderDec d).data⟩ =
      { st with game_buf := alistInsert st.game_buf f.name (.pfloat d) } := by
  obtain ⟨hk1, hk2, hk3, hk4, hk5⟩ := schema_key_facts f hmem
  have hdne : (renderDec d).data ≠ [] := by
    unfold renderDec
    dsimp only
    intro hh
    rcases List.append_eq_nil.mp hh with ⟨_, h2⟩
    cases h2
  rw [show (⟨f.name.data ++ " = ".data ++ (renderDec d).data⟩ : String) =
      ⟨f.name.data ++ ' ' :: '=' :: ' ' :: (renderDec d).data⟩ from
      congrArg String.mk (by simp)]
  rw [scanLine_kv st f.name ((renderDec d).data) hk1 hk2 hk3 hdne
      (fun h hh => (numeric_char_good h (renderDec_char_class d h (List.mem_of_mem_head? hh))).1)
      (fun h hh => (numeric_char_good h (renderDec_char_class d h (List.mem_of_mem_getLast? hh))).1)]
  rw [stripQuotes_no_quote _ (fun x hx =>
    ⟨(numeric_char_good x (renderDec_char_class d x (List.mem_of_mem_head? hx))).2.2.2.1,
     (numeric_char_good x (renderDec_char_class d x (List.mem_of_mem_head? hx))).2.2.2.2.1⟩)]
  rw [kvDispatch_game st f.name _ hgl hgm hk4]
  rw [hk5]
  dsimp only
  rw [hft]
  dsimp only [gameParseValue]
  rw [show (⟨(renderDec d).data⟩ : String) = renderDec d from rfl]
  rw [pyFloatOfString_renderDec d hcanon]
  rfl

theorem scanLine_field_str (st : ScanState) (f : ConfigField) (s : String)
    (hgl : st.in_global = false) (hgm : st.in_game = true)
    (hmem : f ∈ CONFIG_SCHEMA) (hft : f.field_type = .string) :
    scanLine st ⟨f.name.data ++ " = \"".data ++ s.data ++ ['"']⟩ =
      { st with game_buf := alistInsert st.game_buf f.name (.pstr s) } := by
  obtain ⟨hk1, hk2, hk3, hk4, hk5⟩ := schema_key_facts f hmem
  rw [show (⟨f.name.data ++ " = \"".data ++ s.data ++ ['"']⟩ : String) =
      ⟨f.name.data ++ ' ' :: '=' :: ' ' :: ('"' :: (s.data ++ ['"']))⟩ from
      congrArg String.mk (by simp)]
  rw [scanLine_kv st f.name ('"' :: (s.data ++ ['"'])) hk1 hk2 hk3 (by simp)
      (by intro h hh; injection hh with hh; rw [← hh]; decide)
      (by
        intro h hh
        rw [show ('"' :: (s.data ++ ['"'])) = ('"' :: s.data) ++ ['"'] from rfl,
          List.getLast?_concat] at hh
        injection hh with hh
        rw [← hh]
        decide)]
  rw [stripQuotes_quoted]
  rw [kvDispatch_game st f.name _ hgl hgm hk4]
  rw [hk5]
  dsimp only
  rw [hft]
  rfl

theorem scan_field_group (st : ScanState) (f : ConfigField) (v : PyVal)
    (hgl : st.in_global = false) (hgm : st.in_game = true)
    (hmem : f ∈ CONFIG_SCHEMA)
    (htv : typedVal f.field_type v = true) (hsv : safeVal v = true) :
    List.foldl scanLine st (toml_value_lines f v) =
      { st with game_buf := alistInsert st.game_buf f.name v } := by
  unfold toml_value_lines
  rw [List.cons_append, List.foldl_cons]
  rw [show scanLine st ⟨"# ".data ++ f.description.data⟩ = st from by
    rw [show (⟨"# ".data ++ f.description.data⟩ : String) =
        ⟨'#' :: (' ' :: f.description.data)⟩ from congrArg String.mk (by simp)]
    exact scanLine_comment st _]
  cases v with
  | pbool b =>
    have hft : f.field_type = ConfigFieldType.boolean := by
      cases hft2 : f.field_type with
      | boolean => rfl
      | integer => rw [hft2] at htv; exact Bool.noConfusion htv
      | float => rw [hft2] at htv; exact Bool.noConfusion htv
      | string => rw [hft2] at htv; exact Bool.noConfusion htv
    dsimp only
    rw [show ([(⟨f.name.data ++ " = ".data ++ (if b then "true" else "false").data⟩ : String)] ++ [""]) =
        [(⟨f.name.data ++ " = ".data ++ (if b then "true" else "false").data⟩ : String), ""] from rfl]
    rw [List.foldl_cons, scanLine_field_bool st f b hgl hgm hmem hft]
    rw [List.foldl_cons, scanLine_blank, List.foldl_nil]
  | pint n =>
    have hft : f.field_type = ConfigFieldType.integer := by
      cases hft2 : f.field_type with
      | integer => rfl
      | boolean => rw [hft2] at htv; exact Bool.noConfusion htv
      | float => rw [hft2] at htv; exact Bool.noConfusion htv
      | string => rw [hft2] at htv; exact Bool.noConfusion htv
    dsimp only
    rw [show ([(⟨f.name.data ++ " = ".data ++ (renderInt n).data⟩ : String)] ++ [""]) =
        [(⟨f.name.data ++ " = ".data ++ (renderInt n).data⟩ : String), ""] from rfl]
    rw [List.foldl_cons, scanLine_field_int st f n hgl hgm hmem hft]
    rw [List.foldl_cons, scanLine_blank, List.foldl_nil]
  | pfloat d =>
    have hft : f.field_type = ConfigFieldType.float := by
      cases hft2 : f.field_type with
      | float => rfl
      | boolean => rw [hft2] at htv; exact Bool.noConfusion htv
      | integer => rw [hft2] at htv; exact Bool.noConfusion htv
      | string => rw [hft2] at htv; exact Bool.noConfusion htv
    have hcanon : isCanonDec d = true := by
      rw [hft] at htv
      simpa [typedVal] using htv
    dsimp only
    rw [show ([(⟨f.name.data ++ " = ".data ++ (renderDec d).data⟩ : String)] ++ [""]) =
        [(⟨f.name.data ++ " = ".data ++ (renderDec d).data⟩ : String), ""] from rfl]
    rw [List.foldl_cons, scanLine_field_float st f d hgl hgm hmem hft hcanon]
    rw [List.foldl_cons, scanLine_blank, List.foldl_nil]
  | pstr s =>
    have hft : f.field_type = ConfigFieldType.string := by
      cases hft2 : f.field_type with
      | string => rfl
      | boolean => rw [hft2] at htv; exact Bool.noConfusion htv
      | integer => rw [hft2] at htv; exact Bool.noConfusion htv
      | float => rw [hft2] at htv; exact Bool.noConfusion htv
    have hemp : s.data.isEmpty = false := by
      have h1 := (Bool.and_eq_true_iff.mp hsv).1
      cases he : s.data.isEmpty
      · rfl
      · rw [he] at h1
        exact Bool.noConfusion h1
    dsimp only
    rw [hemp]
    rw [if_neg (by simp)]
    rw [show ([(⟨f.name.data ++ " = \"".data ++ s.data ++ ['"']⟩ : String)] ++ [""]) =
        [(⟨f.name.data ++ " = \"".data ++ s.data ++ ['"']⟩ : String), ""] from rfl]
    rw [List.foldl_cons, scanLine_field_str st f s hgl hgm hmem hft]
    rw [List.foldl_cons, scanLine_blank, List.foldl_nil]

theorem scan_fields (C : List (String × PyVal)) :
    ∀ (l : List ConfigField) (st : ScanState),
      (∀ f ∈ l, f ∈ CONFIG_SCHEMA) →
      (∀ f ∈ l, ∃ v, alistGet C f.name = some v ∧ typedVal f.field_type v = true ∧
        safeVal v = true) →
      st.in_global = false → st.in_game = true →
      List.foldl scanLine st
        ((l.map (fun f => toml_value_lines f ((alistGet C f.name).getD f.default))).flatten) =
        { st with game_buf := (l.foldl
            (fun buf f => alistInsert buf f.name ((alistGet C f.name).getD f.default))
            st.game_buf) } := by
  intro l
  induction l with
  | nil =>
    intro st _ _ _ _
    rfl
  | cons f t ih =>
    intro st hl hC hgl hgm
    rw [List.map_cons, List.flatten_cons, List.foldl_append, List.foldl_cons]
    obtain ⟨v, hv, htv, hsv⟩ := hC f (by simp)
    rw [hv]
    rw [show (some v).getD f.default = v from rfl]
    rw [scan_field_group st f v hgl hgm (hl f (by simp)) htv hsv]
    exact ih _ (fun g hg => hl g (by simp [hg])) (fun g hg => hC g (by simp [hg])) hgl hgm

theorem validateGameValue_typed (ft : ConfigFieldType) (v : PyVal)
    (h : typedVal ft v = true) : validateGameValue ft v = some v := by
  cases ft <;> cases v <;> (try rfl) <;> simp [typedVal] at h

theorem validate_fold_id :
    ∀ (buf : List (String × PyVal)) (base : List (String × PyVal)),
      (∀ p ∈ buf, ∃ f, schemaFind CONFIG_SCHEMA p.1 = some f ∧
          validateGameValue f.field_type p.2 = some p.2) →
      buf.foldl (fun acc p =>
          match schemaFind CONFIG_SCHEMA p.1 with
          | some f =>
            match validateGameValue f.field_type p.2 with
            | some v => alistInsert acc p.1 v
            | none => acc
          | none => acc) base =
        buf.foldl (fun acc p => alistInsert acc p.1 p.2) base := by
  intro buf
  induction buf with
  | nil => intro base _; rfl
  | cons p t ih =>
    intro base h
    rw [List.foldl_cons, List.foldl_cons]
    obtain ⟨f, hf, hv⟩ := h p (by simp)
    rw [hf]
    dsimp only
    rw [hv]
    exact ih _ (fun q hq => h q (by simp [hq]))

theorem flushGame_push (P : List (String × List (String × PyVal))) (G : List (String × PyVal))
    (cp : String) (n : String) (buf : List (String × PyVal)) (hn : n.data ≠ []) :
    flushGame ⟨P, G, cp, false, true, some n, buf⟩ =
      ⟨alistInsert P n (buf.foldl (fun acc p =>
          match schemaFind CONFIG_SCHEMA p.1 with
          | some f =>
            match validateGameValue f.field_type p.2 with
            | some v => alistInsert acc p.1 v
            | none => acc
          | none => acc) get_defaults), G, cp, false, true, some n, []⟩ := by
  unfold flushGame
  dsimp only
  rw [if_pos rfl]
  rw [show n.data.isEmpty = false from by
    cases hd : n.data with
    | nil => exact absurd hd hn
    | cons a b => rfl]
  rw [if_neg (by simp)]

theorem scanLine_exe (st : ScanState) (n : String)
    (hgl : st.in_global = false) (hgm : st.in_game = true) :
    scanLine st ⟨"exe = \"".data ++ n.data ++ ['"']⟩ = { st with cur_exe := some n } := by
  rw [show (⟨"exe = \"".data ++ n.data ++ ['"']⟩ : String) =
      ⟨("exe" : String).data ++ ' ' :: '=' :: ' ' :: ('"' :: (n.data ++ ['"']))⟩ from
      congrArg String.mk (by simp)]
  rw [scanLine_kv st ("exe") ('"' :: (n.data ++ ['"'])) (by decide) (by decide) (by decide)
      (by simp)
      (by intro h hh; injection hh with hh; rw [← hh]; decide)
      (by
        intro h hh
        rw [show ('"' :: (n.data ++ ['"'])) = ('"' :: n.data) ++ ['"'] from rfl,
          List.getLast?_concat] at hh
        injection hh with hh
        rw [← hh]
        decide)]
  rw [stripQuotes_quoted]
  unfold kvDispatch
  rw [hgl]
  rw [if_neg (by simp)]
  rw [hgm]
  rw [if_pos rfl]
  rw [if_pos (by decide)]

theorem tomlSafe_field_lookup (C : List (String × PyVal)) (hC : tomlSafeConfig C = true) :
    ∀ f ∈ CONFIG_SCHEMA, ∃ v, alistGet C f.name = some v ∧ typedVal f.field_type v = true ∧
      safeVal v = true := by
  intro f hf
  have hmatch : ∀ g ∈ CONFIG_SCHEMA,
      CONFIG_SCHEMA_DEF.any (fun g2 => g2.name == g.name && g2.field_type == g.field_type) = true := by
    decide
  obtain ⟨htc, hsc⟩ := Bool.and_eq_true_iff.mp hC
  obtain ⟨v, hv, htv⟩ := typed_get_by_name C htc f.name f.field_type (hmatch f hf)
  refine ⟨v, hv, htv, ?_⟩
  rcases List.any_eq_true.mp (hmatch f hf) with ⟨g, hg, hp⟩
  rw [Bool.and_eq_true, beq_iff_eq, beq_iff_eq] at hp
  have hfield := List.all_eq_true.mp hsc g hg
  rw [hp.1, hv] at hfield
  exact hfield

theorem game_section_lines_typed (n : String) (C : List (String × PyVal))
    (hC : tomlSafeConfig C = true) :
    game_section_lines n C = some (gameBlockLines n C) := by
  unfold game_section_lines gameBlockLines tomlGameFields
  rw [mapM_option_eq _ (fun f => toml_value_lines f ((alistGet C f.name).getD f.default)) _
    (fun f hf => by
      obtain ⟨v, hv, _, _⟩ := tomlSafe_field_lookup C hC f (List.mem_of_mem_filter hf)
      dsimp only
      rw [hv]
      rfl)]
  rfl

theorem valid_name_facts (n : String) (h : validate_profile_name n = true) :
    n.data ≠ [] ∧ ∀ x ∈ n.data, x ≠ '\n' := by
  unfold validate_profile_name at h
  by_cases he : n.data.isEmpty = true
  · rw [if_pos he] at h
    exact Bool.noConfusion h
  · rw [if_neg he] at h
    refine ⟨fun hh => he (by rw [hh]; rfl), ?_⟩
    by_cases ha : n.data.any (fun c => invalidChars.contains c) = true
    · rw [if_pos ha] at h
      exact Bool.noConfusion h
    · intro x hx hnl
      subst hnl
      apply ha
      apply List.any_eq_true.mpr
      exact ⟨'\n', hx, by decide⟩

theorem scan_game_block (st : ScanState) (n : String) (C : List (String × PyVal))
    (hC : tomlSafeConfig C = true)
    (hbuf : (flushGame st).game_buf = []) :
    List.foldl scanLine st (gameBlockLines n C) =
      ⟨(flushGame st).profiles, (flushGame st).global_config, (flushGame st).current_profile,
       false, true, some n,
       tomlGameFields.foldl
         (fun buf f => alistInsert buf f.name ((alistGet C f.name).getD f.default)) []⟩ := by
  have hcom : ∀ st' : ScanState, scanLine st'
      (if n == DEFAULT_PROFILE_NAME then "# Plugin-managed game entry (default profile)"
       else ⟨"# Profile: ".data ++ n.data⟩) = st' := by
    intro st'
    by_cases hd : (n == DEFAULT_PROFILE_NAME) = true
    · rw [if_pos hd]
      exact scanLine_comment_lit _ _ (by decide)
    · rw [if_neg hd]
      rw [show (⟨"# Profile: ".data ++ n.data⟩ : String) =
          ⟨'#' :: (" Profile: ".data ++ n.data)⟩ from congrArg String.mk (by simp)]
      exact scanLine_comment _ _
  unfold gameBlockLines
  rw [List.foldl_append]
  rw [List.foldl_cons, scanLine_game_header]
  rw [List.foldl_cons, hcom]
  rw [List.foldl_cons, scanLine_exe _ _ rfl rfl]
  rw [List.foldl_cons, scanLine_blank, List.foldl_nil]
  rw [scan_fields C tomlGameFields _
    (fun f hf => List.mem_of_mem_filter hf)
    (fun f hf => tomlSafe_field_lookup C hC f (List.mem_of_mem_filter hf))
    rfl rfl]
  dsimp only
  rw [hbuf]

theorem buf_entries_eq (C : List (String × PyVal)) :
    tomlGameFields.foldl
        (fun buf f => alistInsert buf f.name ((alistGet C f.name).getD f.default)) [] =
      tomlGameFields.map (fun f => (f.name, (alistGet C f.name).getD f.default)) := by
  have h1 : tomlGameFields.foldl
      (fun buf f => alistInsert buf f.name ((alistGet C f.name).getD f.default)) [] =
      (tomlGameFields.map (fun f => (f.name, (alistGet C f.name).getD f.default))).foldl
        (fun acc p => alistInsert acc p.1 p.2) [] := rfl
  rw [h1]
  rw [foldl_insert_entries _ []
    (by
      rw [show (tomlGameFields.map
          (fun f => (f.name, (alistGet C f.name).getD f.default))).map Prod.fst =
        ["multiplier", "flow_scale", "performance_mode", "hdr_mode",
         "experimental_present_mode", "dxvk_frame_rate", "enable_wow64",
         "disable_steamdeck_mode", "mangohud_workaround", "disable_vkbasalt",
         "force_enable_vkbasalt", "gamescope_frame_pacing", "frame_pacing_target_ms"] from rfl]
      decide)
    (fun p hp => rfl)]
  rw [List.nil_append]

theorem flush_after_block (st : ScanState) (n : String) (C : List (String × PyVal))
    (hC : tomlSafeConfig C = true) (hn : n.data ≠ []) :
    flushGame ⟨(flushGame st).profiles, (flushGame st).global_config,
        (flushGame st).current_profile, false, true, some n,
        tomlGameFields.foldl
          (fun buf f => alistInsert buf f.name ((alistGet C f.name).getD f.default)) []⟩ =
      ⟨alistInsert (flushGame st).profiles n (parsedProfile C), (flushGame st).global_config,
       (flushGame st).current_profile, false, true, some n, []⟩ := by
  rw [flushGame_push _ _ _ _ _ hn]
  rw [buf_entries_eq]
  rw [validate_fold_id _ get_defaults (fun p hp => by
    rcases List.mem_map.mp hp with ⟨f, hf, hpe⟩
    have hmem := List.mem_of_mem_filter (show f ∈ CONFIG_SCHEMA.filter
      (fun f => !(GLOBAL_SECTION_FIELDS.contains f.name)) from hf)
    obtain ⟨v, hv, htv, _⟩ := tomlSafe_field_lookup C hC f hmem
    refine ⟨f, ?_, ?_⟩
    · rw [← hpe]
      exact (schema_key_facts f hmem).2.2.2.2
    · rw [← hpe]
      dsimp only
      rw [hv]
      rw [show (some v).getD f.default = v from rfl]
      exact validateGameValue_typed f.field_type v htv)]
  rfl

theorem scan_blocks :
    ∀ (ps : List (String × List (String × PyVal))) (st : ScanState),
      (∀ p ∈ ps, p.1.data ≠ [] ∧ tomlSafeConfig p.2 = true) →
      (flushGame st).game_buf = [] →
      (flushGame (List.foldl scanLine st
          ((ps.map (fun p => gameBlockLines p.1 p.2)).flatten))).profiles =
        ps.foldl (fun acc p => alistInsert acc p.1 (parsedProfile p.2))
          (flushGame st).profiles ∧
      (flushGame (List.foldl scanLine st
          ((ps.map (fun p => gameBlockLines p.1 p.2)).flatten))).global_config =
        (flushGame st).global_config ∧
      (flushGame (List.foldl scanLine st
          ((ps.map (fun p => gameBlockLines p.1 p.2)).flatten))).current_profile =
        (flushGame st).current_profile := by
  intro ps
  induction ps with
  | nil =>
    intro st _ _
    exact ⟨rfl, rfl, rfl⟩
  | cons p t ih =>
    intro st hok hbuf
    rw [List.map_cons, List.flatten_cons, List.foldl_append]
    rw [scan_game_block st p.1 p.2 (hok p (by simp)).2 hbuf]
    have hflushS := flush_after_block st p.1 p.2 (hok p (by simp)).2 (hok p (by simp)).1
    obtain ⟨ih1, ih2, ih3⟩ := ih _ (fun q hq => hok q (by simp [hq])) (by rw [hflushS])
    refine ⟨?_, ?_, ?_⟩
    · rw [ih1, List.foldl_cons]
      rw [show (flushGame ⟨(flushGame st).profiles, (flushGame st).global_config,
          (flushGame st).current_profile, false, true, some p.1,
          tomlGameFields.foldl
            (fun buf f => alistInsert buf f.name ((alistGet p.2 f.name).getD f.default))
            []⟩).profiles =
        alistInsert (flushGame st).profiles p.1 (parsedProfile p.2) from by rw [hflushS]]
    · rw [ih2]
      rw [show (flushGame ⟨(flushGame st).profiles, (flushGame st).global_config,
          (flushGame st).current_profile, false, true, some p.1,
          tomlGameFields.foldl
            (fun buf f => alistInsert buf f.name ((alistGet p.2 f.name).getD f.default))
            []⟩).global_config = (flushGame st).global_config from by rw [hflushS]]
    · rw [ih3]
      rw [show (flushGame ⟨(flushGame st).profiles, (flushGame st).global_config,
          (flushGame st).current_profile, false, true, some p.1,
          tomlGameFields.foldl
            (fun buf f => alistInsert buf f.name ((alistGet p.2 f.name).getD f.default))
            []⟩).current_profile = (flushGame st).current_profile from by rw [hflushS]]

theorem parse_fixup_congr (st1 st2 : ScanState)
    (h1 : st1.profiles = st2.profiles) (h2 : st1.global_config = st2.global_config)
    (h3 : st1.current_profile = st2.current_profile) :
    parse_fixup st1 = parse_fixup st2 := by
  unfold parse_fixup
  rw [h1, h2, h3]

theorem pyLines_pyJoinLines (ls : List String) (hne : ls ≠ [])
    (h : ∀ s ∈ ls, ∀ x ∈ s.data, x ≠ '\n') :
    pyLines (pyJoinLines ls) = ls := by
  unfold pyLines pyJoinLines
  rw [show (String.mk (joinChar '\n' (ls.map String.data))).data =
      joinChar '\n' (ls.map String.data) from rfl]
  rw [splitChar_joinChar '\n' _ (by simpa using hne)
    (fun p hp x hx => by
      rcases List.mem_map.mp hp with ⟨s, hs, rfl⟩
      exact h s hs x hx)]
  rw [List.map_map]
  rw [show (String.mk ∘ String.data) = id from funext (fun s => rfl), List.map_id]

theorem no_newline_of_contains_false (s : String) (hs : s.data.contains '\n' = false) :
    ∀ x ∈ s.data, x ≠ '\n' := by
  intro x hx hnl
  subst hnl
  have h1 : s.data.contains '\n' = true := List.elem_eq_true_of_mem hx
  rw [h1] at hs
  exact Bool.noConfusion hs

theorem toml_value_lines_no_newline (f : ConfigField) (v : PyVal)
    (hf : f ∈ CONFIG_SCHEMA) (htv : typedVal f.field_type v = true) (hsv : safeVal v = true) :
    ∀ l ∈ toml_value_lines f v, ∀ x ∈ l.data, x ≠ '\n' := by
  have hdn : ∀ g ∈ CONFIG_SCHEMA, (∀ x ∈ g.description.data, x ≠ '\n') ∧
      (∀ x ∈ g.name.data, x ≠ '\n') := by decide
  have hlit : ∀ x ∈ (" = " : String).data, x ≠ '\n' := by decide
  have hlit2 : ∀ x ∈ (" = \"" : String).data, x ≠ '\n' := by decide
  intro l hl x hx
  unfold toml_value_lines at hl
  rcases List.mem_cons.mp hl with rfl | hl
  · rcases List.mem_append.mp (show x ∈ "# ".data ++ f.description.data from hx) with hx | hx
    · revert hx
      have : ∀ y ∈ ("# " : String).data, y ≠ '\n' := by decide
      exact this x
    · exact (hdn f hf).1 x hx
  rcases List.mem_append.mp hl with hl | hl
  · cases v with
    | pbool b =>
      rcases List.mem_singleton.mp hl with rfl
      rcases List.mem_append.mp (show x ∈ (f.name.data ++ " = ".data) ++
          (if b then "true" else "false").data from hx) with hx | hx
      · rcases List.mem_append.mp hx with hx | hx
        · exact (hdn f hf).2 x hx
        · exact hlit x hx
      · cases b
        · revert hx
          have : ∀ y ∈ ("false" : String).data, y ≠ '\n' := by decide
          exact this x
        · revert hx
          have : ∀ y ∈ ("true" : String).data, y ≠ '\n' := by decide
          exact this x
    | pint n =>
      rcases List.mem_singleton.mp hl with rfl
      rcases List.mem_append.mp (show x ∈ (f.name.data ++ " = ".data) ++
          (renderInt n).data from hx) with hx | hx
      · rcases List.mem_append.mp hx with hx | hx
        · exact (hdn f hf).2 x hx
        · exact hlit x hx
      · exact (numeric_char_good x ((renderInt_char_class n x hx).elim Or.inl
          (fun hd => Or.inr (Or.inr hd)))).2.2.1
    | pfloat d =>
      rcases List.mem_singleton.mp hl with rfl
      rcases List.mem_append.mp (show x ∈ (f.name.data ++ " = ".data) ++
          (renderDec d).data from hx) with hx | hx
      · rcases List.mem_append.mp hx with hx | hx
        · exact (hdn f hf).2 x hx
        · exact hlit x hx
      · exact (numeric_char_good x (renderDec_char_class d x hx)).2.2.1
    | pstr s =>
      have hcontains : s.data.contains '\n' = false := by
        have h2 := (Bool.and_eq_true_iff.mp hsv).2
        cases hc : s.data.contains '\n'
        · rfl
        · rw [hc] at h2
          exact Bool.noConfusion h2
      dsimp only at hl
      by_cases he : s.data.isEmpty = true
      · rw [he, if_pos rfl] at hl
        cases hl
      · rw [show s.data.isEmpty = false from Bool.eq_false_iff.mpr he] at hl
        rw [if_neg (by simp)] at hl
        rcases List.mem_singleton.mp hl with rfl
        rcases List.mem_append.mp (show x ∈ ((f.name.data ++ " = \"".data) ++ s.data) ++
            ['"'] from hx) with hx | hx
        · rcases List.mem_append.mp hx with hx | hx
          · rcases List.mem_append.mp hx with hx | hx
            · exact (hdn f hf).2 x hx
            · exact hlit2 x hx
          · exact no_newline_of_contains_false s hcontains x hx
        · rcases List.mem_singleton.mp hx with rfl
          decide
  · rcases List.mem_singleton.mp hl with rfl
    cases hx

theorem safeGlobal_dll_nl (G : List (String × PyVal)) (h : safeGlobal G = true) :
    ∀ s : String, (alistGet G ("dll")).getD (.pstr "") = PyVal.pstr s →
      ∀ x ∈ s.data, x ≠ '\n' := by
  intro s hs x hx
  have h1 := (Bool.and_eq_true_iff.mp h).1
  unfold safeGlobal at h1
  cases hd : alistGet G ("dll") with
  | none =>
    rw [hd] at hs
    injection hs with hs
    rw [← hs] at hx
    cases hx
  | some v =>
    rw [hd] at h1
    rw [hd] at hs
    cases v with
    | pstr s2 =>
      rw [show (some (PyVal.pstr s2)).getD (.pstr "") = PyVal.pstr s2 from rfl] at hs
      injection hs with hs
      rw [← hs] at hx
      dsimp only at h1
      have hc : s2.data.contains '\n' = false := by
        cases hc2 : s2.data.contains '\n'
        · rfl
        · rw [hc2] at h1
          exact Bool.noConfusion h1
      exact no_newline_of_contains_false s2 hc x hx
    | pbool b => simp at h1
    | pint n => simp at h1
    | pfloat d => simp at h1

theorem toml_all_lines_no_newline (pd : ProfileData)
    (hok : ∀ p ∈ pd.profiles, (∀ x ∈ p.1.data, x ≠ '\n') ∧ tomlSafeConfig p.2 = true)
    (hG : safeGlobal pd.global_config = true)
    (hcur : ∀ x ∈ pd.current_profile.data, x ≠ '\n') :
    ∀ s ∈ (["version = 1", ""] ++ global_section_lines pd) ++
        (pd.profiles.map (fun p => gameBlockLines p.1 p.2)).flatten,
      ∀ x ∈ s.data, x ≠ '\n' := by
  intro s hs
  rcases List.mem_append.mp hs with hs | hs
  · rcases List.mem_append.mp hs with hs | hs
    · have hh : ∀ y ∈ (["version = 1", ""] : List String), ∀ x ∈ y.data, x ≠ '\n' := by decide
      exact hh s hs
    · unfold global_section_lines at hs
      obtain ⟨sdll, hsd⟩ := safeGlobal_dll pd.global_config hG
      obtain ⟨b, hb⟩ := safeGlobal_nofp pd.global_config hG
      dsimp only at hs
      rw [hsd, hb] at hs
      rcases List.mem_append.mp hs with hs | hs
      · rcases List.mem_append.mp hs with hs | hs
        · rcases List.mem_cons.mp hs with rfl | hs
          · intro x hx
            revert hx
            have : ∀ y ∈ ("[global]" : String).data, y ≠ '\n' := by decide
            exact this x
          rcases List.mem_cons.mp hs with rfl | hs
          · intro x hx
            revert hx
            have : ∀ y ∈ ("# Currently selected profile" : String).data, y ≠ '\n' := by decide
            exact this x
          rcases List.mem_cons.mp hs with rfl | hs
          · intro x hx
            rcases List.mem_append.mp (show x ∈ ("current_profile = \"".data ++
                pd.current_profile.data) ++ ['"'] from hx) with hx | hx
            · rcases List.mem_append.mp hx with hx | hx
              · revert hx
                have : ∀ y ∈ ("current_profile = \"" : String).data, y ≠ '\n' := by decide
                exact this x
              · exact hcur x hx
            · rcases List.mem_singleton.mp hx with rfl
              decide
          rcases List.mem_singleton.mp hs with rfl
          intro x hx
          cases hx
        · by_cases ht : pyTruthy (PyVal.pstr sdll) = true
          · rw [if_pos ht] at hs
            rcases List.mem_cons.mp hs with rfl | hs
            · intro x hx
              revert hx
              have : ∀ y ∈ ("# specify where Lossless.dll is stored" : String).data,
                  y ≠ '\n' := by decide
              exact this x
            rcases List.mem_singleton.mp hs with rfl
            intro x hx
            rcases List.mem_append.mp (show x ∈ ("dll = \"".data ++
                (pyStrFn (PyVal.pstr sdll)).data) ++ ['"'] from hx) with hx | hx
            · rcases List.mem_append.mp hx with hx | hx
              · revert hx
                have : ∀ y ∈ ("dll = \"" : String).data, y ≠ '\n' := by decide
                exact this x
              · exact safeGlobal_dll_nl pd.global_config hG sdll hsd x hx
            · rcases List.mem_singleton.mp hx with rfl
              decide
          · rw [if_neg ht] at hs
            cases hs
      · rcases List.mem_cons.mp hs with rfl | hs
        · intro x hx
          revert hx
          have : ∀ y ∈ ("# force-disable fp16 (use on older nvidia cards)" : String).data,
              y ≠ '\n' := by decide
          exact this x
        rcases List.mem_cons.mp hs with rfl | hs
        · intro x hx
          rcases List.mem_append.mp (show x ∈ "no_fp16 = ".data ++
              (pyLower (pyStrFn (PyVal.pbool b))).data from hx) with hx | hx
          · revert hx
            have : ∀ y ∈ ("no_fp16 = " : String).data, y ≠ '\n' := by decide
            exact this x
          · cases b
            · revert hx
              have : ∀ y ∈ (pyLower (pyStrFn (PyVal.pbool false))).data, y ≠ '\n' := by decide
              exact this x
            · revert hx
              have : ∀ y ∈ (pyLower (pyStrFn (PyVal.pbool true))).data, y ≠ '\n' := by decide
              exact this x
        rcases List.mem_singleton.mp hs with rfl
        intro x hx
        cases hx
  · rcases List.mem_flatten.mp hs with ⟨blk, hblk, hsin⟩
    rcases List.mem_map.mp hblk with ⟨p, hp, rfl⟩
    obtain ⟨hpnl, hpsafe⟩ := hok p hp
    unfold gameBlockLines at hsin
    rcases List.mem_append.mp hsin with hsin | hsin
    · rcases List.mem_cons.mp hsin with rfl | hsin
      · intro x hx
        revert hx
        have : ∀ y ∈ ("[[game]]" : String).data, y ≠ '\n' := by decide
        exact this x
      rcases List.mem_cons.mp hsin with rfl | hsin
      · by_cases hd : (p.1 == DEFAULT_PROFILE_NAME) = true
        · rw [if_pos hd]
          intro x hx
          revert hx
          have : ∀ y ∈ ("# Plugin-managed game entry (default profile)" : String).data,
              y ≠ '\n' := by decide
          exact this x
        · rw [if_neg hd]
          intro x hx
          rcases List.mem_append.mp (show x ∈ "# Profile: ".data ++ p.1.data from hx) with hx | hx
          · revert hx
            have : ∀ y ∈ ("# Profile: " : String).data, y ≠ '\n' := by decide
            exact this x
          · exact hpnl x hx
      rcases List.mem_cons.mp hsin with rfl | hsin
      · intro x hx
        rcases List.mem_append.mp (show x ∈ ("exe = \"".data ++ p.1.data) ++ ['"'] from hx)
            with hx | hx
        · rcases List.mem_append.mp hx with hx | hx
          · revert hx
            have : ∀ y ∈ ("exe = \"" : String).data, y ≠ '\n' := by decide
            exact this x
          · exact hpnl x hx
        · rcases List.mem_singleton.mp hx with rfl
          decide
      rcases List.mem_singleton.mp hsin with rfl
      intro x hx
      cases hx
    · rcases List.mem_flatten.mp hsin with ⟨grp, hgrp, hsin2⟩
      rcases List.mem_map.mp hgrp with ⟨f, hf, rfl⟩
      obtain ⟨v, hv, htv, hsv⟩ := tomlSafe_field_lookup p.2 hpsafe f (List.mem_of_mem_filter hf)
      rw [hv] at hsin2
      rw [show (some v).getD f.default = v from rfl] at hsin2
      exact toml_value_lines_no_newline f v (List.mem_of_mem_filter hf) htv hsv s hsin2

theorem generate_toml_typed (pd : ProfileData)
    (hps : ∀ p ∈ pd.profiles, tomlSafeConfig p.2 = true) :
    generate_toml_content_multi_profile pd =
      some (pyJoinLines ((["version = 1", ""] ++ global_section_lines pd) ++
        (pd.profiles.map (fun p => gameBlockLines p.1 p.2)).flatten)) := by
  unfold generate_toml_content_multi_profile
  rw [mapM_option_eq _ (fun p => gameBlockLines p.1 p.2) _
    (fun p hp => game_section_lines_typed p.1 p.2 (hps p hp))]
  rfl

theorem parse_generate (pd : ProfileData)
    (hok : ∀ p ∈ pd.profiles, p.1.data ≠ [] ∧ (∀ x ∈ p.1.data, x ≠ '\n') ∧
      tomlSafeConfig p.2 = true)
    (hG : safeGlobal pd.global_config = true)
    (hcur : ∀ x ∈ pd.current_profile.data, x ≠ '\n') :
    ∃ t, generate_toml_content_multi_profile pd = some t ∧
      parse_toml_content_multi_profile t = parse_fixup
        ⟨pd.profiles.foldl (fun acc p => alistInsert acc p.1 (parsedProfile p.2)) [],
         parsedGlobal pd.global_config, pd.current_profile, true, false, none, []⟩ := by
  refine ⟨_, generate_toml_typed pd (fun p hp => (hok p hp).2.2), ?_⟩
  unfold parse_toml_content_multi_profile
  rw [pyLines_pyJoinLines _ (by simp)
    (toml_all_lines_no_newline pd (fun p hp => ⟨(hok p hp).2.1, (hok p hp).2.2⟩) hG hcur)]
  rw [List.foldl_append]
  rw [scan_global_opening pd hG]
  obtain ⟨h1, h2, h3⟩ := scan_blocks pd.profiles
    (⟨[], parsedGlobal pd.global_config, pd.current_profile, true, false, none, []⟩ : ScanState)
    (fun p hp => ⟨(hok p hp).1, (hok p hp).2.2⟩) rfl
  exact parse_fixup_congr _ _ (by rw [h1]; rfl) (by rw [h2]; rfl) (by rw [h3]; rfl)

theorem alistGet_map_entries (val : ConfigField → PyVal) :
    ∀ (l : List ConfigField) (f : ConfigField), f ∈ l →
      (l.map (fun g => g.name)).Nodup →
      alistGet (l.map (fun g => (g.name, val g))) f.name = some (val f) := by
  intro l
  induction l with
  | nil => intro f hf _; cases hf
  | cons g t ih =>
    intro f hf hnd
    rw [List.map_cons, alistGet_cons]
    rcases List.mem_cons.mp hf with rfl | hf2
    · rw [if_pos rfl]
    · by_cases he : g.name = f.name
      · exfalso
        have hni := (List.nodup_cons.mp (by rwa [List.map_cons] at hnd)).1
        apply hni
        rw [he]
        exact List.mem_map_of_mem _ hf2
      · rw [if_neg he]
        exact ih f hf2 (List.nodup_cons.mp (by rwa [List.map_cons] at hnd)).2

theorem parsedProfile_keys_nodup (C : List (String × PyVal)) :
    ((tomlGameFields.map (fun f => (f.name, (alistGet C f.name).getD f.default))).map
      Prod.fst).Nodup := by
  rw [show (tomlGameFields.map
      (fun f => (f.name, (alistGet C f.name).getD f.default))).map Prod.fst =
    ["multiplier", "flow_scale", "performance_mode", "hdr_mode",
     "experimental_present_mode", "dxvk_frame_rate", "enable_wow64",
     "disable_steamdeck_mode", "mangohud_workaround", "disable_vkbasalt",
     "force_enable_vkbasalt", "gamescope_frame_pacing", "frame_pacing_target_ms"] from rfl]
  decide

theorem parsedProfile_lookup (C : List (String × PyVal)) (hC : tomlSafeConfig C = true)
    (f : ConfigField) (hf : f ∈ tomlGameFields) :
    alistGet (parsedProfile C) f.name = alistGet C f.name := by
  unfold parsedProfile
  rw [foldl_insert_lookup _ _ _ (parsedProfile_keys_nodup C)]
  rw [alistGet_map_entries _ tomlGameFields f hf (by decide)]
  obtain ⟨v, hv, _, _⟩ := tomlSafe_field_lookup C hC f (List.mem_of_mem_filter hf)
  rw [hv]
  rfl

theorem parsedProfile_lookup_other (C : List (String × PyVal)) (k : String)
    (hk : alistGet (tomlGameFields.map
      (fun f => (f.name, (alistGet C f.name).getD f.default))) k = none) :
    alistGet (parsedProfile C) k = alistGet get_defaults k := by
  unfold parsedProfile
  rw [foldl_insert_lookup _ _ _ (parsedProfile_keys_nodup C)]
  rw [hk]

/-- C1 (amended): for a valid profile name N, a fully populated well-typed
    configuration C whose string fields are nonempty and newline-free, and a
    safe global section, the TOML text generated from the single-profile set
    {current: N, profiles: {N: C}} parses back to a profile set whose entry
    for N agrees with C on every non-global schema field.  (For a string
    field holding the empty string this fails: the generator omits the value
    line and the parser restores the schema default, see the counterexample.) -/
theorem C1_toml_roundtrip_amended (N : String) (C G : List (String × PyVal))
    (hN : validate_profile_name N = true)
    (hC : tomlSafeConfig C = true)
    (hG : safeGlobal G = true) :
    ∃ t, generate_toml_content_multi_profile ⟨N, [(N, C)], G⟩ = some t ∧
      alistGet (parse_toml_content_multi_profile t).profiles N = some (parsedProfile C) ∧
      ∀ f ∈ tomlGameFields, alistGet (parsedProfile C) f.name = alistGet C f.name := by
  obtain ⟨hne, hnl⟩ := valid_name_facts N hN
  obtain ⟨t, hgen, hparse⟩ := parse_generate ⟨N, [(N, C)], G⟩
    (fun p hp => by
      rcases List.mem_singleton.mp hp with rfl
      exact ⟨hne, hnl, hC⟩)
    hG hnl
  refine ⟨t, hgen, ?_, fun f hf => parsedProfile_lookup C hC f hf⟩
  rw [hparse]
  unfold parse_fixup
  dsimp only
  rw [show ([(N, C)].foldl (fun acc p => alistInsert acc p.1 (parsedProfile p.2))
      ([] : List (String × List (String × PyVal)))) = [(N, parsedProfile C)] from rfl]
  rw [show (if ([(N, parsedProfile C)] : List (String × List (String × PyVal))).isEmpty = true
      then alistInsert [(N, parsedProfile C)] DEFAULT_PROFILE_NAME get_defaults
      else [(N, parsedProfile C)]) = [(N, parsedProfile C)] from rfl]
  rw [show alistContains [(N, parsedProfile C)] N = true from by simp [alistContains]]
  rw [if_pos rfl]
  dsimp only
  rw [alistGet_cons]
  rw [if_pos rfl]

/-- Witness for C1: the default configuration under profile name feral
    round-trips on every non-global field. -/
theorem C1_toml_roundtrip_amended_witness :
    validate_profile_name ("feral") = true ∧ tomlSafeConfig get_defaults = true ∧
    (∃ t, generate_toml_content_multi_profile ⟨"feral", [("feral", get_defaults)], []⟩ =
        some t ∧
      alistGet (parse_toml_content_multi_profile t).profiles ("feral") =
        some (parsedProfile get_defaults) ∧
      ∀ f ∈ tomlGameFields,
        alistGet (parsedProfile get_defaults) f.name = alistGet get_defaults f.name) :=
  ⟨by decide, by decide,
   C1_toml_roundtrip_amended ("feral") get_defaults [] (by decide) (by decide) (by decide)⟩

theorem populated_lookup (C : List (String × PyVal)) (hC : populatedConfig C = true) :
    ∀ f ∈ CONFIG_SCHEMA, ∃ v, alistGet C f.name = some v := by
  intro f hf
  exact Option.isSome_iff_exists.mp (List.all_eq_true.mp hC f hf)

theorem game_section_lines_pop (n : String) (C : List (String × PyVal))
    (hC : populatedConfig C = true) :
    game_section_lines n C = some (gameBlockLines n C) := by
  unfold game_section_lines gameBlockLines tomlGameFields
  rw [mapM_option_eq _ (fun f => toml_value_lines f ((alistGet C f.name).getD f.default)) _
    (fun f hf => by
      obtain ⟨v, hv⟩ := populated_lookup C hC f (List.mem_of_mem_filter hf)
      dsimp only
      rw [hv]
      rfl)]
  rfl

theorem generate_toml_pop (pd : ProfileData)
    (hps : ∀ p ∈ pd.profiles, populatedConfig p.2 = true) :
    generate_toml_content_multi_profile pd =
      some (pyJoinLines ((["version = 1", ""] ++ global_section_lines pd) ++
        (pd.profiles.map (fun p => gameBlockLines p.1 p.2)).flatten)) := by
  unfold generate_toml_content_multi_profile
  rw [mapM_option_eq _ (fun p => gameBlockLines p.1 p.2) _
    (fun p hp => game_section_lines_pop p.1 p.2 (hps p hp))]
  rfl

set_option maxRecDepth 100000 in
/-- Counterexample to C1 as stated: with experimental_present_mode set to the
    empty string, the generator omits the value line, and parsing the
    generated text yields the schema default fifo instead of the empty
    string, so the round trip does not preserve empty string fields. -/
theorem C1_counterexample :
    alistGet (alistInsert get_defaults ("experimental_present_mode") (PyVal.pstr ""))
      ("experimental_present_mode") = some (PyVal.pstr "") ∧
    (generate_toml_content_multi_profile
        ⟨"feral",
         [("feral", alistInsert get_defaults ("experimental_present_mode") (PyVal.pstr ""))],
         []⟩).map
      (fun t =>
        alistGet ((alistGet (parse_toml_content_multi_profile t).profiles ("feral")).getD [])
          ("experimental_present_mode")) = some (some (PyVal.pstr "fifo")) := by
  refine ⟨by decide, ?_⟩
  rw [generate_toml_pop
    ⟨"feral",
     [("feral", alistInsert get_defaults ("experimental_present_mode") (PyVal.pstr ""))],
     []⟩ (by decide)]
  rw [Option.map_some']
  unfold parse_toml_content_multi_profile
  rw [pyLines_pyJoinLines _ (by simp) (by decide)]
  decide

theorem foldl_insert_entries_gen {α : Type} (entries : List (String × α)) (E : List (String × α))
    (hnd : (entries.map Prod.fst).Nodup)
    (hfresh : ∀ p ∈ entries, alistContains E p.1 = false) :
    entries.foldl (fun acc p => alistInsert acc p.1 p.2) E = E ++ entries := by
  induction entries generalizing E with
  | nil => simp
  | cons p t ih =>
    rw [List.foldl_cons]
    have hnd' : (t.map Prod.fst).Nodup := by
      rw [List.map_cons] at hnd
      exact (List.nodup_cons.mp hnd).2
    have hfE : alistContains E p.1 = false := hfresh p (by simp)
    have hins : alistInsert E p.1 p.2 = E ++ [(p.1, p.2)] := by
      unfold alistInsert
      rw [hfE]
      simp
    have hfresh' : ∀ q ∈ t, alistContains (E ++ [(p.1, p.2)]) q.1 = false := by
      intro q hq
      rw [alistContains_append, hfresh q (by simp [hq])]
      have hqk : ¬ (p.1 = q.1) := by
        rw [List.map_cons] at hnd
        intro hh
        exact (List.nodup_cons.mp hnd).1 (hh ▸ List.mem_map_of_mem _ hq)
      simp [alistContains, hqk]
    rw [hins, ih (E ++ [(p.1, p.2)]) hnd' hfresh']
    simp

theorem profiles_fold_entries (ps : List (String × List (String × PyVal)))
    (hnd : (ps.map Prod.fst).Nodup) :
    ps.foldl (fun acc p => alistInsert acc p.1 (parsedProfile p.2)) [] =
      ps.map (fun p => (p.1, parsedProfile p.2)) := by
  have h1 : ps.foldl (fun acc p => alistInsert acc p.1 (parsedProfile p.2)) [] =
      (ps.map (fun p => (p.1, parsedProfile p.2))).foldl
        (fun acc q => alistInsert acc q.1 q.2) [] := by
    rw [List.foldl_map]
  rw [h1]
  rw [foldl_insert_entries_gen _ [] (by
      rw [List.map_map]
      exact hnd)
    (fun p hp => rfl)]
  rw [List.nil_append]

theorem alistContains_map_entries (ps : List (String × List (String × PyVal))) (k : String) :
    alistContains (ps.map (fun p => (p.1, parsedProfile p.2))) k = alistContains ps k := by
  induction ps with
  | nil => rfl
  | cons p t ih =>
    rw [List.map_cons, alistContains_cons, alistContains_cons, ih]

theorem parse_fixup_id (st : ScanState) (hne : st.profiles.isEmpty = false)
    (hcont : alistContains st.profiles st.current_profile = true) :
    parse_fixup st = ⟨st.current_profile, st.profiles, st.global_config⟩ := by
  unfold parse_fixup
  dsimp only
  rw [hne]
  rw [show (if false = true then alistInsert st.profiles DEFAULT_PROFILE_NAME get_defaults
      else st.profiles) = st.profiles from rfl]
  rw [hcont, if_pos rfl]

theorem tomlSafe_parsedProfile (C : List (String × PyVal)) (hC : tomlSafeConfig C = true) :
    tomlSafeConfig (parsedProfile C) = true := by
  have hdll : alistGet (parsedProfile C) ("dll") =
      some (PyVal.pstr "/games/Lossless Scaling/Lossless.dll") := by
    rw [parsedProfile_lookup_other C ("dll") rfl]
    rfl
  have hother : ∀ f ∈ CONFIG_SCHEMA_DEF, ¬ (f.name = "dll") → ∃ g ∈ tomlGameFields,
      g.name = f.name ∧ g.field_type = f.field_type := by decide
  unfold tomlSafeConfig typedConfig
  apply Bool.and_eq_true_iff.mpr
  constructor
  · apply List.all_eq_true.mpr
    intro f hf
    by_cases hd : f.name = "dll"
    · rw [hd, hdll]
      have hft : ∀ g ∈ CONFIG_SCHEMA_DEF, g.name = "dll" →
          g.field_type = ConfigFieldType.string := by decide
      rw [hft f hf hd]
      rfl
    · obtain ⟨g, hg, hgn, hgt⟩ := hother f hf hd
      have hl := parsedProfile_lookup C hC g hg
      rw [hgn] at hl
      rw [hl]
      exact List.all_eq_true.mp (Bool.and_eq_true_iff.mp hC).1 f hf
  · apply List.all_eq_true.mpr
    intro f hf
    by_cases hd : f.name = "dll"
    · rw [hd, hdll]
      rfl
    · obtain ⟨g, hg, hgn, _⟩ := hother f hf hd
      have hl := parsedProfile_lookup C hC g hg
      rw [hgn] at hl
      rw [hl]
      exact List.all_eq_true.mp (Bool.and_eq_true_iff.mp hC).2 f hf

theorem gameBlockLines_parsed (n : String) (C : List (String × PyVal))
    (hC : tomlSafeConfig C = true) :
    gameBlockLines n (parsedProfile C) = gameBlockLines n C := by
  unfold gameBlockLines
  have hmap : tomlGameFields.map
      (fun f => toml_value_lines f ((alistGet (parsedProfile C) f.name).getD f.default)) =
      tomlGameFields.map
        (fun f => toml_value_lines f ((alistGet C f.name).getD f.default)) :=
    List.map_congr_left (fun f hf => by rw [parsedProfile_lookup C hC f hf])
  rw [hmap]

theorem global_section_lines_parsed (pd : ProfileData)
    (hG : safeGlobal pd.global_config = true)
    (P2 : List (String × List (String × PyVal))) :
    global_section_lines ⟨pd.current_profile, P2, parsedGlobal pd.global_config⟩ =
      global_section_lines pd := by
  obtain ⟨s, hs⟩ := safeGlobal_dll pd.global_config hG
  obtain ⟨b, hb⟩ := safeGlobal_nofp pd.global_config hG
  unfold global_section_lines
  dsimp only
  rw [hs, hb]
  by_cases ht : pyTruthy (PyVal.pstr s) = true
  · have h1 : (alistGet (parsedGlobal pd.global_config) ("dll")).getD (.pstr "") =
        PyVal.pstr s := by
      unfold parsedGlobal
      rw [hs, if_pos ht]
      rfl
    have h2 : (alistGet (parsedGlobal pd.global_config) ("no_fp16")).getD (.pbool false) =
        PyVal.pbool b := by
      unfold parsedGlobal
      rw [hs, hb, if_pos ht]
      rfl
    rw [h1, h2]
  · have h1 : (alistGet (parsedGlobal pd.global_config) ("dll")).getD (.pstr "") =
        PyVal.pstr "" := by
      unfold parsedGlobal
      rw [hs, if_neg ht]
      rfl
    have h2 : (alistGet (parsedGlobal pd.global_config) ("no_fp16")).getD (.pbool false) =
        PyVal.pbool b := by
      unfold parsedGlobal
      rw [hs, hb, if_neg ht]
      rfl
    rw [h1, h2]
    rw [if_neg (by decide : ¬ (pyTruthy (PyVal.pstr "") = true)), if_neg ht]

attribute [irreducible] parsedProfile

set_option maxHeartbeats 1000000 in
/-- C8 (amended): for a ProfileData whose profile names are distinct valid
    names, whose current_profile is one of them, whose configurations are
    fully populated and well typed with nonempty newline-free string fields,
    and whose global section is well formed, one generate/parse round trip
    is idempotent: generating, parsing and generating again reproduces the
    first generated text exactly.  (With an empty string field generation
    still succeeds but the parsed profile differs, see the counterexample.) -/
theorem C8_toml_idempotent_amended (x : ProfileData)
    (hnd : (x.profiles.map Prod.fst).Nodup)
    (hnames : ∀ p ∈ x.profiles, validate_profile_name p.1 = true)
    (hps : ∀ p ∈ x.profiles, tomlSafeConfig p.2 = true)
    (hG : safeGlobal x.global_config = true)
    (hcurv : validate_profile_name x.current_profile = true)
    (hcur : alistContains x.profiles x.current_profile = true) :
    ∃ t, generate_toml_content_multi_profile x = some t ∧
      generate_toml_content_multi_profile (parse_toml_content_multi_profile t) = some t := by
  obtain ⟨t, hgen, hparse⟩ := parse_generate x
    (fun p hp => ⟨(valid_name_facts p.1 (hnames p hp)).1,
      (valid_name_facts p.1 (hnames p hp)).2, hps p hp⟩)
    hG (valid_name_facts _ hcurv).2
  refine ⟨t, hgen, ?_⟩
  rw [hparse]
  rw [show (⟨x.profiles.foldl (fun acc p => alistInsert acc p.1 (parsedProfile p.2)) [],
      parsedGlobal x.global_config, x.current_profile, true, false, none, []⟩ : ScanState) =
    ⟨x.profiles.map (fun p => (p.1, parsedProfile p.2)),
      parsedGlobal x.global_config, x.current_profile, true, false, none, []⟩ from by
    rw [profiles_fold_entries x.profiles hnd]]
  rw [parse_fixup_id _
    (by
      cases hps2 : x.profiles with
      | nil =>
        rw [hps2] at hcur
        exact Bool.noConfusion hcur
      | cons a b => rfl)
    (by
      dsimp only
      rw [alistContains_map_entries]
      exact hcur)]
  dsimp only
  rw [generate_toml_typed
    (⟨x.current_profile, x.profiles.map (fun p => (p.1, parsedProfile p.2)),
      parsedGlobal x.global_config⟩ : ProfileData)
    (fun p hp => by
      rcases List.mem_map.mp hp with ⟨q, hq, rfl⟩
      exact tomlSafe_parsedProfile q.2 (hps q hq))]
  have hgen2 := generate_toml_typed x hps
  rw [hgen2] at hgen
  injection hgen with ht
  rw [← ht]
  rw [global_section_lines_parsed x hG (x.profiles.map (fun p => (p.1, parsedProfile p.2)))]
  rw [List.map_map]
  rw [show ((fun p => gameBlockLines p.1 p.2) ∘
      (fun p : String × List (String × PyVal) => (p.1, parsedProfile p.2))) =
    (fun p : String × List (String × PyVal) => gameBlockLines p.1 (parsedProfile p.2))
    from rfl]
  rw [List.map_congr_left (fun p hp => gameBlockLines_parsed p.1 p.2 (hps p hp))]

/-- Witness for C8: the single-profile set with the default configuration
    under name feral generates a text that parses and regenerates to the
    same text. -/
theorem C8_toml_idempotent_amended_witness :
    tomlSafeConfig get_defaults = true ∧ safeGlobal [] = true ∧
    (∃ t,
      generate_toml_content_multi_profile ⟨"feral", [("feral", get_defaults)], []⟩ = some t ∧
      generate_toml_content_multi_profile (parse_toml_content_multi_profile t) = some t) :=
  ⟨by decide, by decide,
   C8_toml_idempotent_amended ⟨"feral", [("feral", get_defaults)], []⟩
     (by decide) (by decide) (by decide) (by decide) (by decide) (by decide)⟩

set_option maxRecDepth 100000 in
/-- Counterexample to C8 as stated: c8_input is fully populated and its
    current profile feral is a key of its profile map, but its
    experimental_present_mode holds the empty string, so the generator omits
    that value line, parsing restores the schema default fifo, and the
    second generation emits a value line the first text does not have: the
    round trip is not idempotent on empty string fields. -/
theorem C8_counterexample :
    populatedConfig (alistInsert get_defaults ("experimental_present_mode") (PyVal.pstr "")) =
      true ∧
    alistContains c8_input.profiles c8_input.current_profile = true ∧
    ∃ t t2,
      generate_toml_content_multi_profile c8_input = some t ∧
      generate_toml_content_multi_profile (parse_toml_content_multi_profile t) = some t2 ∧
      t2 ≠ t := by
  refine ⟨by decide, by decide, ?_⟩
  have hg1 := generate_toml_pop c8_input (by decide)
  have hX : parse_toml_content_multi_profile
      (pyJoinLines ((["version = 1", ""] ++ global_section_lines c8_input) ++
        (c8_input.profiles.map (fun p => gameBlockLines p.1 p.2)).flatten)) = c8_reparsed := by
    unfold parse_toml_content_multi_profile
    rw [pyLines_pyJoinLines _ (by simp) (by decide)]
    decide
  have hg2 := generate_toml_pop c8_reparsed (by decide)
  refine ⟨pyJoinLines ((["version = 1", ""] ++ global_section_lines c8_input) ++
      (c8_input.profiles.map (fun p => gameBlockLines p.1 p.2)).flatten),
    pyJoinLines ((["version = 1", ""] ++ global_section_lines c8_reparsed) ++
      (c8_reparsed.profiles.map (fun p => gameBlockLines p.1 p.2)).flatten),
    hg1, ?_, ?_⟩
  · rw [hX]
    exact hg2
  · intro h
    have h2 := congrArg pyLines h
    rw [pyLines_pyJoinLines _ (by simp) (by decide),
      pyLines_pyJoinLines _ (by simp) (by decide)] at h2
    exact absurd h2 (by decide)
